import Mathlib

/-!
# go-todo-api: service, repository contract and request surface

A shallow embedding of `internal/models/todo.go`, `internal/repository/todo_repository.go`,
`internal/services/todo_service.go`, `internal/handlers/todo_handler.go` and
`pkg/response/response.go`.

Conventions of the embedding

* Go's `int` / `int64` values are mathematical integers (`Int`); the one place where the
  source multiplies them (`offset` in the repository) wraps to 64 bits explicitly.
* `float64` values are exact dyadic numbers `m * 2^e` with round-to-nearest-even
  conversions, see `F64`.
* A Go `error` is a `GoError`; `(T, error)` results are `Except GoError T`, a bare `error`
  result is `Option GoError`.
* The interfaces `repository.TodoRepository` and `services.TodoService` are records of
  state-passing functions over an arbitrary state type, so that the service can be studied
  against every repository, and the handlers against every service.
* The relational store behind `todoRepository` is a table `DB.rows` of `Todo` rows. What the
  outside world contributes to a statement (the clock, the fresh identifier, a failure of
  the store) is read from an `Env`, indexed by the number of statements executed so far.
* Of the libraries the request surface calls, `strconv.Atoi` and the `validate` tags are
  written out (`strconv.Atoi`, `validateCreateTodoRequest`, `validateUpdateTodoRequest`);
  `uuid.Parse` and the JSON decoding of a body are parameters (`Decoders`).
* Of the ORM, each call the repository makes is written out as the statements it sends;
  `Save`, which sends up to two, has a definition of its own (`gorm.Save`).
-/

/-! ## Basic types -/

/-- Identifier type `uuid.UUID`, kept as the numeric value of its 128 bits. -/
abbrev UUID := Nat

/-- The nil identifier `uuid.Nil`. -/
def UUID.Nil : UUID := 0

/-- Instant `time.Time`, kept as a count of clock units; `0` is the zero time. -/
abbrev Time := Nat

/-- Priority level, `type Priority string`. -/
abbrev Priority := String

/-- Constant `PriorityLow`. -/
def PriorityLow : Priority := "low"

/-- Constant `PriorityMedium`. -/
def PriorityMedium : Priority := "medium"

/-- Constant `PriorityHigh`. -/
def PriorityHigh : Priority := "high"

/-- Constant `PriorityUrgent`. -/
def PriorityUrgent : Priority := "urgent"

/-- Go error values, as far as the program builds and inspects them. -/
inductive GoError where
  /-- The sentinel `gorm.ErrRecordNotFound`. -/
  | ErrRecordNotFound
  /-- Any other error reported by the ORM or the database driver. -/
  | driver (msg : String)
  /-- An error built by `fmt.Errorf(msg)` without a wrapped cause. -/
  | new (msg : String)
  /-- An error built by `fmt.Errorf(context + ": %w", cause)`. -/
  | wrap (context : String) (cause : GoError)
  deriving DecidableEq, Repr

/-- Message of an error, `err.Error()`. -/
def GoError.Error : GoError → String
  | .ErrRecordNotFound => "record not found"
  | .driver msg => msg
  | .new msg => msg
  | .wrap context cause => context ++ ": " ++ cause.Error

/-- Test `errors.Is(err, target)`: `target` occurs in the wrap chain of `err`. -/
def GoError.Is : GoError → GoError → Bool
  | .wrap context cause, target =>
      (GoError.wrap context cause == target) || cause.Is target
  | err, target => err == target

/-! ## float64 arithmetic used by the pagination metadata -/

/-- A finite `float64` value `(-1)^neg * m * 2^e`. The exponent range of the format is not
modelled: the values the program computes lie between `2^-7` and `2^64`. -/
structure F64 where
  neg : Bool
  m : Nat
  e : Int
  deriving DecidableEq, Repr

/-- Quotient `n / d` rounded to the nearest integer, ties to the even one. -/
def rneDiv (n d : Nat) : Nat :=
  let q := n / d
  let r := n % d
  if 2 * r < d then q else if d < 2 * r then q + 1 else if q % 2 = 0 then q else q + 1

/-- Helper of `ilog2`: at most `fuel` halvings. -/
def log2Fuel : Nat → Nat → Nat
  | 0, _ => 0
  | fuel + 1, n => if 2 ≤ n then log2Fuel fuel (n / 2) + 1 else 0

/-- Position of the leading bit of `n`: the `k` with `2^k ≤ n < 2^(k+1)` for `n > 0`. -/
def ilog2 (n : Nat) : Nat := log2Fuel n n

/-- Exponent `e` of the unit in the last place of the positive quotient `N / D`:
`2^52 ≤ (N / D) / 2^e < 2^53`. -/
def binade (N D : Nat) : Int :=
  let e0 : Int := (ilog2 N : Int) - (ilog2 D : Int) - 52
  if N * 2 ^ (-e0).toNat < 2 ^ 52 * (D * 2 ^ e0.toNat) then e0 - 1 else e0

/-- Nearest `float64` to the quotient `N / D` (`D > 0`) with the given sign: a 53-bit
significand, round to nearest, ties to even. -/
def F64.round (neg : Bool) (N D : Nat) : F64 :=
  if N = 0 then ⟨neg, 0, 0⟩
  else
    let e := binade N D
    ⟨neg, rneDiv (N * 2 ^ (-e).toNat) (D * 2 ^ e.toNat), e⟩

/-- Conversion `float64(n)` of an integer. -/
def F64.ofInt (n : Int) : F64 := F64.round (decide (n < 0)) n.natAbs 1

/-- Division `x / y` of two `float64` values, `y` non-zero (the service divides by a page
size between 1 and 100). -/
def F64.div (x y : F64) : F64 :=
  F64.round (xor x.neg y.neg) (x.m * 2 ^ (x.e - y.e).toNat) (y.m * 2 ^ (y.e - x.e).toNat)

/-- Function `math.Ceil`. -/
def F64.ceil (x : F64) : F64 :=
  if 0 ≤ x.e then x
  else if x.neg then ⟨true, x.m / 2 ^ (-x.e).toNat, 0⟩
  else ⟨false, (x.m + 2 ^ (-x.e).toNat - 1) / 2 ^ (-x.e).toNat, 0⟩

/-- The integer part of a `float64` value, fraction dropped (truncation toward zero). -/
def F64.trunc (x : F64) : Int :=
  let mag : Nat := if 0 ≤ x.e then x.m * 2 ^ x.e.toNat else x.m / 2 ^ (-x.e).toNat
  if x.neg then -(mag : Int) else mag

/-- Conversion `int(x)`: truncation toward zero. For a value whose integer part is outside
the 64-bit range Go leaves the result to the implementation; the conversion instruction of
amd64 (`CVTTSD2SQ`) then yields the smallest `int64`, which is what is returned here. -/
def F64.toInt (x : F64) : Int :=
  if -(2 ^ 63) ≤ x.trunc ∧ x.trunc < 2 ^ 63 then x.trunc else -(2 ^ 63)

/-- The rational number a `float64` value denotes. -/
def F64.toRat (x : F64) : ℚ :=
  (if x.neg then -1 else 1) * (x.m : ℚ) * (2 : ℚ) ^ x.e

/-! ## Models (`internal/models/todo.go`) -/

/-- Entity `Todo`. -/
structure Todo where
  ID : UUID
  Title : String
  Description : String
  Completed : Bool
  Priority : Priority
  DueDate : Option Time
  CreatedAt : Time
  UpdatedAt : Time
  /-- Soft-delete marker `gorm.DeletedAt`: `none` for a live row. -/
  DeletedAt : Option Time
  deriving DecidableEq, Repr

/-- Request body `CreateTodoRequest`. -/
structure CreateTodoRequest where
  Title : String
  Description : String
  Priority : Priority
  DueDate : Option Time
  deriving DecidableEq, Repr

/-- Request body `UpdateTodoRequest`: every field is a pointer, `none` is the nil pointer. -/
structure UpdateTodoRequest where
  Title : Option String
  Description : Option String
  Completed : Option Bool
  Priority : Option Priority
  DueDate : Option Time
  deriving DecidableEq, Repr

/-- Response body `TodoResponse`. -/
structure TodoResponse where
  ID : UUID
  Title : String
  Description : String
  Completed : Bool
  Priority : Priority
  DueDate : Option Time
  CreatedAt : Time
  UpdatedAt : Time
  deriving DecidableEq, Repr

/-- Method `Todo.ToResponse`. -/
def Todo.ToResponse (t : Todo) : TodoResponse :=
  { ID := t.ID
    Title := t.Title
    Description := t.Description
    Completed := t.Completed
    Priority := t.Priority
    DueDate := t.DueDate
    CreatedAt := t.CreatedAt
    UpdatedAt := t.UpdatedAt }

/-- Pagination metadata `Meta`. -/
structure Meta where
  Total : Int
  Page : Int
  PerPage : Int
  TotalPages : Int
  HasNext : Bool
  HasPrevious : Bool
  deriving DecidableEq, Repr

/-- Response body `TodoListResponse`. -/
structure TodoListResponse where
  Data : List TodoResponse
  Meta : Meta
  deriving DecidableEq, Repr

/-! ## Repository (`internal/repository/todo_repository.go`) -/

/-- Interface `TodoRepository`. Each method takes the state of the world behind the
repository and returns the state it leaves. `Create` and `Update` receive a `*models.Todo`
and write to it: on success they return the record as the call left it. -/
structure TodoRepository (σ : Type) where
  Create : σ → Todo → σ × Except GoError Todo
  GetByID : σ → UUID → σ × Except GoError Todo
  GetAll : σ → Int → Int → σ × Except GoError (List Todo × Int)
  Update : σ → Todo → σ × Except GoError Todo
  Delete : σ → UUID → σ × Option GoError
  Toggle : σ → UUID → σ × Option GoError

/-- What the outside world contributes to the `k`-th statement sent to the store. -/
structure Env where
  /-- Clock reading the ORM takes for the statement (`autoCreateTime`, `autoUpdateTime`,
  the soft-delete marker). -/
  now : Nat → Time
  /-- Identifier `uuid.New()` returns in the `BeforeCreate` hook. -/
  newID : Nat → UUID
  /-- Error with which the store rejects the statement, if it does (lost connection,
  cancelled context, violated column constraint). -/
  fault : Nat → Option String

/-- The store behind `*gorm.DB`: the table `todos` in insertion order, soft-deleted rows
included, and the number of statements executed so far. -/
structure DB where
  rows : List Todo
  stmts : Nat
  deriving DecidableEq, Repr

/-- Row filter of every query and update on a model with a `gorm.DeletedAt` column:
`id = ? AND deleted_at IS NULL`. -/
def liveWithID (id : UUID) (t : Todo) : Bool := t.ID == id && t.DeletedAt.isNone

/-- Row filter `deleted_at IS NULL`. -/
def live (t : Todo) : Bool := t.DeletedAt.isNone

/-- Hook `Todo.BeforeCreate`: a nil identifier is replaced by a fresh one. -/
def Todo.BeforeCreate (t : Todo) (fresh : UUID) : Todo :=
  if t.ID = UUID.Nil then { t with ID := fresh } else t

/-- A Go `int` product or difference reduced to the signed 64-bit range. -/
def wrapInt64 (x : Int) : Int := (x + 2 ^ 63) % 2 ^ 64 - 2 ^ 63

/-- Clause `Order("created_at DESC")`; rows with equal `created_at` keep table order. -/
def orderByCreatedAtDesc (rows : List Todo) : List Todo :=
  rows.insertionSort (fun a b => b.CreatedAt ≤ a.CreatedAt)

/-- Clause `Offset(offset)`: the ORM emits it only for a positive offset. -/
def applyOffset (offset : Int) (rows : List Todo) : List Todo :=
  if 0 < offset then rows.drop offset.toNat else rows

/-- Clause `Limit(limit)`: the ORM emits it only for a non-negative limit. -/
def applyLimit (limit : Int) (rows : List Todo) : List Todo :=
  if 0 ≤ limit then rows.take limit.toNat else rows

/-- Method `todoRepository.Create`: `db.Create(todo)`. The `BeforeCreate` hook runs, zero
`CreatedAt` / `UpdatedAt` are set to the clock (`autoCreateTime`, `autoUpdateTime`), an
empty priority takes the column default (`default:medium`), and the row is inserted unless
the store rejects it or the primary key is taken. The error is returned unwrapped. -/
def todoRepository.Create (env : Env) (db : DB) (todo : Todo) : DB × Except GoError Todo :=
  let k := db.stmts
  let todo := todo.BeforeCreate (env.newID k)
  let todo :=
    { todo with
      CreatedAt := if todo.CreatedAt = 0 then env.now k else todo.CreatedAt
      UpdatedAt := if todo.UpdatedAt = 0 then env.now k else todo.UpdatedAt
      Priority := if todo.Priority = "" then "medium" else todo.Priority }
  match env.fault k with
  | some msg => ({ db with stmts := k + 1 }, .error (.driver msg))
  | none =>
    if db.rows.any (fun r => r.ID == todo.ID) then
      ({ db with stmts := k + 1 }, .error (.driver "duplicate key value violates unique constraint"))
    else
      ({ rows := db.rows ++ [todo], stmts := k + 1 }, .ok todo)

/-- Method `todoRepository.GetByID`: `db.Where("id = ?", id).First(&todo)`. -/
def todoRepository.GetByID (env : Env) (db : DB) (id : UUID) : DB × Except GoError Todo :=
  let k := db.stmts
  match env.fault k with
  | some msg => ({ db with stmts := k + 1 }, .error (.wrap "failed to get todo" (.driver msg)))
  | none =>
    match db.rows.find? (liveWithID id) with
    | none => ({ db with stmts := k + 1 }, .error (.wrap "todo not found" .ErrRecordNotFound))
    | some todo => ({ db with stmts := k + 1 }, .ok todo)

/-- Method `todoRepository.GetAll`: a `Count` statement, then the page query
`Order("created_at DESC").Offset(offset).Limit(perPage).Find(&todos)`. -/
def todoRepository.GetAll (env : Env) (db : DB) (page perPage : Int) :
    DB × Except GoError (List Todo × Int) :=
  let k := db.stmts
  match env.fault k with
  | some msg =>
    ({ db with stmts := k + 1 }, .error (.wrap "failed to count todos" (.driver msg)))
  | none =>
    let total : Int := (db.rows.filter live).length
    let offset := wrapInt64 ((page - 1) * perPage)
    match env.fault (k + 1) with
    | some msg =>
      ({ db with stmts := k + 2 }, .error (.wrap "failed to get todos" (.driver msg)))
    | none =>
      let todos := applyLimit perPage (applyOffset offset (orderByCreatedAtDesc (db.rows.filter live)))
      ({ db with stmts := k + 2 }, .ok (todos, total))

/-- What a write through the ORM reports to its caller: `result.Error`,
`result.RowsAffected`, and the record as the call left it. -/
structure gorm.Result where
  Error : Option GoError
  RowsAffected : Nat
  Value : Todo
  deriving DecidableEq, Repr

/-- Call `db.Save(todo)` of the ORM, for a record with an identifier.

`Save` first sends `UPDATE todos SET <every column> WHERE id = ? AND deleted_at IS NULL`,
with `updated_at` set to the clock (`autoUpdateTime`), in the row and in the record. When
that statement affects no row, `Save` sends a second one,
`INSERT ... ON CONFLICT (id) DO UPDATE SET <every column but id and created_at>`: zero
timestamps and an empty priority are filled as on `Create`; a row that holds the identifier
(a soft-deleted one, since no live row matched) takes the columns of the record,
`deleted_at` included, keeps its `created_at` and gets the clock as `updated_at`; without
such a row the record is inserted. The second statement affects one row.

A record with the nil identifier, which `Save` hands to `Create`, is not covered: the
`BeforeCreate` hook replaces the nil identifier, so no row carries it and neither does the
record the service passes, which is the one `GetByID` has just returned. -/
def gorm.Save (env : Env) (db : DB) (todo : Todo) : DB × gorm.Result :=
  let k := db.stmts
  let saved := { todo with UpdatedAt := env.now k }
  match env.fault k with
  | some msg =>
    ({ db with stmts := k + 1 }, { Error := some (.driver msg), RowsAffected := 0, Value := saved })
  | none =>
    let rowsAffected := (db.rows.filter (liveWithID todo.ID)).length
    if rowsAffected = 0 then
      let inserted :=
        { saved with
          CreatedAt := if saved.CreatedAt = 0 then env.now (k + 1) else saved.CreatedAt
          UpdatedAt := if saved.UpdatedAt = 0 then env.now (k + 1) else saved.UpdatedAt
          Priority := if saved.Priority = "" then "medium" else saved.Priority }
      match env.fault (k + 1) with
      | some msg =>
        ({ db with stmts := k + 2 },
         { Error := some (.driver msg), RowsAffected := 0, Value := inserted })
      | none =>
        if db.rows.any (fun r => r.ID == todo.ID) then
          ({ rows := db.rows.map
                (fun r =>
                  if r.ID == todo.ID then
                    { inserted with CreatedAt := r.CreatedAt, UpdatedAt := env.now (k + 1) }
                  else r),
             stmts := k + 2 }, { Error := none, RowsAffected := 1, Value := inserted })
        else
          ({ rows := db.rows ++ [inserted], stmts := k + 2 },
           { Error := none, RowsAffected := 1, Value := inserted })
    else
      ({ rows := db.rows.map (fun r => if liveWithID todo.ID r then saved else r),
         stmts := k + 1 }, { Error := none, RowsAffected := rowsAffected, Value := saved })

/-- Method `todoRepository.Update`: `result := db.Save(todo)`, then the two checks of
`result.Error` and `result.RowsAffected`. -/
def todoRepository.Update (env : Env) (db : DB) (todo : Todo) : DB × Except GoError Todo :=
  match gorm.Save env db todo with
  | (db1, result) =>
    match result.Error with
    | some err => (db1, .error (.wrap "failed to update todo" err))
    | none =>
      if result.RowsAffected = 0 then (db1, .error (.new "todo not found"))
      else (db1, .ok result.Value)

/-- Method `todoRepository.Delete`: `db.Where("id = ?", id).Delete(&models.Todo{})`, a soft
delete that sets `deleted_at` on the live row with that identifier. -/
def todoRepository.Delete (env : Env) (db : DB) (id : UUID) : DB × Option GoError :=
  let k := db.stmts
  match env.fault k with
  | some msg => ({ db with stmts := k + 1 }, some (.wrap "failed to delete todo" (.driver msg)))
  | none =>
    let rowsAffected := (db.rows.filter (liveWithID id)).length
    if rowsAffected = 0 then
      ({ db with stmts := k + 1 }, some (.new "todo not found"))
    else
      ({ rows := db.rows.map
            (fun r => if liveWithID id r then { r with DeletedAt := some (env.now k) } else r),
         stmts := k + 1 }, none)

/-- Method `todoRepository.Toggle`:
`db.Model(&models.Todo{}).Where("id = ?", id).Update("completed", gorm.Expr("NOT completed"))`.
An `Update` through the model also sets the `autoUpdateTime` column `updated_at`. -/
def todoRepository.Toggle (env : Env) (db : DB) (id : UUID) : DB × Option GoError :=
  let k := db.stmts
  match env.fault k with
  | some msg => ({ db with stmts := k + 1 }, some (.wrap "failed to toggle todo" (.driver msg)))
  | none =>
    let rowsAffected := (db.rows.filter (liveWithID id)).length
    if rowsAffected = 0 then
      ({ db with stmts := k + 1 }, some (.new "todo not found"))
    else
      ({ rows := db.rows.map
            (fun r =>
              if liveWithID id r then
                { r with Completed := !r.Completed, UpdatedAt := env.now k }
              else r),
         stmts := k + 1 }, none)

/-- Constructor `NewTodoRepository`, over a store whose environment is `env`. -/
def NewTodoRepository (env : Env) : TodoRepository DB :=
  { Create := todoRepository.Create env
    GetByID := todoRepository.GetByID env
    GetAll := todoRepository.GetAll env
    Update := todoRepository.Update env
    Delete := todoRepository.Delete env
    Toggle := todoRepository.Toggle env }

/-! ## Service (`internal/services/todo_service.go`) -/

/-- Interface `TodoService`. -/
structure TodoService (σ : Type) where
  Create : σ → CreateTodoRequest → σ × Except GoError TodoResponse
  GetByID : σ → UUID → σ × Except GoError TodoResponse
  GetAll : σ → Int → Int → σ × Except GoError TodoListResponse
  Update : σ → UUID → UpdateTodoRequest → σ × Except GoError TodoResponse
  Delete : σ → UUID → σ × Option GoError
  Toggle : σ → UUID → σ × Except GoError TodoResponse

/-- Method `todoService.Create`. -/
def todoService.Create {σ : Type} (repo : TodoRepository σ) (s : σ) (req : CreateTodoRequest) :
    σ × Except GoError TodoResponse :=
  let req := if req.Priority = "" then { req with Priority := PriorityMedium } else req
  let todo : Todo :=
    { ID := UUID.Nil
      Title := req.Title
      Description := req.Description
      Priority := req.Priority
      DueDate := req.DueDate
      Completed := false
      CreatedAt := 0
      UpdatedAt := 0
      DeletedAt := none }
  match repo.Create s todo with
  | (s1, .error err) => (s1, .error (.wrap "failed to create todo" err))
  | (s1, .ok todo) => (s1, .ok todo.ToResponse)

/-- Method `todoService.GetByID`. -/
def todoService.GetByID {σ : Type} (repo : TodoRepository σ) (s : σ) (id : UUID) :
    σ × Except GoError TodoResponse :=
  match repo.GetByID s id with
  | (s1, .error err) => (s1, .error (.wrap "failed to get todo" err))
  | (s1, .ok todo) => (s1, .ok todo.ToResponse)

/-- Method `todoService.GetAll`. -/
def todoService.GetAll {σ : Type} (repo : TodoRepository σ) (s : σ) (page perPage : Int) :
    σ × Except GoError TodoListResponse :=
  let page := if page < 1 then 1 else page
  let perPage := if perPage < 1 ∨ perPage > 100 then 20 else perPage
  match repo.GetAll s page perPage with
  | (s1, .error err) => (s1, .error (.wrap "failed to get todos" err))
  | (s1, .ok (todos, total)) =>
    let responses := todos.map Todo.ToResponse
    let totalPages := F64.toInt (F64.ceil (F64.div (F64.ofInt total) (F64.ofInt perPage)))
    let totalPages := if totalPages = 0 then 1 else totalPages
    let meta : Meta :=
      { Total := total
        Page := page
        PerPage := perPage
        TotalPages := totalPages
        HasNext := decide (page < totalPages)
        HasPrevious := decide (page > 1) }
    (s1, .ok { Data := responses, Meta := meta })

/-- Method `todoService.Update`. -/
def todoService.Update {σ : Type} (repo : TodoRepository σ) (s : σ) (id : UUID)
    (req : UpdateTodoRequest) : σ × Except GoError TodoResponse :=
  match repo.GetByID s id with
  | (s1, .error err) => (s1, .error (.wrap "failed to get todo" err))
  | (s1, .ok todo) =>
    let todo := match req.Title with
      | some title => { todo with Title := title }
      | none => todo
    let todo := match req.Description with
      | some description => { todo with Description := description }
      | none => todo
    let todo := match req.Completed with
      | some completed => { todo with Completed := completed }
      | none => todo
    let todo := match req.Priority with
      | some priority => { todo with Priority := priority }
      | none => todo
    let todo := match req.DueDate with
      | some dueDate => { todo with DueDate := some dueDate }
      | none => todo
    match repo.Update s1 todo with
    | (s2, .error err) => (s2, .error (.wrap "failed to update todo" err))
    | (s2, .ok todo) => (s2, .ok todo.ToResponse)

/-- Method `todoService.Delete`. -/
def todoService.Delete {σ : Type} (repo : TodoRepository σ) (s : σ) (id : UUID) :
    σ × Option GoError :=
  match repo.Delete s id with
  | (s1, some err) => (s1, some (.wrap "failed to delete todo" err))
  | (s1, none) => (s1, none)

/-- Method `todoService.Toggle`. -/
def todoService.Toggle {σ : Type} (repo : TodoRepository σ) (s : σ) (id : UUID) :
    σ × Except GoError TodoResponse :=
  match repo.Toggle s id with
  | (s1, some err) => (s1, .error (.wrap "failed to toggle todo" err))
  | (s1, none) =>
    match repo.GetByID s1 id with
    | (s2, .error err) => (s2, .error (.wrap "failed to get updated todo" err))
    | (s2, .ok todo) => (s2, .ok todo.ToResponse)

/-- Constructor `NewTodoService`. -/
def NewTodoService {σ : Type} (repo : TodoRepository σ) : TodoService σ :=
  { Create := todoService.Create repo
    GetByID := todoService.GetByID repo
    GetAll := todoService.GetAll repo
    Update := todoService.Update repo
    Delete := todoService.Delete repo
    Toggle := todoService.Toggle repo }

/-! ## Response envelopes (`pkg/response/response.go`) -/

/-- Status `http.StatusOK`. -/
def http.StatusOK : Nat := 200

/-- Status `http.StatusCreated`. -/
def http.StatusCreated : Nat := 201

/-- Status `http.StatusBadRequest`. -/
def http.StatusBadRequest : Nat := 400

/-- Status `http.StatusNotFound`. -/
def http.StatusNotFound : Nat := 404

/-- Status `http.StatusInternalServerError`. -/
def http.StatusInternalServerError : Nat := 500

/-- The values the handlers pass as `data interface{}`. -/
inductive Payload where
  | todo (t : TodoResponse)
  | list (l : TodoListResponse)
  deriving DecidableEq, Repr

/-- What `c.JSON(status, body)` writes: the status with the fields of `SuccessResponse`
(`data`) or `ErrorResponse` (`error`). -/
structure HTTPResponse where
  status : Nat
  success : Bool
  message : String
  data : Option Payload
  error : Option GoError
  deriving DecidableEq, Repr

/-- Function `response.OK`. -/
def response.OK (message : String) (data : Option Payload) : HTTPResponse :=
  { status := http.StatusOK, success := true, message := message, data := data, error := none }

/-- Function `response.Created`. -/
def response.Created (message : String) (data : Option Payload) : HTTPResponse :=
  { status := http.StatusCreated, success := true, message := message, data := data,
    error := none }

/-- Function `response.BadRequest`. -/
def response.BadRequest (message : String) (err : GoError) : HTTPResponse :=
  { status := http.StatusBadRequest, success := false, message := message, data := none,
    error := some err }

/-- Function `response.NotFound`. -/
def response.NotFound (message : String) (err : GoError) : HTTPResponse :=
  { status := http.StatusNotFound, success := false, message := message, data := none,
    error := some err }

/-- Function `response.InternalServerError`. -/
def response.InternalServerError (message : String) (err : GoError) : HTTPResponse :=
  { status := http.StatusInternalServerError, success := false, message := message,
    data := none, error := some err }

/-! ## Handlers (`internal/handlers/todo_handler.go`) -/

/-- Library calls of the request surface, taken as given: `uuid.Parse` on the `id` path
parameter, `c.ShouldBindJSON` on the request body, and `validator.Validate.Struct` on the
decoded request (`none` is a nil error). -/
structure Decoders where
  uuidParse : String → Except GoError UUID
  bindCreate : String → Except GoError CreateTodoRequest
  bindUpdate : String → Except GoError UpdateTodoRequest
  validateCreate : CreateTodoRequest → Option GoError
  validateUpdate : UpdateTodoRequest → Option GoError

/-- Handler `TodoHandler.Create`, on the request body. -/
def TodoHandler.Create {σ : Type} (dec : Decoders) (service : TodoService σ) (s : σ)
    (body : String) : σ × HTTPResponse :=
  match dec.bindCreate body with
  | .error err => (s, response.BadRequest "Invalid request body" err)
  | .ok req =>
    match dec.validateCreate req with
    | some err => (s, response.BadRequest "Validation failed" err)
    | none =>
      match service.Create s req with
      | (s1, .error err) => (s1, response.InternalServerError "Failed to create todo" err)
      | (s1, .ok todo) => (s1, response.Created "Todo created successfully" (some (.todo todo)))

/-- Handler `TodoHandler.GetByID`, on the `id` path parameter. -/
def TodoHandler.GetByID {σ : Type} (dec : Decoders) (service : TodoService σ) (s : σ)
    (idStr : String) : σ × HTTPResponse :=
  match dec.uuidParse idStr with
  | .error err => (s, response.BadRequest "Invalid todo ID" err)
  | .ok id =>
    match service.GetByID s id with
    | (s1, .error err) => (s1, response.NotFound "Todo not found" err)
    | (s1, .ok todo) => (s1, response.OK "Todo retrieved successfully" (some (.todo todo)))

/-- Handler `TodoHandler.Update`, on the `id` path parameter and the request body. -/
def TodoHandler.Update {σ : Type} (dec : Decoders) (service : TodoService σ) (s : σ)
    (idStr : String) (body : String) : σ × HTTPResponse :=
  match dec.uuidParse idStr with
  | .error err => (s, response.BadRequest "Invalid todo ID" err)
  | .ok id =>
    match dec.bindUpdate body with
    | .error err => (s, response.BadRequest "Invalid request body" err)
    | .ok req =>
      match dec.validateUpdate req with
      | some err => (s, response.BadRequest "Validation failed" err)
      | none =>
        match service.Update s id req with
        | (s1, .error err) => (s1, response.NotFound "Todo not found" err)
        | (s1, .ok todo) => (s1, response.OK "Todo updated successfully" (some (.todo todo)))

/-- Handler `TodoHandler.Delete`, on the `id` path parameter. -/
def TodoHandler.Delete {σ : Type} (dec : Decoders) (service : TodoService σ) (s : σ)
    (idStr : String) : σ × HTTPResponse :=
  match dec.uuidParse idStr with
  | .error err => (s, response.BadRequest "Invalid todo ID" err)
  | .ok id =>
    match service.Delete s id with
    | (s1, some err) => (s1, response.NotFound "Todo not found" err)
    | (s1, none) => (s1, response.OK "Todo deleted successfully" none)

/-- Handler `TodoHandler.Toggle`, on the `id` path parameter. -/
def TodoHandler.Toggle {σ : Type} (dec : Decoders) (service : TodoService σ) (s : σ)
    (idStr : String) : σ × HTTPResponse :=
  match dec.uuidParse idStr with
  | .error err => (s, response.BadRequest "Invalid todo ID" err)
  | .ok id =>
    match service.Toggle s id with
    | (s1, .error err) => (s1, response.NotFound "Todo not found" err)
    | (s1, .ok todo) => (s1, response.OK "Todo toggled successfully" (some (.todo todo)))

/-! ## Runs of service operations -/

/-- One call of a `TodoService` method. -/
inductive Op where
  | create (req : CreateTodoRequest)
  | getByID (id : UUID)
  | getAll (page perPage : Int)
  | update (id : UUID) (req : UpdateTodoRequest)
  | delete (id : UUID)
  | toggle (id : UUID)
  deriving DecidableEq, Repr

/-- State a service call leaves behind. -/
def Op.run {σ : Type} (service : TodoService σ) (s : σ) : Op → σ
  | .create req => (service.Create s req).1
  | .getByID id => (service.GetByID s id).1
  | .getAll page perPage => (service.GetAll s page perPage).1
  | .update id req => (service.Update s id req).1
  | .delete id => (service.Delete s id).1
  | .toggle id => (service.Toggle s id).1

/-- State a sequence of service calls leaves behind. -/
def runOps {σ : Type} (service : TodoService σ) (s : σ) (ops : List Op) : σ :=
  ops.foldl (Op.run service) s

/-- The identifier `id` is in the deleted state: the table holds a row with it, and every
row with it carries the soft-delete marker. -/
def deletedIn (id : UUID) (rows : List Todo) : Prop :=
  (∃ r ∈ rows, r.ID = id) ∧ ∀ r ∈ rows, r.ID = id → r.DeletedAt ≠ none

/-! ## Query parameters (`strconv.Atoi`, `c.DefaultQuery`) -/

/-- Sentinel `strconv.ErrSyntax`. -/
def strconv.ErrSyntax : GoError := .new "invalid syntax"

/-- Sentinel `strconv.ErrRange`. -/
def strconv.ErrRange : GoError := .new "value out of range"

/-- Largest `uint64`, `1<<64 - 1`. -/
def maxUint64 : Nat := 2 ^ 64 - 1

/-- Digit loop of `strconv.ParseUint(s, 10, 64)` with `n` accumulated so far: a character
that is not a decimal digit ends it with a syntax error and value 0; an accumulator that
would pass `maxUint64` ends it, before the rest is read, with a range error and value
`maxUint64`. -/
def parseUintLoop : List Char → Nat → Nat × Option GoError
  | [], n => (n, none)
  | c :: cs, n =>
    if '0' ≤ c ∧ c ≤ '9' then
      if n ≥ maxUint64 / 10 + 1 then (maxUint64, some strconv.ErrRange)
      else if n * 10 + (c.toNat - '0'.toNat) > maxUint64 then (maxUint64, some strconv.ErrRange)
      else parseUintLoop cs (n * 10 + (c.toNat - '0'.toNat))
    else (0, some strconv.ErrSyntax)

/-- Function `strconv.ParseUint(s, 10, 64)` on the characters of `s`. -/
def strconv.ParseUint (s : List Char) : Nat × Option GoError :=
  match s with
  | [] => (0, some strconv.ErrSyntax)
  | _ => parseUintLoop s 0

/-- Function `strconv.ParseInt(s, 10, 0)` with a 64-bit `int`: the sign is picked off, the
rest goes through `ParseUint`; an error other than a range error gives 0, a magnitude
beyond the range gives the largest or the smallest `int64` together with a range error. -/
def strconv.ParseInt (s : String) : Int × Option GoError :=
  match s.toList with
  | [] => (0, some (.wrap "strconv.ParseInt: parsing" strconv.ErrSyntax))
  | c :: cs =>
    let neg := decide (c = '-')
    let digits := if c = '+' ∨ c = '-' then cs else c :: cs
    match strconv.ParseUint digits with
    | (un, err) =>
      if err ≠ none ∧ err ≠ some strconv.ErrRange then
        (0, some (.wrap "strconv.ParseInt: parsing" strconv.ErrSyntax))
      else if neg = false ∧ un ≥ 2 ^ 63 then
        ((2 ^ 63 - 1 : Int), some (.wrap "strconv.ParseInt: parsing" strconv.ErrRange))
      else if neg = true ∧ un > 2 ^ 63 then
        (-(2 ^ 63 : Int), some (.wrap "strconv.ParseInt: parsing" strconv.ErrRange))
      else ((if neg then -(un : Int) else (un : Int)), none)

/-- Function `strconv.Atoi`: the value and the error of `ParseInt(s, 10, 0)`, with the
function name in the error replaced (the shortcut it takes for inputs of fewer than 19
bytes returns the same value and the same kind of error). -/
def strconv.Atoi (s : String) : Int × Option GoError :=
  match strconv.ParseInt s with
  | (i, some (.wrap _ err)) => (i, some (.wrap "strconv.Atoi: parsing" err))
  | (i, err) => (i, err)

/-- Test for a decimal digit. -/
def isDecimalDigit (c : Char) : Bool := decide ('0' ≤ c ∧ c ≤ '9')

/-- Value of the accumulator `n` extended by a run of decimal digits. -/
def decimalValue : List Char → Nat → Nat
  | [], n => n
  | c :: cs, n => decimalValue cs (n * 10 + (c.toNat - '0'.toNat))

/-- A query value above the range of `int`: it is not led by a minus sign and, after an
optional plus sign, either its leading decimal digits have a value above `2^64 - 1`
(whatever follows them), or it consists of decimal digits only and their value is above
`2^63 - 1`. -/
def aboveIntRange (v : String) : Bool :=
  match v.toList with
  | [] => false
  | c :: cs =>
    let digits := if c = '+' ∨ c = '-' then cs else c :: cs
    !decide (c = '-') &&
      (decide (maxUint64 < decimalValue (digits.takeWhile isDecimalDigit) 0)
        || (digits.all isDecimalDigit && decide (2 ^ 63 ≤ decimalValue digits 0)))

/-- Method `c.DefaultQuery(key, defaultValue)`, on the value of the key in the query string
when the key is present. -/
def gin.DefaultQuery (value : Option String) (defaultValue : String) : String :=
  match value with
  | some v => v
  | none => defaultValue

/-- Handler `TodoHandler.GetAll`, on the values of `page` and `per_page` in the query
string (`none` when the key is absent). The errors of `strconv.Atoi` are dropped. -/
def TodoHandler.GetAll {σ : Type} (service : TodoService σ) (s : σ)
    (pageQuery perPageQuery : Option String) : σ × HTTPResponse :=
  let page := (strconv.Atoi (gin.DefaultQuery pageQuery "1")).1
  let perPage := (strconv.Atoi (gin.DefaultQuery perPageQuery "20")).1
  match service.GetAll s page perPage with
  | (s1, .error err) => (s1, response.InternalServerError "Failed to get todos" err)
  | (s1, .ok todos) => (s1, response.OK "Todos retrieved successfully" (some (.list todos)))

/-! ## Request validation (`validate` tags of `internal/models/todo.go`) -/

/-- Tag `oneof=low medium high urgent` on a string. -/
def isOneOfPriority (p : Priority) : Bool :=
  p == PriorityLow || p == PriorityMedium || p == PriorityHigh || p == PriorityUrgent

/-- Error `validator.ValidationErrors` for a list of failed fields; no failed field is a
nil error. -/
def validationErrors (failures : List String) : Option GoError :=
  if failures = [] then none else some (.new (String.intercalate "; " failures))

/-- Call `validator.Validate.Struct(req)` on a `CreateTodoRequest`: `Title` carries
`required,min=1,max=255`, `Description` carries `max=1000`, `Priority` carries
`oneof=low medium high urgent`; lengths are counted in characters, and a field fails on
its first failing tag. None of the tags is `omitempty`, so an empty priority is checked
against `oneof`. -/
def validateCreateTodoRequest (req : CreateTodoRequest) : Option GoError :=
  validationErrors
    ((if req.Title = "" then ["Title failed on the required tag"]
      else if req.Title.length < 1 then ["Title failed on the min tag"]
      else if req.Title.length > 255 then ["Title failed on the max tag"]
      else [])
    ++ (if req.Description.length > 1000 then ["Description failed on the max tag"] else [])
    ++ (if isOneOfPriority req.Priority then [] else ["Priority failed on the oneof tag"]))

/-- Call `validator.Validate.Struct(req)` on an `UpdateTodoRequest`: `Title` carries
`omitempty,min=1,max=255`, `Description` carries `omitempty,max=1000`, `Priority` carries
`omitempty,oneof=low medium high urgent`. On a pointer field `omitempty` skips the nil
pointer only: a pointer to an empty string is checked against the tags that follow. -/
def validateUpdateTodoRequest (req : UpdateTodoRequest) : Option GoError :=
  validationErrors
    ((match req.Title with
      | none => []
      | some title =>
        if title.length < 1 then ["Title failed on the min tag"]
        else if title.length > 255 then ["Title failed on the max tag"]
        else [])
    ++ (match req.Description with
      | none => []
      | some description =>
        if description.length > 1000 then ["Description failed on the max tag"] else [])
    ++ (match req.Priority with
      | none => []
      | some priority =>
        if isOneOfPriority priority then [] else ["Priority failed on the oneof tag"]))

/-- Decoders whose validation is the one the `validate` tags describe; parsing of the
identifier and decoding of the bodies stay as given. -/
def withValidator (dec : Decoders) : Decoders :=
  { dec with
    validateCreate := validateCreateTodoRequest
    validateUpdate := validateUpdateTodoRequest }

/-! ## Runs of requests -/

/-- One request to a route of `/api/v1/todos`, as the handler reads it. -/
inductive Request where
  | create (body : String)
  | getByID (idStr : String)
  | getAll (pageQuery perPageQuery : Option String)
  | update (idStr body : String)
  | delete (idStr : String)
  | toggle (idStr : String)
  deriving DecidableEq, Repr

/-- Handler the router dispatches a request to. -/
def Request.handle {σ : Type} (dec : Decoders) (service : TodoService σ) (s : σ) :
    Request → σ × HTTPResponse
  | .create body => TodoHandler.Create dec service s body
  | .getByID idStr => TodoHandler.GetByID dec service s idStr
  | .getAll pageQuery perPageQuery => TodoHandler.GetAll service s pageQuery perPageQuery
  | .update idStr body => TodoHandler.Update dec service s idStr body
  | .delete idStr => TodoHandler.Delete dec service s idStr
  | .toggle idStr => TodoHandler.Toggle dec service s idStr

/-- State a sequence of requests leaves behind. -/
def runRequests {σ : Type} (dec : Decoders) (service : TodoService σ) (s : σ)
    (requests : List Request) : σ :=
  requests.foldl (fun st request => (Request.handle dec service st request).1) s

/-- The empty store. -/
def emptyDB : DB := { rows := [], stmts := 0 }

/-- A stored todo has a non-empty title and one of the four priorities. -/
def validTodo (t : Todo) : Prop :=
  t.Title ≠ "" ∧ (t.Priority = PriorityLow ∨ t.Priority = PriorityMedium
    ∨ t.Priority = PriorityHigh ∨ t.Priority = PriorityUrgent)

/-! ## Sample data -/

/-- An environment whose store never fails: the clock of statement `k` reads `1000 + k`
and the fresh identifier is `1 + k`. -/
def sampleEnv : Env :=
  { now := fun k => 1000 + k, newID := fun k => 1 + k, fault := fun _ => none }

/-- An environment whose store is unreachable. -/
def downEnv : Env :=
  { now := fun k => 1000 + k, newID := fun k => 1 + k,
    fault := fun _ => some "dial tcp: connection refused" }

/-- A live todo with identifier 7. -/
def sampleTodo : Todo :=
  { ID := 7, Title := "Buy milk", Description := "", Completed := false, Priority := "high",
    DueDate := some 5000, CreatedAt := 100, UpdatedAt := 100, DeletedAt := none }

/-- A second live todo, with identifier 8. -/
def otherTodo : Todo :=
  { ID := 8, Title := "Call Ada", Description := "2pm", Completed := true, Priority := "low",
    DueDate := none, CreatedAt := 200, UpdatedAt := 250, DeletedAt := none }

/-- A soft-deleted todo, with identifier 9. -/
def deletedTodo : Todo :=
  { ID := 9, Title := "Old", Description := "", Completed := false, Priority := "medium",
    DueDate := none, CreatedAt := 50, UpdatedAt := 60, DeletedAt := some 70 }

/-- A store holding `sampleTodo`, `otherTodo` and the soft-deleted `deletedTodo`. -/
def sampleDB : DB :=
  { rows := [sampleTodo, otherTodo, deletedTodo], stmts := 0 }

/-- A repository that records the arguments of `GetAll` and reports a fixed total. -/
def fixedTotalRepo (total : Int) : TodoRepository (List (Int × Int)) :=
  { Create := fun s todo => (s, .ok todo)
    GetByID := fun s _ => (s, .error .ErrRecordNotFound)
    GetAll := fun s page perPage => (s ++ [(page, perPage)], .ok ([], total))
    Update := fun s todo => (s, .ok todo)
    Delete := fun s _ => (s, none)
    Toggle := fun s _ => (s, none) }

/-- Decoders that read the path parameter "7" as identifier 7 and accept every body as an
update of the title. -/
def sampleDecoders : Decoders :=
  { uuidParse := fun str => if str = "7" then .ok 7 else .error (.new "invalid UUID length")
    bindCreate := fun body =>
      .ok { Title := body, Description := "", Priority := "", DueDate := none }
    bindUpdate := fun body =>
      .ok { Title := some body, Description := none, Completed := none, Priority := none,
            DueDate := none }
    validateCreate := fun _ => none
    validateUpdate := fun _ => none }

/-- Decoders that read the path parameter "1" as identifier 1, decode a create body as a
title with priority `high`, and decode an update body as a new priority. -/
def priorityDecoders : Decoders :=
  { uuidParse := fun str => if str = "1" then .ok 1 else .error (.new "invalid UUID length")
    bindCreate := fun body =>
      .ok { Title := body, Description := "", Priority := "high", DueDate := none }
    bindUpdate := fun body =>
      .ok { Title := none, Description := none, Completed := none, Priority := some body,
            DueDate := none }
    validateCreate := fun _ => none
    validateUpdate := fun _ => none }

/-! ## Pagination parameters -/

/-- The page number `todoService.GetAll` passes on, in the wording of the specification. -/
theorem getAll_page_eq (page : Int) :
    (if page < 1 then 1 else page) = (if 1 ≤ page then page else 1) := by
  split_ifs <;> omega

/-- The page size `todoService.GetAll` passes on, in the wording of the specification. -/
theorem getAll_perPage_eq (perPage : Int) :
    (if perPage < 1 ∨ perPage > 100 then 20 else perPage)
      = (if 1 ≤ perPage ∧ perPage ≤ 100 then perPage else 20) := by
  split_ifs <;> omega

/-- C1: `todoService.GetAll` queries the repository with, and reports in `Meta`, the page
`page` when `page >= 1` and 1 otherwise, and the page size `perPage` when
`1 <= perPage <= 100` and 20 otherwise. For every repository: when its `GetAll` succeeds on
the normalized pair, the service call succeeds from that very repository call, and `Meta`
carries the normalized pair; a repository that records its arguments sees exactly one query,
with the normalized pair. -/
theorem C1_getAll_normalizes_page_and_perPage {σ : Type} (repo : TodoRepository σ)
    (s s1 : σ) (page perPage : Int) (todos : List Todo) (total : Int)
    (hrepo : repo.GetAll s (if 1 ≤ page then page else 1)
        (if 1 ≤ perPage ∧ perPage ≤ 100 then perPage else 20) = (s1, .ok (todos, total))) :
    (∃ resp, todoService.GetAll repo s page perPage = (s1, .ok resp)
        ∧ resp.Meta.Page = (if 1 ≤ page then page else 1)
        ∧ resp.Meta.PerPage = (if 1 ≤ perPage ∧ perPage ≤ 100 then perPage else 20)
        ∧ resp.Meta.Total = total
        ∧ resp.Data = todos.map Todo.ToResponse)
    ∧ (todoService.GetAll (fixedTotalRepo total) [] page perPage).1
        = [(if 1 ≤ page then page else 1,
            if 1 ≤ perPage ∧ perPage ≤ 100 then perPage else 20)] := by
  constructor
  · simp only [todoService.GetAll, getAll_page_eq, getAll_perPage_eq, hrepo]
    exact ⟨_, rfl, rfl, rfl, rfl, rfl⟩
  · simp only [todoService.GetAll, getAll_page_eq, getAll_perPage_eq, fixedTotalRepo,
      List.nil_append]

/-- C1 at page 0 and page size 150 on the sample store: page 1 and page size 20 are used,
and likewise for a negative page with page size 0. -/
theorem C1_getAll_normalizes_page_and_perPage_witness :
    ((∃ resp, todoService.GetAll (NewTodoRepository sampleEnv) sampleDB 0 150
          = (({ rows := sampleDB.rows, stmts := 2 } : DB), .ok resp)
        ∧ resp.Meta.Page = 1 ∧ resp.Meta.PerPage = 20
        ∧ resp.Meta.Total = 2
        ∧ resp.Data = [otherTodo, sampleTodo].map Todo.ToResponse)
      ∧ (todoService.GetAll (fixedTotalRepo 2) [] 0 150).1 = [(1, 20)])
    ∧ (todoService.GetAll (fixedTotalRepo 2) [] (-3) 0).1 = [(1, 20)] :=
  ⟨C1_getAll_normalizes_page_and_perPage (NewTodoRepository sampleEnv) sampleDB
      { rows := sampleDB.rows, stmts := 2 } 0 150 [otherTodo, sampleTodo] 2 rfl,
    (C1_getAll_normalizes_page_and_perPage (fixedTotalRepo 2) [] [(1, 20)] (-3) 0 [] 2
      (by simp [fixedTotalRepo])).2⟩

/-! ## float64 page count -/

/-- With enough fuel `log2Fuel` brackets `n` between two consecutive powers of two. -/
theorem log2Fuel_spec : ∀ (fuel n : Nat), n ≤ fuel → 0 < n →
    2 ^ log2Fuel fuel n ≤ n ∧ n < 2 ^ (log2Fuel fuel n + 1) := by
  intro fuel
  induction fuel with
  | zero => intro n h1 h2; omega
  | succ fuel ih =>
    intro n h1 h2
    unfold log2Fuel
    split_ifs with h
    · have := ih (n / 2) (by omega) (by omega)
      obtain ⟨h3, h4⟩ := this
      simp only [pow_succ] at h4 ⊢
      constructor <;> omega
    · simp; omega

/-- The leading-bit position brackets `n`: `2^k ≤ n < 2^(k+1)`. -/
theorem ilog2_spec (n : Nat) (h : 0 < n) : 2 ^ ilog2 n ≤ n ∧ n < 2 ^ (ilog2 n + 1) :=
  log2Fuel_spec n n le_rfl h

/-- An integer power of two as a quotient of two natural powers. -/
theorem two_zpow_split (e : ℤ) : (2 : ℚ) ^ e = (2 : ℚ) ^ e.toNat / (2 : ℚ) ^ (-e).toNat := by
  rcases le_total 0 e with h | h
  · have h1 : (-e).toNat = 0 := by omega
    rw [h1, pow_zero, div_one]
    conv_lhs => rw [← Int.toNat_of_nonneg h]
    rw [zpow_natCast]
  · have h1 : e.toNat = 0 := by omega
    have h2 : e = -((-e).toNat : ℤ) := by omega
    rw [h1, pow_zero]
    conv_lhs => rw [h2]
    rw [zpow_neg, zpow_natCast, one_div]

/-- Rounding to nearest moves a quotient by at most one half. -/
theorem rneDiv_near (n d : Nat) (hd : 0 < d) :
    |((rneDiv n d : ℕ) : ℚ) - (n : ℚ) / d| ≤ 1 / 2 := by
  have hdq : (0 : ℚ) < d := by exact_mod_cast hd
  have hdiv : ((d * (n / d) + n % d : ℕ) : ℚ) = n := by rw [Nat.div_add_mod]
  push_cast at hdiv
  have hr : ((n % d : ℕ) : ℚ) < d := by exact_mod_cast Nat.mod_lt n hd
  have hr0 : (0 : ℚ) ≤ ((n % d : ℕ) : ℚ) := by positivity
  have key : (n : ℚ) / d = ((n / d : ℕ) : ℚ) + ((n % d : ℕ) : ℚ) / d := by
    field_simp
    linarith
  rw [key]
  unfold rneDiv
  simp only
  split_ifs with h1 h2 h3
  · have : (2 : ℚ) * ((n % d : ℕ) : ℚ) < d := by exact_mod_cast h1
    rw [abs_le]
    constructor
    · rw [show ((n / d : ℕ) : ℚ) - (((n / d : ℕ) : ℚ) + ((n % d : ℕ) : ℚ) / d) = -(((n % d : ℕ) : ℚ) / d) by ring]
      rw [neg_le_neg_iff, div_le_iff₀ hdq]; linarith
    · rw [show ((n / d : ℕ) : ℚ) - (((n / d : ℕ) : ℚ) + ((n % d : ℕ) : ℚ) / d) = -(((n % d : ℕ) : ℚ) / d) by ring]
      have : (0:ℚ) ≤ ((n % d : ℕ) : ℚ) / d := by positivity
      linarith
  all_goals
    have h1q : ¬ ((2 : ℚ) * ((n % d : ℕ) : ℚ) < d) := by exact_mod_cast h1
    try push_cast
    rw [abs_le]
    have hle : ((n % d : ℕ) : ℚ) / d ≤ 1 := by rw [div_le_iff₀ hdq]; linarith
    have hge : (1:ℚ)/2 ≤ ((n % d : ℕ) : ℚ) / d := by rw [le_div_iff₀ hdq]; linarith
    constructor <;> try linarith
  all_goals
    have h2q : ¬ ((d : ℚ) < (2 : ℚ) * ((n % d : ℕ) : ℚ)) := by exact_mod_cast h2
    have : ((n % d : ℕ) : ℚ) / d ≤ 1 / 2 := by rw [div_le_iff₀ hdq]; linarith
    linarith

/-- Rounding to nearest keeps an exact quotient. -/
theorem rneDiv_exact (k d : Nat) (hd : 0 < d) : rneDiv (k * d) d = k := by
  unfold rneDiv
  simp [Nat.mul_mod_left, Nat.mul_div_cancel _ hd, hd]

/-- The exponent chosen by `binade` puts the scaled quotient in `[2^52, 2^53)`. -/
theorem binade_spec (N D : Nat) (hN : 0 < N) (hD : 0 < D) :
    (2 : ℚ) ^ 52 * (2 : ℚ) ^ binade N D ≤ (N : ℚ) / D
      ∧ (N : ℚ) / D < (2 : ℚ) ^ 53 * (2 : ℚ) ^ binade N D := by
  obtain ⟨ha1, ha2⟩ := ilog2_spec N hN
  obtain ⟨hb1, hb2⟩ := ilog2_spec D hD
  have hDq : (0 : ℚ) < D := by exact_mod_cast hD
  have ha1q : (2 : ℚ) ^ (ilog2 N : ℤ) ≤ N := by rw [zpow_natCast]; exact_mod_cast ha1
  have ha2q : (N : ℚ) < (2 : ℚ) ^ ((ilog2 N : ℤ) + 1) := by
    rw [show ((ilog2 N : ℤ) + 1) = ((ilog2 N + 1 : ℕ) : ℤ) by push_cast; rfl, zpow_natCast]
    exact_mod_cast ha2
  have hb1q : (2 : ℚ) ^ (ilog2 D : ℤ) ≤ D := by rw [zpow_natCast]; exact_mod_cast hb1
  have hb2q : (D : ℚ) < (2 : ℚ) ^ ((ilog2 D : ℤ) + 1) := by
    rw [show ((ilog2 D : ℤ) + 1) = ((ilog2 D + 1 : ℕ) : ℤ) by push_cast; rfl, zpow_natCast]
    exact_mod_cast hb2
  have h2 : (0 : ℚ) < 2 := by norm_num
  have hpos : ∀ z : ℤ, (0 : ℚ) < (2 : ℚ) ^ z := fun z => zpow_pos h2 z
  -- bounds of the quotient in terms of e0
  have hlow : (2 : ℚ) ^ 51 * (2 : ℚ) ^ ((ilog2 N : ℤ) - (ilog2 D : ℤ) - 52) < (N : ℚ) / D := by
    rw [lt_div_iff₀ hDq]
    have e1 : (2 : ℚ) ^ 51 * (2 : ℚ) ^ ((ilog2 N : ℤ) - (ilog2 D : ℤ) - 52) * (2 : ℚ) ^ ((ilog2 D : ℤ) + 1)
        = (2 : ℚ) ^ (ilog2 N : ℤ) := by
      rw [show (2 : ℚ) ^ 51 = (2 : ℚ) ^ (51 : ℤ) by norm_cast, ← zpow_add₀ (by norm_num), ← zpow_add₀ (by norm_num)]
      congr 1; ring
    calc (2 : ℚ) ^ 51 * (2 : ℚ) ^ ((ilog2 N : ℤ) - (ilog2 D : ℤ) - 52) * D
        < (2 : ℚ) ^ 51 * (2 : ℚ) ^ ((ilog2 N : ℤ) - (ilog2 D : ℤ) - 52) * (2 : ℚ) ^ ((ilog2 D : ℤ) + 1) := by
          apply mul_lt_mul_of_pos_left hb2q
          exact mul_pos (by norm_num) (hpos _)
      _ = (2 : ℚ) ^ (ilog2 N : ℤ) := e1
      _ ≤ N := ha1q
  have hhigh : (N : ℚ) / D < (2 : ℚ) ^ 53 * (2 : ℚ) ^ ((ilog2 N : ℤ) - (ilog2 D : ℤ) - 52) := by
    rw [div_lt_iff₀ hDq]
    have e1 : (2 : ℚ) ^ 53 * (2 : ℚ) ^ ((ilog2 N : ℤ) - (ilog2 D : ℤ) - 52) * (2 : ℚ) ^ (ilog2 D : ℤ)
        = (2 : ℚ) ^ ((ilog2 N : ℤ) + 1) := by
      rw [show (2 : ℚ) ^ 53 = (2 : ℚ) ^ (53 : ℤ) by norm_cast, ← zpow_add₀ (by norm_num), ← zpow_add₀ (by norm_num)]
      congr 1; ring
    calc (N : ℚ) < (2 : ℚ) ^ ((ilog2 N : ℤ) + 1) := ha2q
      _ = (2 : ℚ) ^ 53 * (2 : ℚ) ^ ((ilog2 N : ℤ) - (ilog2 D : ℤ) - 52) * (2 : ℚ) ^ (ilog2 D : ℤ) := e1.symm
      _ ≤ (2 : ℚ) ^ 53 * (2 : ℚ) ^ ((ilog2 N : ℤ) - (ilog2 D : ℤ) - 52) * D := by
          apply mul_le_mul_of_nonneg_left hb1q
          exact le_of_lt (mul_pos (by norm_num) (hpos _))
  unfold binade
  simp only
  generalize ((ilog2 N : ℤ) - (ilog2 D : ℤ) - 52) = e0 at hlow hhigh ⊢
  have hcond : (N * 2 ^ (-e0).toNat < 2 ^ 52 * (D * 2 ^ e0.toNat))
      ↔ (N : ℚ) / D < (2 : ℚ) ^ 52 * (2 : ℚ) ^ e0 := by
    rw [two_zpow_split e0, div_lt_iff₀ hDq]
    have hp : (0 : ℚ) < (2 : ℚ) ^ (-e0).toNat := by positivity
    rw [← mul_div_assoc, div_mul_eq_mul_div, lt_div_iff₀ hp]
    constructor
    · intro h
      have : ((N * 2 ^ (-e0).toNat : ℕ) : ℚ) < ((2 ^ 52 * (D * 2 ^ e0.toNat) : ℕ) : ℚ) := by exact_mod_cast h
      push_cast at this
      linarith
    · intro h
      have : ((N * 2 ^ (-e0).toNat : ℕ) : ℚ) < ((2 ^ 52 * (D * 2 ^ e0.toNat) : ℕ) : ℚ) := by
        push_cast
        linarith
      exact_mod_cast this
  have hstep : (2 : ℚ) ^ (e0 - 1) * 2 = (2 : ℚ) ^ e0 := by
    rw [zpow_sub_one₀ (by norm_num)]; field_simp
  split_ifs with h
  · rw [hcond] at h
    constructor
    · rw [← hstep] at hlow; linarith
    · rw [← hstep] at h; linarith
  · rw [hcond] at h
    push_neg at h
    exact ⟨h, hhigh⟩

/-- Rounding to `float64` has relative error at most `2^-53`. -/
theorem round_near (N D : Nat) (hN : 0 < N) (hD : 0 < D) :
    |(F64.round false N D).toRat - (N : ℚ) / D| ≤ (N : ℚ) / D / 2 ^ 53 := by
  obtain ⟨hlo, _⟩ := binade_spec N D hN hD
  have hDq : (0 : ℚ) < D := by exact_mod_cast hD
  have hpe : (0 : ℚ) < (2 : ℚ) ^ binade N D := zpow_pos (by norm_num) _
  have hden : 0 < D * 2 ^ (binade N D).toNat := Nat.mul_pos hD (by positivity)
  have hm := rneDiv_near (N * 2 ^ (-binade N D).toNat) (D * 2 ^ (binade N D).toNat) hden
  have hq : (((N * 2 ^ (-binade N D).toNat : ℕ) : ℚ)) / ((D * 2 ^ (binade N D).toNat : ℕ) : ℚ)
      = (N : ℚ) / D / (2 : ℚ) ^ binade N D := by
    rw [two_zpow_split (binade N D)]
    push_cast
    field_simp
  rw [hq] at hm
  unfold F64.round
  rw [if_neg (by omega)]
  simp only [F64.toRat, Bool.false_eq_true, if_false, one_mul]
  set m : ℚ := ((rneDiv (N * 2 ^ (-binade N D).toNat) (D * 2 ^ (binade N D).toNat) : ℕ) : ℚ)
  set p : ℚ := (2 : ℚ) ^ binade N D
  have e1 : m * p - (N : ℚ) / D = (m - (N : ℚ) / D / p) * p := by field_simp; ring
  rw [e1, abs_mul, abs_of_pos hpe]
  have h53 : (0 : ℚ) < 2 ^ 53 := by norm_num
  rw [le_div_iff₀ h53]
  calc |m - (N : ℚ) / D / p| * p * 2 ^ 53 ≤ 1 / 2 * p * 2 ^ 53 := by
        apply mul_le_mul_of_nonneg_right _ (le_of_lt h53)
        exact mul_le_mul_of_nonneg_right hm (le_of_lt hpe)
    _ = 2 ^ 52 * p := by ring
    _ ≤ (N : ℚ) / D := hlo

/-- Rounding to `float64` keeps every integer quotient below `2^53`. -/
theorem round_exact (N D K : Nat) (hD : 0 < D) (hK : K < 2 ^ 53) (h : N = K * D) :
    (F64.round false N D).toRat = K := by
  rcases Nat.eq_zero_or_pos K with hK0 | hK0
  · subst hK0
    simp [h, F64.round, F64.toRat]
  have hN : 0 < N := by rw [h]; exact Nat.mul_pos hK0 hD
  obtain ⟨hlo, _⟩ := binade_spec N D hN hD
  have hDq : (0 : ℚ) < D := by exact_mod_cast hD
  have hq : (N : ℚ) / D = K := by rw [h]; push_cast; field_simp
  rw [hq] at hlo
  have hKq : (K : ℚ) < 2 ^ 53 := by exact_mod_cast hK
  have hpe : (0 : ℚ) < (2 : ℚ) ^ binade N D := zpow_pos (by norm_num) _
  have hlt : (2 : ℚ) ^ binade N D < (2 : ℚ) ^ (1 : ℤ) := by
    rw [zpow_one]; nlinarith
  have he : binade N D < 1 := (zpow_lt_zpow_iff_right₀ (by norm_num : (1 : ℚ) < 2)).mp hlt
  have he0 : (binade N D).toNat = 0 := by omega
  unfold F64.round
  rw [if_neg (by omega)]
  simp only [F64.toRat, Bool.false_eq_true, if_false, one_mul, he0, pow_zero, mul_one]
  have hnum : N * 2 ^ (-binade N D).toNat = (K * 2 ^ (-binade N D).toNat) * D := by
    rw [h]; ring
  rw [hnum, rneDiv_exact _ _ hD, two_zpow_split, he0]
  push_cast
  field_simp

/-- Conversion `float64(n)` is exact for `0 ≤ n < 2^53`. -/
theorem ofInt_exact (n : Int) (h0 : 0 ≤ n) (h1 : n < 2 ^ 53) :
    (F64.ofInt n).neg = false ∧ (F64.ofInt n).toRat = n := by
  have hneg : decide (n < 0) = false := by simp; omega
  have hK : n.natAbs < 2 ^ 53 := by omega
  constructor
  · unfold F64.ofInt F64.round
    rw [hneg]
    split_ifs <;> rfl
  · unfold F64.ofInt
    rw [hneg, round_exact n.natAbs 1 n.natAbs (by norm_num) hK (by simp)]
    rw [← Int.cast_natCast, Int.natAbs_of_nonneg h0]

/-- For a non-negative value, the integer part of `math.Ceil(x)` is the ceiling of the
number `x` denotes. -/
theorem ceil_trunc (x : F64) (hx : x.neg = false) : (F64.ceil x).trunc = ⌈x.toRat⌉ := by
  obtain ⟨neg, m, e⟩ := x
  simp only at hx
  subst hx
  rcases le_or_lt 0 e with he | he
  · have h1 : (F64.ceil ⟨false, m, e⟩) = ⟨false, m, e⟩ := by simp [F64.ceil, he]
    rw [h1]
    simp only [F64.trunc, he, if_true, Bool.false_eq_true, if_false, F64.toRat, one_mul]
    have h2 : (m : ℚ) * (2 : ℚ) ^ e = (((m * 2 ^ e.toNat : ℕ) : ℤ) : ℚ) := by
      rw [two_zpow_split e, show (-e).toNat = 0 by omega]
      push_cast
      simp
    rw [h2, Int.ceil_intCast]
  · have hne : ¬ (0 ≤ e) := by omega
    have hp : 0 < 2 ^ (-e).toNat := by positivity
    have h1 : (F64.ceil ⟨false, m, e⟩) = ⟨false, (m + 2 ^ (-e).toNat - 1) / 2 ^ (-e).toNat, 0⟩ := by
      simp [F64.ceil, hne]
    rw [h1]
    simp only [F64.trunc, le_refl, if_true, Bool.false_eq_true, if_false, F64.toRat, one_mul,
      Int.toNat_zero, pow_zero, mul_one]
    symm
    rw [Int.ceil_eq_iff, two_zpow_split e, show e.toNat = 0 by omega, pow_zero]
    set p : ℕ := 2 ^ (-e).toNat with hpdef
    have hpq : (0 : ℚ) < (p : ℚ) := by exact_mod_cast hp
    have hp' : ((2 : ℚ) ^ (-e).toNat) = (p : ℚ) := by rw [hpdef]; push_cast; rfl
    rw [hp']
    have hdm := Nat.div_add_mod (m + p - 1) p
    have hml := Nat.mod_lt (m + p - 1) hp
    set z : ℕ := (m + p - 1) / p
    set r : ℕ := (m + p - 1) % p
    have hz : p * z + r + 1 = m + p := by omega
    have hzq : (p : ℚ) * z + r + 1 = m + p := by exact_mod_cast hz
    have hrq : (r : ℚ) + 1 ≤ p := by exact_mod_cast hml
    have hr0 : (0 : ℚ) ≤ r := by positivity
    constructor
    · rw [mul_one_div, lt_div_iff₀ hpq]
      push_cast
      nlinarith
    · rw [mul_one_div, div_le_iff₀ hpq]
      push_cast
      nlinarith

/-- For a non-negative value whose ceiling is below `2^63`, `int(math.Ceil(x))` is the
ceiling of the number `x` denotes. -/
theorem ceil_toInt (x : F64) (hx : x.neg = false) (hb : ⌈x.toRat⌉ < 2 ^ 63) :
    (F64.ceil x).toInt = ⌈x.toRat⌉ := by
  have h0 : (0 : ℤ) ≤ ⌈x.toRat⌉ := by
    apply Int.ceil_nonneg
    rw [F64.toRat, hx]
    simp only [Bool.false_eq_true, if_false, one_mul]
    positivity
  unfold F64.toInt
  rw [ceil_trunc x hx, if_pos ⟨by omega, hb⟩]

/-- Value of a `float64` with a clear sign bit. -/
theorem toRat_of_not_neg (x : F64) (hx : x.neg = false) :
    x.toRat = (x.m : ℚ) * (2 : ℚ) ^ x.e := by
  simp [F64.toRat, hx]

/-- Rounding keeps the sign it is given. -/
theorem round_neg (neg : Bool) (N D : Nat) : (F64.round neg N D).neg = neg := by
  unfold F64.round
  split_ifs <;> rfl

/-- The quotient handed to the rounding step by `F64.div` is the quotient of the values. -/
theorem div_ratio (x y : F64) (hy : 0 < y.m) (hxn : x.neg = false) (hyn : y.neg = false) :
    ((x.m * 2 ^ (x.e - y.e).toNat : ℕ) : ℚ) / ((y.m * 2 ^ (y.e - x.e).toNat : ℕ) : ℚ)
      = x.toRat / y.toRat := by
  rw [toRat_of_not_neg x hxn, toRat_of_not_neg y hyn]
  have hym : (0 : ℚ) < y.m := by exact_mod_cast hy
  have h1 : (2 : ℚ) ^ x.e = (2 : ℚ) ^ (x.e - y.e) * (2 : ℚ) ^ y.e := by
    rw [← zpow_add₀ (by norm_num)]; congr 1; ring
  have hpy : (0 : ℚ) < (2 : ℚ) ^ y.e := zpow_pos (by norm_num) _
  rw [h1, two_zpow_split (x.e - y.e), show -(x.e - y.e) = y.e - x.e by ring]
  have hpb : (0 : ℚ) < (2 : ℚ) ^ (y.e - x.e).toNat := by positivity
  push_cast
  field_simp
  ring

/-- Below `2^53` rows the `float64` page count is the exact ceiling of `t / p`. -/
theorem totalPages_exact (t p : Nat) (ht : t < 2 ^ 53) (hp1 : 1 ≤ p) (hp : p ≤ 100) :
    (F64.ceil (F64.div (F64.ofInt t) (F64.ofInt p))).toInt = ⌈(t : ℚ) / p⌉ := by
  obtain ⟨hXn, hXr⟩ := ofInt_exact (t : ℤ) (by positivity) (by exact_mod_cast ht)
  obtain ⟨hYn, hYr⟩ := ofInt_exact (p : ℤ) (by positivity) (by norm_num; omega)
  have hpq : (0 : ℚ) < p := by exact_mod_cast hp1
  have hYm : 0 < (F64.ofInt p).m := by
    rcases Nat.eq_zero_or_pos (F64.ofInt p).m with h | h
    · rw [toRat_of_not_neg _ hYn, h] at hYr
      have h0 : (((p : ℤ) : ℚ)) = 0 := by rw [← hYr]; simp
      have h1 : (p : ℤ) = 0 := by exact_mod_cast h0
      omega
    · exact h
  have hdiv : F64.div (F64.ofInt t) (F64.ofInt p)
      = F64.round false ((F64.ofInt t).m * 2 ^ ((F64.ofInt t).e - (F64.ofInt p).e).toNat)
          ((F64.ofInt p).m * 2 ^ ((F64.ofInt p).e - (F64.ofInt t).e).toNat) := by
    unfold F64.div; rw [hXn, hYn]; rfl
  have hq := div_ratio _ _ hYm hXn hYn
  rw [hXr, hYr] at hq
  simp only [Int.cast_natCast] at hq
  have hbound : ⌈(t : ℚ) / p⌉ < 2 ^ 63 := by
    have h1 : (t : ℚ) / p ≤ ((t : ℤ) : ℚ) := by
      rw [div_le_iff₀ hpq]
      have h2 : (1 : ℚ) ≤ p := by exact_mod_cast hp1
      have h3 : (0 : ℚ) ≤ t := by positivity
      push_cast
      nlinarith
    have h4 : ⌈(t : ℚ) / p⌉ ≤ (t : ℤ) := Int.ceil_le.mpr h1
    have h5 : (t : ℤ) < 2 ^ 53 := by exact_mod_cast ht
    omega
  suffices hkey : ⌈(F64.div (F64.ofInt t) (F64.ofInt p)).toRat⌉ = ⌈(t : ℚ) / p⌉ by
    rw [ceil_toInt _ (by rw [hdiv]; exact round_neg _ _ _) (by rw [hkey]; exact hbound), hkey]
  rw [hdiv]
  generalize ((F64.ofInt t).m * 2 ^ ((F64.ofInt t).e - (F64.ofInt p).e).toNat) = N at hq ⊢
  have hD : 0 < (F64.ofInt p).m * 2 ^ ((F64.ofInt p).e - (F64.ofInt t).e).toNat :=
    Nat.mul_pos hYm (by positivity)
  generalize ((F64.ofInt p).m * 2 ^ ((F64.ofInt p).e - (F64.ofInt t).e).toNat) = D at hq hD ⊢
  have hDq : (0 : ℚ) < D := by exact_mod_cast hD
  have hdm := Nat.div_add_mod t p
  have hml := Nat.mod_lt t (show 0 < p by omega)
  rcases Nat.eq_zero_or_pos (t % p) with hr | hr
  · -- the quotient is an integer: the division is exact
    have htk : t = (t / p) * p := by rw [hr] at hdm; linarith
    have hK : t / p < 2 ^ 53 := lt_of_le_of_lt (Nat.div_le_self t p) ht
    have hND : N = (t / p) * D := by
      have h1 : (N : ℚ) = ((t / p : ℕ) : ℚ) * D := by
        rw [div_eq_div_iff (ne_of_gt hDq) (ne_of_gt hpq)] at hq
        have h2 : (t : ℚ) = ((t / p : ℕ) : ℚ) * p := by exact_mod_cast htk
        rw [h2] at hq
        have h3 : (N : ℚ) * p = ((t / p : ℕ) : ℚ) * D * p := by linarith
        exact mul_right_cancel₀ (ne_of_gt hpq) h3
      exact_mod_cast h1
    rw [round_exact N D (t / p) hD hK hND]
    congr 1
    rw [eq_div_iff (ne_of_gt hpq)]
    exact_mod_cast htk.symm
  · -- the quotient has a fractional part of at least 1 / p
    have hN : 0 < N := by
      rcases Nat.eq_zero_or_pos N with h | h
      · rw [h] at hq
        have h0 : (t : ℚ) / p = 0 := by rw [← hq]; simp
        have h1 : (t : ℚ) = 0 := by
          rcases div_eq_zero_iff.mp h0 with h2 | h2
          · exact h2
          · linarith
        have h3 : t = 0 := by exact_mod_cast h1
        rw [h3] at hr
        simp at hr
      · exact h
    have hnear := round_near N D hN hD
    rw [hq] at hnear
    rw [abs_le] at hnear
    obtain ⟨hn1, hn2⟩ := hnear
    have htq : (t : ℚ) < 2 ^ 53 := by exact_mod_cast ht
    have hdmq : (p : ℚ) * ((t / p : ℕ) : ℚ) + ((t % p : ℕ) : ℚ) = t := by exact_mod_cast hdm
    have hrq : (1 : ℚ) ≤ ((t % p : ℕ) : ℚ) := by exact_mod_cast hr
    have hmlq : ((t % p : ℕ) : ℚ) + 1 ≤ p := by exact_mod_cast hml
    have herr : (t : ℚ) / p / 2 ^ 53 < 1 / p := by
      rw [div_div, div_lt_div_iff₀ (by positivity) hpq]
      nlinarith
    have hqeq : (t : ℚ) / p = ((t / p : ℕ) : ℚ) + ((t % p : ℕ) : ℚ) / p := by
      field_simp
      linarith
    have hf1 : (1 : ℚ) / p ≤ ((t % p : ℕ) : ℚ) / p := by
      apply div_le_div_of_nonneg_right hrq (le_of_lt hpq)
    have hf2 : ((t % p : ℕ) : ℚ) / p + 1 / p ≤ 1 := by
      rw [← add_div, div_le_one hpq]
      exact hmlq
    have hc1 : ⌈(t : ℚ) / p⌉ = ((t / p : ℕ) : ℤ) + 1 := by
      rw [Int.ceil_eq_iff]
      simp only [Int.cast_add, Int.cast_one, Int.cast_natCast]
      constructor <;> linarith
    rw [hc1, Int.ceil_eq_iff]
    simp only [Int.cast_add, Int.cast_one, Int.cast_natCast]
    constructor <;> linarith

/-- Ceiling of a quotient of naturals, by integer division. -/
theorem ceil_nat_div (m p : Nat) (hp : 0 < p) :
    ⌈(m : ℚ) / p⌉ = (((m + p - 1) / p : ℕ) : ℤ) := by
  rw [Int.ceil_eq_iff]
  have hpq : (0 : ℚ) < (p : ℚ) := by exact_mod_cast hp
  have hdm := Nat.div_add_mod (m + p - 1) p
  have hml := Nat.mod_lt (m + p - 1) hp
  set z : ℕ := (m + p - 1) / p
  set r : ℕ := (m + p - 1) % p
  have hz : p * z + r + 1 = m + p := by omega
  have hzq : (p : ℚ) * z + r + 1 = m + p := by exact_mod_cast hz
  have hrq : (r : ℚ) + 1 ≤ p := by exact_mod_cast hml
  have hr0 : (0 : ℚ) ≤ r := by positivity
  simp only [Int.cast_natCast]
  constructor
  · rw [lt_div_iff₀ hpq]
    nlinarith
  · rw [div_le_iff₀ hpq]
    nlinarith

set_option maxRecDepth 1000000 in
/-- At exactly `2^53` rows the `float64` page count is still the exact ceiling, for every
page size from 1 to 100. -/
theorem totalPages_exact_at_2_53 : ∀ p : Fin 101, 1 ≤ p.val →
    (F64.ceil (F64.div (F64.ofInt (2 ^ 53)) (F64.ofInt (p.val : Int)))).toInt
      = (((2 ^ 53 + p.val - 1) / p.val : ℕ) : ℤ) := by
  decide

/-- Up to `2^53` rows the `float64` page count is the exact ceiling of `total / perPage`. -/
theorem totalPages_exact_le (total perPage : Int) (h0 : 0 ≤ total) (h53 : total ≤ 2 ^ 53)
    (hp1 : 1 ≤ perPage) (hp : perPage ≤ 100) :
    (F64.ceil (F64.div (F64.ofInt total) (F64.ofInt perPage))).toInt
      = ⌈(total : ℚ) / (perPage : ℚ)⌉ := by
  obtain ⟨t, rfl⟩ := Int.eq_ofNat_of_zero_le h0
  obtain ⟨p, rfl⟩ := Int.eq_ofNat_of_zero_le (by omega : 0 ≤ perPage)
  have hp1n : 1 ≤ p := by exact_mod_cast hp1
  have hpn : p ≤ 100 := by exact_mod_cast hp
  have h53n : t ≤ 2 ^ 53 := by exact_mod_cast h53
  simp only [Int.cast_natCast]
  rcases Nat.lt_or_ge t (2 ^ 53) with ht | ht
  · exact totalPages_exact t p ht hp1n hpn
  · have ht53 : t = 2 ^ 53 := le_antisymm h53n ht
    subst ht53
    have h := totalPages_exact_at_2_53 ⟨p, by omega⟩ hp1n
    simp only at h
    rw [ceil_nat_div _ p (by omega)]
    exact_mod_cast h

/-- C2, for totals up to `2^53`: for every repository, every page size `perPage` in [1,100]
and every total count with `0 <= total <= 2^53` that the repository returns, `todoService.GetAll`
succeeds with `Meta.TotalPages` equal to the ceiling of `total / perPage`, except that it
is 1 when `total` is 0; so `TotalPages` is at least 1. -/
theorem C2_totalPages_is_ceiling_up_to_2_53 {σ : Type} (repo : TodoRepository σ) (s s1 : σ)
    (page perPage total : Int) (todos : List Todo)
    (hpp : 1 ≤ perPage ∧ perPage ≤ 100) (h0 : 0 ≤ total) (h53 : total ≤ 2 ^ 53)
    (hrepo : repo.GetAll s (if 1 ≤ page then page else 1) perPage = (s1, .ok (todos, total))) :
    ∃ resp, todoService.GetAll repo s page perPage = (s1, .ok resp)
      ∧ resp.Meta.TotalPages = (if total = 0 then 1 else ⌈(total : ℚ) / (perPage : ℚ)⌉)
      ∧ 1 ≤ resp.Meta.TotalPages := by
  have hnorm : (if perPage < 1 ∨ perPage > 100 then 20 else perPage) = perPage := by
    rw [if_neg]; omega
  have htp := totalPages_exact_le total perPage h0 h53 hpp.1 hpp.2
  have hceil : total ≠ 0 → 1 ≤ ⌈(total : ℚ) / (perPage : ℚ)⌉ := by
    intro hne
    have ht : (0 : ℚ) < (total : ℚ) := by
      have : 0 < total := lt_of_le_of_ne h0 (Ne.symm hne)
      exact_mod_cast this
    have hpq : (0 : ℚ) < (perPage : ℚ) := by
      have : 0 < perPage := by omega
      exact_mod_cast this
    have : 0 < ⌈(total : ℚ) / (perPage : ℚ)⌉ := Int.ceil_pos.mpr (div_pos ht hpq)
    omega
  simp only [todoService.GetAll, getAll_page_eq, hnorm, hrepo, htp]
  refine ⟨_, rfl, ?_, ?_⟩
  · by_cases hz : total = 0
    · subst hz; simp
    · have := hceil hz
      simp only [if_neg hz]
      rw [if_neg]; omega
  · by_cases hz : total = 0
    · subst hz; simp
    · have := hceil hz
      simp only
      split_ifs <;> omega

/-- C2 at 45 rows and page size 20: three pages. -/
theorem C2_totalPages_is_ceiling_up_to_2_53_witness :
    ∃ resp, todoService.GetAll (fixedTotalRepo 45) [] 1 20 = ([(1, 20)], .ok resp)
      ∧ resp.Meta.TotalPages = 3 := by
  obtain ⟨resp, h1, h2, _⟩ :=
    C2_totalPages_is_ceiling_up_to_2_53 (fixedTotalRepo 45) [] [(1, 20)] 1 20 45 []
      (by decide) (by decide) (by decide) (by simp [fixedTotalRepo])
  refine ⟨resp, h1, ?_⟩
  rw [h2, if_neg (by decide), Int.ceil_eq_iff]
  norm_num

set_option maxRecDepth 1000000 in
/-- C2, above `2^53` rows: for a total of `2^53 + 1` and page size 1 the service reports
`2^53` pages, one less than the ceiling of `total / perPage`. -/
theorem C2_totalPages_inexact_above_2_53 :
    todoService.GetAll (fixedTotalRepo 9007199254740993) [] 1 1
        = ([(1, 1)], .ok
            { Data := []
              Meta :=
                { Total := 9007199254740993, Page := 1, PerPage := 1,
                  TotalPages := 9007199254740992, HasNext := true, HasPrevious := false } })
      ∧ ⌈((9007199254740993 : Int) : ℚ) / ((1 : Int) : ℚ)⌉ = 9007199254740993 := by
  constructor
  · rfl
  · rw [Int.ceil_eq_iff]
    norm_num

/-! ## Next and previous page flags -/

/-- C3: in every result of `todoService.GetAll`, `Meta.Page` is the normalized page,
`Meta.HasNext` holds exactly when that page is below `Meta.TotalPages`, and
`Meta.HasPrevious` holds exactly when it is above 1. With 45 rows and page size 20 there are
3 pages: `HasNext` is true and `HasPrevious` false at page 1, and `HasNext` is false at
page 3. -/
theorem C3_hasNext_hasPrevious {σ : Type} (repo : TodoRepository σ) (s s1 : σ)
    (page perPage : Int) (resp : TodoListResponse)
    (h : todoService.GetAll repo s page perPage = (s1, .ok resp)) :
    (resp.Meta.Page = (if 1 ≤ page then page else 1)
      ∧ (resp.Meta.HasNext = true ↔ resp.Meta.Page < resp.Meta.TotalPages)
      ∧ (resp.Meta.HasPrevious = true ↔ resp.Meta.Page > 1))
    ∧ todoService.GetAll (fixedTotalRepo 45) [] 1 20
        = ([(1, 20)], .ok
            { Data := []
              Meta := { Total := 45, Page := 1, PerPage := 20, TotalPages := 3,
                        HasNext := true, HasPrevious := false } })
    ∧ todoService.GetAll (fixedTotalRepo 45) [] 3 20
        = ([(3, 20)], .ok
            { Data := []
              Meta := { Total := 45, Page := 3, PerPage := 20, TotalPages := 3,
                        HasNext := false, HasPrevious := true } }) := by
  refine ⟨?_, rfl, rfl⟩
  simp only [todoService.GetAll, getAll_page_eq] at h
  rcases hr : repo.GetAll s (if 1 ≤ page then page else 1)
      (if perPage < 1 ∨ perPage > 100 then 20 else perPage) with ⟨s2, err | ⟨todos, total⟩⟩
  · rw [hr] at h
    simp at h
  · rw [hr] at h
    simp only [Prod.mk.injEq, Except.ok.injEq] at h
    obtain ⟨_, rfl⟩ := h
    simp

/-- C3 on the sample store at page 2 with page size 1: two live rows make two pages, so
there is a previous page and no next one. -/
theorem C3_hasNext_hasPrevious_witness :
    todoService.GetAll (NewTodoRepository sampleEnv) sampleDB 2 1
        = ({ rows := sampleDB.rows, stmts := 2 }, .ok
            { Data := [sampleTodo.ToResponse]
              Meta := { Total := 2, Page := 2, PerPage := 1, TotalPages := 2,
                        HasNext := false, HasPrevious := true } })
    ∧ ((2 : Int) = (if (1 : Int) ≤ 2 then 2 else 1)
      ∧ (false = true ↔ (2 : Int) < 2)
      ∧ (true = true ↔ (2 : Int) > 1)) :=
  ⟨rfl, (C3_hasNext_hasPrevious (NewTodoRepository sampleEnv) sampleDB
      { rows := sampleDB.rows, stmts := 2 } 2 1
      { Data := [sampleTodo.ToResponse]
        Meta := { Total := 2, Page := 2, PerPage := 1, TotalPages := 2,
                  HasNext := false, HasPrevious := true } } rfl).1⟩

/-! ## Create, and reading back what was created -/


/-- A successful `todoRepository.Create`: the store accepted the insert, the identifier was
free, and the row appended is the record after the hook, the clock and the column default. -/
theorem todoRepository_Create_ok (env : Env) (db db1 : DB) (todo out : Todo)
    (h : todoRepository.Create env db todo = (db1, .ok out)) :
    env.fault db.stmts = none
      ∧ (∀ r ∈ db.rows, r.ID ≠ out.ID)
      ∧ db1 = { rows := db.rows ++ [out], stmts := db.stmts + 1 }
      ∧ out.ID = (if todo.ID = UUID.Nil then env.newID db.stmts else todo.ID)
      ∧ out.CreatedAt = (if todo.CreatedAt = 0 then env.now db.stmts else todo.CreatedAt)
      ∧ out.UpdatedAt = (if todo.UpdatedAt = 0 then env.now db.stmts else todo.UpdatedAt)
      ∧ out.Priority = (if todo.Priority = "" then "medium" else todo.Priority)
      ∧ out.Title = todo.Title ∧ out.Description = todo.Description
      ∧ out.Completed = todo.Completed ∧ out.DueDate = todo.DueDate
      ∧ out.DeletedAt = todo.DeletedAt := by
  unfold todoRepository.Create at h
  cases hf : env.fault db.stmts with
  | some msg => simp [hf] at h
  | none =>
    simp only [hf] at h
    by_cases hany : (db.rows.any fun r => r.ID == (todo.BeforeCreate (env.newID db.stmts)).ID)
        = true
    · rw [if_pos hany] at h
      simp at h
    · rw [if_neg hany] at h
      simp only [Prod.mk.injEq, Except.ok.injEq] at h
      obtain ⟨hdb, hout⟩ := h
      refine ⟨rfl, ?_, ?_, ?_⟩
      · intro r hr hid
        apply hany
        rw [List.any_eq_true]
        exact ⟨r, hr, by rw [← hout] at hid; simpa using hid⟩
      · rw [← hdb, ← hout]
      · subst hout
        by_cases hid : todo.ID = UUID.Nil <;> simp [Todo.BeforeCreate, hid]

/-- Outcome of a successful `todoService.Create` on the store: the row appended and the
response returned are the request's record with the fresh identifier and the clock. -/
theorem create_ok (env : Env) (db db1 : DB) (req : CreateTodoRequest) (resp : TodoResponse)
    (h : todoService.Create (NewTodoRepository env) db req = (db1, .ok resp)) :
    ∃ todo : Todo,
      db1 = { rows := db.rows ++ [todo], stmts := db.stmts + 1 }
      ∧ resp = todo.ToResponse
      ∧ (∀ r ∈ db.rows, r.ID ≠ todo.ID)
      ∧ todo.DeletedAt = none
      ∧ todo.Completed = false
      ∧ todo.Title = req.Title
      ∧ todo.Description = req.Description
      ∧ todo.DueDate = req.DueDate
      ∧ todo.Priority = (if req.Priority = "" then PriorityMedium else req.Priority) := by
  simp only [todoService.Create, NewTodoRepository] at h
  split at h
  · simp at h
  · rename_i s1 out hc
    simp only [Prod.mk.injEq, Except.ok.injEq] at h
    obtain ⟨hs, hr⟩ := h
    obtain ⟨_, hfresh, hdb, _, _, _, hprio, ht, hd, hcomp, hdue, hdel⟩ :=
      todoRepository_Create_ok env db s1 _ out hc
    refine ⟨out, by rw [← hs, hdb], hr.symm, hfresh, hdel, hcomp, ht.trans ?_, hd.trans ?_,
      hdue.trans ?_, hprio.trans ?_⟩
    · by_cases hp : req.Priority = "" <;> simp [hp]
    · by_cases hp : req.Priority = "" <;> simp [hp]
    · by_cases hp : req.Priority = "" <;> simp [hp]
    · by_cases hp : req.Priority = "" <;> simp [hp, PriorityMedium]

/-- C4: when `todoService.Create` succeeds, the record returned has `completed = false`,
the request's priority when the request gave one and `medium` when it was empty, and the
request's title, description and due date. -/
theorem C4_create_response_fields (env : Env) (db db1 : DB) (req : CreateTodoRequest)
    (resp : TodoResponse)
    (h : todoService.Create (NewTodoRepository env) db req = (db1, .ok resp)) :
    resp.Completed = false
      ∧ (req.Priority ≠ "" → resp.Priority = req.Priority)
      ∧ (req.Priority = "" → resp.Priority = PriorityMedium)
      ∧ resp.Title = req.Title
      ∧ resp.Description = req.Description
      ∧ resp.DueDate = req.DueDate := by
  obtain ⟨todo, _, hresp, _, _, hcomp, ht, hd, hdue, hprio⟩ := create_ok env db db1 req resp h
  subst hresp
  refine ⟨hcomp, ?_, ?_, ht, hd, hdue⟩
  · intro hne
    simp only [Todo.ToResponse, hprio, if_neg hne]
  · intro he
    simp only [Todo.ToResponse, hprio, if_pos he]

/-- C4 on the sample store, for a request without a priority. -/
theorem C4_create_response_fields_witness :
    todoService.Create (NewTodoRepository sampleEnv) sampleDB
        { Title := "Pay rent", Description := "by Friday", Priority := "", DueDate := some 9000 }
      = ({ rows := sampleDB.rows ++
              [{ ID := 1, Title := "Pay rent", Description := "by Friday", Completed := false,
                 Priority := "medium", DueDate := some 9000, CreatedAt := 1000,
                 UpdatedAt := 1000, DeletedAt := none }],
           stmts := 1 },
          .ok { ID := 1, Title := "Pay rent", Description := "by Friday", Completed := false,
                Priority := "medium", DueDate := some 9000, CreatedAt := 1000,
                UpdatedAt := 1000 })
    ∧ (false = false
      ∧ (("" : String) ≠ "" → ("medium" : String) = "")
      ∧ (("" : String) = "" → ("medium" : String) = PriorityMedium)
      ∧ ("Pay rent" : String) = "Pay rent"
      ∧ ("by Friday" : String) = "by Friday"
      ∧ (some 9000 : Option Time) = some 9000) :=
  ⟨rfl, C4_create_response_fields sampleEnv sampleDB _
      { Title := "Pay rent", Description := "by Friday", Priority := "", DueDate := some 9000 }
      { ID := 1, Title := "Pay rent", Description := "by Friday", Completed := false,
        Priority := "medium", DueDate := some 9000, CreatedAt := 1000, UpdatedAt := 1000 }
      rfl⟩

/-- C8: after a successful `todoService.Create`, `todoService.GetByID` on the returned
identifier, run next on a store that answers, succeeds with the very record `Create`
returned. -/
theorem C8_getByID_after_create (env : Env) (db db1 : DB) (req : CreateTodoRequest)
    (resp : TodoResponse)
    (h : todoService.Create (NewTodoRepository env) db req = (db1, .ok resp))
    (hanswer : env.fault db1.stmts = none) :
    todoService.GetByID (NewTodoRepository env) db1 resp.ID
      = ({ db1 with stmts := db1.stmts + 1 }, .ok resp) := by
  obtain ⟨todo, hdb, hresp, hfresh, hlive, _⟩ := create_ok env db db1 req resp h
  have hnone : db.rows.find? (liveWithID todo.ID) = none := by
    rw [List.find?_eq_none]
    intro r hr
    have := hfresh r hr
    simp [liveWithID, this]
  have hfind : db1.rows.find? (liveWithID resp.ID) = some todo := by
    rw [hdb, hresp]
    simp [Todo.ToResponse, List.find?_append, hnone, liveWithID, hlive]
  rw [hresp] at hfind
  simp only [todoService.GetByID, NewTodoRepository, todoRepository.GetByID, hanswer, hresp,
    hfind]

/-- C8 on the sample store: the created record is read back unchanged. -/
theorem C8_getByID_after_create_witness :
    sampleEnv.fault 1 = none
    ∧ todoService.GetByID (NewTodoRepository sampleEnv)
        { rows := sampleDB.rows ++
            [{ ID := 1, Title := "Pay rent", Description := "by Friday", Completed := false,
               Priority := "medium", DueDate := some 9000, CreatedAt := 1000,
               UpdatedAt := 1000, DeletedAt := none }],
          stmts := 1 } 1
      = ({ rows := sampleDB.rows ++
            [{ ID := 1, Title := "Pay rent", Description := "by Friday", Completed := false,
               Priority := "medium", DueDate := some 9000, CreatedAt := 1000,
               UpdatedAt := 1000, DeletedAt := none }],
           stmts := 2 },
          .ok { ID := 1, Title := "Pay rent", Description := "by Friday", Completed := false,
                Priority := "medium", DueDate := some 9000, CreatedAt := 1000,
                UpdatedAt := 1000 }) :=
  ⟨rfl, C8_getByID_after_create sampleEnv sampleDB _
      { Title := "Pay rent", Description := "by Friday", Priority := "", DueDate := some 9000 }
      { ID := 1, Title := "Pay rent", Description := "by Friday", Completed := false,
        Priority := "medium", DueDate := some 9000, CreatedAt := 1000, UpdatedAt := 1000 }
      rfl rfl⟩

/-! ## Partial update -/

/-- A successful `todoRepository.GetByID` returns the first live row with the identifier
and leaves the table as it was. -/
theorem todoRepository_GetByID_ok (env : Env) (db db1 : DB) (id : UUID) (out : Todo)
    (h : todoRepository.GetByID env db id = (db1, .ok out)) :
    env.fault db.stmts = none
      ∧ db.rows.find? (liveWithID id) = some out
      ∧ db1 = { db with stmts := db.stmts + 1 } := by
  unfold todoRepository.GetByID at h
  cases hf : env.fault db.stmts with
  | some msg => simp [hf] at h
  | none =>
    cases hfind : db.rows.find? (liveWithID id) with
    | none => simp [hf, hfind] at h
    | some t =>
      simp only [hf, hfind, Prod.mk.injEq, Except.ok.injEq] at h
      exact ⟨rfl, by rw [h.2], h.1.symm⟩

/-- A row the filter finds is counted by it. -/
theorem filter_length_ne_zero_of_find? (p : Todo → Bool) (rows : List Todo) (t : Todo)
    (h : rows.find? p = some t) : (rows.filter p).length ≠ 0 := by
  have hmem : t ∈ rows.filter p :=
    List.mem_filter.mpr ⟨List.mem_of_find?_eq_some h, List.find?_some h⟩
  intro h0
  rw [List.length_eq_zero] at h0
  rw [h0] at hmem
  simp at hmem

/-- On a record whose identifier has a live row, `todoRepository.Update` is the one `UPDATE`
statement of `Save`: it writes the record, with `UpdatedAt` refreshed, over the live rows
with its identifier, unless the store rejects the statement. -/
theorem todoRepository_Update_live (env : Env) (db : DB) (todo : Todo)
    (hlive : (db.rows.filter (liveWithID todo.ID)).length ≠ 0) :
    todoRepository.Update env db todo
      = match env.fault db.stmts with
        | some msg =>
          ({ db with stmts := db.stmts + 1 },
           .error (.wrap "failed to update todo" (.driver msg)))
        | none =>
          ({ rows := db.rows.map
                (fun r =>
                  if liveWithID todo.ID r then { todo with UpdatedAt := env.now db.stmts }
                  else r),
             stmts := db.stmts + 1 }, .ok { todo with UpdatedAt := env.now db.stmts }) := by
  cases hf : env.fault db.stmts with
  | some msg => simp only [todoRepository.Update, gorm.Save, hf]
  | none => simp only [todoRepository.Update, gorm.Save, hf, if_neg hlive]

/-- A successful `todoRepository.Update` of a record whose identifier has a live row wrote
the record, with `UpdatedAt` refreshed, over the live rows with its identifier. -/
theorem todoRepository_Update_ok (env : Env) (db db1 : DB) (todo out : Todo)
    (hlive : (db.rows.filter (liveWithID todo.ID)).length ≠ 0)
    (h : todoRepository.Update env db todo = (db1, .ok out)) :
    env.fault db.stmts = none
      ∧ out = { todo with UpdatedAt := env.now db.stmts }
      ∧ db1 = { rows := db.rows.map (fun r => if liveWithID todo.ID r then out else r),
                stmts := db.stmts + 1 } := by
  rw [todoRepository_Update_live env db todo hlive] at h
  cases hf : env.fault db.stmts with
  | some msg => simp [hf] at h
  | none =>
    simp only [hf, Prod.mk.injEq, Except.ok.injEq] at h
    obtain ⟨hdb, hout⟩ := h
    exact ⟨rfl, hout.symm, by rw [← hdb, ← hout]⟩

/-- Looking up by a filter after rewriting exactly the rows that pass it. -/
theorem find?_map_update (p : Todo → Bool) (g : Todo → Todo)
    (hg : ∀ r, p r = true → p (g r) = true) (l : List Todo) :
    (l.map (fun r => if p r = true then g r else r)).find? p = (l.find? p).map g := by
  induction l with
  | nil => rfl
  | cons a l ih =>
    by_cases ha : p a = true
    · simp [List.find?_cons, ha, hg a ha]
    · simp [List.find?_cons, ha, ih]

/-- A row found by the filter `liveWithID id` has that identifier and is live. -/
theorem liveWithID_of_find? (id : UUID) (rows : List Todo) (t : Todo)
    (h : rows.find? (liveWithID id) = some t) : t.ID = id ∧ t.DeletedAt = none := by
  have := List.find?_some h
  simpa [liveWithID] using this

/-- The record `todoService.Update` hands to the repository: each field is the request's
value when supplied and the fetched record's value otherwise. -/
theorem todoService_Update_eq {σ : Type} (repo : TodoRepository σ) (s : σ) (id : UUID)
    (req : UpdateTodoRequest) :
    todoService.Update repo s id req
      = match repo.GetByID s id with
        | (s1, .error err) => (s1, .error (.wrap "failed to get todo" err))
        | (s1, .ok todo) =>
          match repo.Update s1
              { todo with
                Title := req.Title.getD todo.Title
                Description := req.Description.getD todo.Description
                Completed := req.Completed.getD todo.Completed
                Priority := req.Priority.getD todo.Priority
                DueDate := req.DueDate.or todo.DueDate } with
          | (s2, .error err) => (s2, .error (.wrap "failed to update todo" err))
          | (s2, .ok todo) => (s2, .ok todo.ToResponse) := by
  obtain ⟨title, description, completed, priority, dueDate⟩ := req
  unfold todoService.Update
  cases title <;> cases description <;> cases completed <;> cases priority <;>
    cases dueDate <;> rfl

/-- C5: after a successful `todoService.Update` on the live todo `old`, each of title,
description, completed, priority and due date is the request's value when the request
supplies the field and the previous value when it does not; identifier and `created_at`
are unchanged; and the stored live row with that identifier is the record returned. -/
theorem C5_update_overwrites_supplied_fields_only (env : Env) (db db2 : DB) (id : UUID)
    (req : UpdateTodoRequest) (resp : TodoResponse)
    (h : todoService.Update (NewTodoRepository env) db id req = (db2, .ok resp)) :
    ∃ old : Todo, db.rows.find? (liveWithID id) = some old
      ∧ resp.Title = req.Title.getD old.Title
      ∧ resp.Description = req.Description.getD old.Description
      ∧ resp.Completed = req.Completed.getD old.Completed
      ∧ resp.Priority = req.Priority.getD old.Priority
      ∧ resp.DueDate = req.DueDate.or old.DueDate
      ∧ resp.ID = old.ID
      ∧ resp.CreatedAt = old.CreatedAt
      ∧ ∃ new : Todo, db2.rows.find? (liveWithID id) = some new
          ∧ new.ToResponse = resp ∧ new.DeletedAt = none := by
  rw [todoService_Update_eq] at h
  simp only [NewTodoRepository] at h
  split at h
  · simp at h
  · rename_i s1 old hget
    obtain ⟨_, hfind, hs1⟩ := todoRepository_GetByID_ok env db s1 id old hget
    obtain ⟨hid, hlive⟩ := liveWithID_of_find? id db.rows old hfind
    split at h
    · simp at h
    · rename_i s2 out hupd
      simp only [Prod.mk.injEq, Except.ok.injEq] at h
      obtain ⟨hs2, hresp⟩ := h
      have hcount : (s1.rows.filter (liveWithID old.ID)).length ≠ 0 := by
        rw [hs1, hid]
        exact filter_length_ne_zero_of_find? _ _ _ hfind
      obtain ⟨_, hout, hdb⟩ := todoRepository_Update_ok env s1 s2 _ out (by exact hcount) hupd
      have houtID : out.ID = id := by rw [hout]; exact hid
      have houtLive : out.DeletedAt = none := by rw [hout]; exact hlive
      refine ⟨old, hfind, ?_, ?_, ?_, ?_, ?_, ?_, ?_, out, ?_, hresp, houtLive⟩
      all_goals try (rw [← hresp, hout]; rfl)
      rw [← hs2, hdb, hs1]
      simp only [hid]
      rw [find?_map_update (liveWithID id) (fun _ => out) _ db.rows, hfind]
      · rfl
      · intro r _
        simp [liveWithID, houtID, houtLive]

/-- C5 on the sample store: an update of todo 8 that supplies an empty title and
`completed = false` and nothing else. -/
theorem C5_update_overwrites_supplied_fields_only_witness :
    todoService.Update (NewTodoRepository sampleEnv) sampleDB 8
        { Title := some "", Description := none, Completed := some false, Priority := none,
          DueDate := none }
      = ({ rows := [sampleTodo,
              { ID := 8, Title := "", Description := "2pm", Completed := false,
                Priority := "low", DueDate := none, CreatedAt := 200, UpdatedAt := 1001,
                DeletedAt := none },
              deletedTodo],
           stmts := 2 },
          .ok { ID := 8, Title := "", Description := "2pm", Completed := false,
                Priority := "low", DueDate := none, CreatedAt := 200, UpdatedAt := 1001 })
    ∧ ∃ old : Todo, sampleDB.rows.find? (liveWithID 8) = some old
      ∧ ("" : String) = (some "" : Option String).getD old.Title
      ∧ ("2pm" : String) = (none : Option String).getD old.Description
      ∧ false = (some false : Option Bool).getD old.Completed
      ∧ ("low" : String) = (none : Option Priority).getD old.Priority
      ∧ (none : Option Time) = (none : Option Time).or old.DueDate
      ∧ (8 : UUID) = old.ID
      ∧ (200 : Time) = old.CreatedAt
      ∧ ∃ new : Todo,
          List.find? (liveWithID 8)
              [sampleTodo,
                { ID := 8, Title := "", Description := "2pm", Completed := false,
                  Priority := "low", DueDate := none, CreatedAt := 200, UpdatedAt := 1001,
                  DeletedAt := none },
                deletedTodo] = some new
          ∧ new.ToResponse
              = { ID := 8, Title := "", Description := "2pm", Completed := false,
                  Priority := "low", DueDate := none, CreatedAt := 200, UpdatedAt := 1001 }
          ∧ new.DeletedAt = none :=
  ⟨rfl, C5_update_overwrites_supplied_fields_only sampleEnv sampleDB _ 8
      { Title := some "", Description := none, Completed := some false, Priority := none,
        DueDate := none }
      { ID := 8, Title := "", Description := "2pm", Completed := false,
        Priority := "low", DueDate := none, CreatedAt := 200, UpdatedAt := 1001 } rfl⟩

/-! ## Toggle -/

/-- The row `todoRepository.Toggle` writes over a live row at clock reading `now`. -/
theorem toggled_liveWithID (id : UUID) (now : Time) (r : Todo) (h : liveWithID id r = true) :
    liveWithID id { r with Completed := !r.Completed, UpdatedAt := now } = true := by
  simpa [liveWithID] using h

/-- A successful `todoRepository.Toggle` negated `completed` and refreshed `updated_at` on
the live rows with the identifier, and touched nothing else. -/
theorem todoRepository_Toggle_ok (env : Env) (db db1 : DB) (id : UUID)
    (h : todoRepository.Toggle env db id = (db1, none)) :
    env.fault db.stmts = none
      ∧ db1 = { rows := db.rows.map (fun r =>
                    if liveWithID id r = true then
                      { r with Completed := !r.Completed, UpdatedAt := env.now db.stmts }
                    else r),
                stmts := db.stmts + 1 } := by
  unfold todoRepository.Toggle at h
  cases hf : env.fault db.stmts with
  | some msg => simp [hf] at h
  | none =>
    simp only [hf] at h
    by_cases h0 : (db.rows.filter (liveWithID id)).length = 0
    · rw [if_pos h0] at h
      simp at h
    · rw [if_neg h0] at h
      simp only [Prod.mk.injEq, and_true] at h
      exact ⟨rfl, h.symm⟩

/-- On a store that answers, `todoService.Toggle` on a live todo succeeds and returns the
todo with `completed` negated and `updated_at` refreshed. -/
theorem todoService_Toggle_live (env : Env) (db : DB) (id : UUID) (t : Todo)
    (hlive : db.rows.find? (liveWithID id) = some t)
    (h0 : env.fault db.stmts = none) (h1 : env.fault (db.stmts + 1) = none) :
    todoService.Toggle (NewTodoRepository env) db id
      = ({ rows := db.rows.map (fun r =>
              if liveWithID id r = true then
                { r with Completed := !r.Completed, UpdatedAt := env.now db.stmts }
              else r),
           stmts := db.stmts + 2 },
         .ok ({ t with Completed := !t.Completed, UpdatedAt := env.now db.stmts } : Todo).ToResponse) := by
  have hcount := filter_length_ne_zero_of_find? _ _ _ hlive
  have hfind := find?_map_update (liveWithID id)
    (fun r => { r with Completed := !r.Completed, UpdatedAt := env.now db.stmts })
    (fun r hr => toggled_liveWithID id _ r hr) db.rows
  rw [hlive] at hfind
  simp only [todoService.Toggle, NewTodoRepository, todoRepository.Toggle, h0, if_neg hcount,
    todoRepository.GetByID, h1, hfind, Option.map_some']

/-- C6: on a store that answers, two calls of `todoService.Toggle` in a row on a live todo
both succeed; the first returns `completed` negated and the second returns the original
value. -/
theorem C6_toggle_twice_restores_completed (env : Env) (db : DB) (id : UUID) (t : Todo)
    (hlive : db.rows.find? (liveWithID id) = some t)
    (hanswer : ∀ k, k < 4 → env.fault (db.stmts + k) = none) :
    ∃ (db1 db2 : DB) (first second : TodoResponse),
      todoService.Toggle (NewTodoRepository env) db id = (db1, .ok first)
      ∧ first.Completed = !t.Completed
      ∧ todoService.Toggle (NewTodoRepository env) db1 id = (db2, .ok second)
      ∧ second.Completed = t.Completed := by
  have e1 := todoService_Toggle_live env db id t hlive (hanswer 0 (by omega))
    (hanswer 1 (by omega))
  have hfind := find?_map_update (liveWithID id)
    (fun r => { r with Completed := !r.Completed, UpdatedAt := env.now db.stmts })
    (fun r hr => toggled_liveWithID id _ r hr) db.rows
  rw [hlive] at hfind
  have e2 := todoService_Toggle_live env
    { rows := db.rows.map (fun r =>
        if liveWithID id r = true then
          { r with Completed := !r.Completed, UpdatedAt := env.now db.stmts }
        else r),
      stmts := db.stmts + 2 } id _ hfind (hanswer 2 (by omega)) (hanswer 3 (by omega))
  exact ⟨_, _, _, _, e1, rfl, e2, by simp [Todo.ToResponse]⟩

/-- C6 on the sample store: todo 7 starts with `completed = false`. -/
theorem C6_toggle_twice_restores_completed_witness :
    ∃ (db1 db2 : DB) (first second : TodoResponse),
      todoService.Toggle (NewTodoRepository sampleEnv) sampleDB 7 = (db1, .ok first)
      ∧ first.Completed = !sampleTodo.Completed
      ∧ todoService.Toggle (NewTodoRepository sampleEnv) db1 7 = (db2, .ok second)
      ∧ second.Completed = sampleTodo.Completed :=
  C6_toggle_twice_restores_completed sampleEnv sampleDB 7 sampleTodo rfl (fun _ _ => rfl)

/-- C7, with the refreshed `updated_at`: a successful `todoService.Toggle` negates
`completed` and sets
`updated_at` to the clock reading of the statement on the live todo with the identifier,
and changes no other field of it (identifier, title, description, priority, due date,
`created_at` and the deletion marker are unchanged); every other row is unchanged. -/
theorem C7_toggle_changes_completed_and_updatedAt_only (env : Env) (db db2 : DB) (id : UUID)
    (resp : TodoResponse)
    (h : todoService.Toggle (NewTodoRepository env) db id = (db2, .ok resp)) :
    List.Forall₂
      (fun before after =>
        if before.ID = id ∧ before.DeletedAt = none then
          after.Completed = (!before.Completed)
            ∧ after.UpdatedAt = env.now db.stmts
            ∧ after.ID = before.ID
            ∧ after.Title = before.Title
            ∧ after.Description = before.Description
            ∧ after.Priority = before.Priority
            ∧ after.DueDate = before.DueDate
            ∧ after.CreatedAt = before.CreatedAt
            ∧ after.DeletedAt = before.DeletedAt
        else after = before)
      db.rows db2.rows := by
  simp only [todoService.Toggle, NewTodoRepository] at h
  split at h
  · simp at h
  · rename_i s1 htog
    obtain ⟨_, hs1⟩ := todoRepository_Toggle_ok env db s1 id htog
    split at h
    · simp at h
    · rename_i s2 out hget
      obtain ⟨_, _, hs2⟩ := todoRepository_GetByID_ok env s1 s2 id out hget
      simp only [Prod.mk.injEq] at h
      rw [← h.1, hs2, hs1]
      simp only
      rw [List.forall₂_map_right_iff, List.forall₂_same]
      intro r _
      by_cases hr : liveWithID id r = true
      · have hr2 : r.ID = id ∧ r.DeletedAt = none := by simpa [liveWithID] using hr
        rw [if_pos hr, if_pos hr2]
        exact ⟨rfl, rfl, rfl, rfl, rfl, rfl, rfl, rfl, rfl⟩
      · have hr2 : ¬ (r.ID = id ∧ r.DeletedAt = none) := by simpa [liveWithID] using hr
        rw [if_neg hr, if_neg hr2]

/-- C7 on the sample store: toggling todo 7 rewrites `completed` and `updated_at` of that
row and leaves the two other rows alone. -/
theorem C7_toggle_changes_completed_and_updatedAt_only_witness :
    List.Forall₂
      (fun before after =>
        if before.ID = 7 ∧ before.DeletedAt = none then
          after.Completed = (!before.Completed)
            ∧ after.UpdatedAt = sampleEnv.now sampleDB.stmts
            ∧ after.ID = before.ID
            ∧ after.Title = before.Title
            ∧ after.Description = before.Description
            ∧ after.Priority = before.Priority
            ∧ after.DueDate = before.DueDate
            ∧ after.CreatedAt = before.CreatedAt
            ∧ after.DeletedAt = before.DeletedAt
        else after = before)
      sampleDB.rows
      [{ ID := 7, Title := "Buy milk", Description := "", Completed := true, Priority := "high",
         DueDate := some 5000, CreatedAt := 100, UpdatedAt := 1000, DeletedAt := none },
       otherTodo, deletedTodo] :=
  C7_toggle_changes_completed_and_updatedAt_only sampleEnv sampleDB
    { rows := [{ ID := 7, Title := "Buy milk", Description := "", Completed := true,
                 Priority := "high", DueDate := some 5000, CreatedAt := 100,
                 UpdatedAt := 1000, DeletedAt := none },
               otherTodo, deletedTodo],
      stmts := 2 } 7
    { ID := 7, Title := "Buy milk", Description := "", Completed := true, Priority := "high",
      DueDate := some 5000, CreatedAt := 100, UpdatedAt := 1000 } rfl

/-- C7, `updated_at` is not left alone: a successful toggle of todo 7 on a store, whose
`updated_at` is 100, leaves the row with `updated_at = 1000`, the clock reading of the
statement. -/
theorem C7_toggle_refreshes_updatedAt :
    todoService.Toggle (NewTodoRepository sampleEnv)
        { rows := [{ ID := 7, Title := "Buy milk", Description := "", Completed := false,
                     Priority := "high", DueDate := some 5000, CreatedAt := 100,
                     UpdatedAt := 100, DeletedAt := none }],
          stmts := 0 } 7
      = ({ rows := [{ ID := 7, Title := "Buy milk", Description := "", Completed := true,
                      Priority := "high", DueDate := some 5000, CreatedAt := 100,
                      UpdatedAt := 1000, DeletedAt := none }],
           stmts := 2 },
          .ok { ID := 7, Title := "Buy milk", Description := "", Completed := true,
                Priority := "high", DueDate := some 5000, CreatedAt := 100,
                UpdatedAt := 1000 })
    ∧ (1000 : Time) ≠ 100 :=
  ⟨rfl, by decide⟩

/-! ## Soft delete is terminal through the service -/

/-- In the deleted state no row passes the filter `id = ? AND deleted_at IS NULL`. -/
theorem liveWithID_false_of_deletedIn (id : UUID) (rows : List Todo) (h : deletedIn id rows)
    (r : Todo) (hr : r ∈ rows) : liveWithID id r = false := by
  by_cases hid : r.ID = id
  · have := h.2 r hr hid
    cases hd : r.DeletedAt with
    | none => exact absurd hd this
    | some d => simp [liveWithID, hd]
  · simp [liveWithID, hid]

/-- In the deleted state the lookup by identifier finds nothing. -/
theorem find?_none_of_deletedIn (id : UUID) (rows : List Todo) (h : deletedIn id rows) :
    rows.find? (liveWithID id) = none := by
  rw [List.find?_eq_none]
  intro r hr
  simp [liveWithID_false_of_deletedIn id rows h r hr]

/-- In the deleted state an update or delete by identifier matches no row. -/
theorem filter_nil_of_deletedIn (id : UUID) (rows : List Todo) (h : deletedIn id rows) :
    rows.filter (liveWithID id) = [] := by
  rw [List.filter_eq_nil_iff]
  intro r hr
  simp [liveWithID_false_of_deletedIn id rows h r hr]

/-- The deleted state survives a statement that rewrites live rows and keeps identifiers. -/
theorem deletedIn_map (id : UUID) (p : Todo → Bool) (g : Todo → Todo)
    (hp : ∀ r, p r = true → r.DeletedAt = none) (hg : ∀ r, p r = true → (g r).ID = r.ID)
    (rows : List Todo) (h : deletedIn id rows) :
    deletedIn id (rows.map (fun r => if p r = true then g r else r)) := by
  obtain ⟨⟨r0, hr0, hid0⟩, hall⟩ := h
  constructor
  · refine ⟨r0, ?_, hid0⟩
    rw [List.mem_map]
    refine ⟨r0, hr0, ?_⟩
    have hnp : ¬ p r0 = true := fun hp0 => hall r0 hr0 hid0 (hp r0 hp0)
    rw [if_neg hnp]
  · intro r' hr' hid'
    rw [List.mem_map] at hr'
    obtain ⟨r, hr, rfl⟩ := hr'
    by_cases hpr : p r = true
    · rw [if_pos hpr] at hid' ⊢
      rw [hg r hpr] at hid'
      exact absurd (hp r hpr) (hall r hr hid')
    · rw [if_neg hpr] at hid' ⊢
      exact hall r hr hid'

/-- The deleted state survives an insert under a different identifier. -/
theorem deletedIn_append (id : UUID) (rows : List Todo) (t : Todo) (h : deletedIn id rows)
    (hfresh : ∀ r ∈ rows, r.ID ≠ t.ID) : deletedIn id (rows ++ [t]) := by
  obtain ⟨⟨r0, hr0, hid0⟩, hall⟩ := h
  constructor
  · exact ⟨r0, List.mem_append_left _ hr0, hid0⟩
  · intro r hr hid
    rw [List.mem_append, List.mem_singleton] at hr
    rcases hr with hr | rfl
    · exact hall r hr hid
    · exact absurd (hid0.trans hid.symm) (hfresh r0 hr0)

/-- A row that passes `liveWithID` is live. -/
theorem live_of_liveWithID (id : UUID) (r : Todo) (h : liveWithID id r = true) :
    r.DeletedAt = none := by
  have : r.ID = id ∧ r.DeletedAt = none := by simpa [liveWithID] using h
  exact this.2

/-- A row that passes `liveWithID` has the identifier. -/
theorem id_of_liveWithID (id : UUID) (r : Todo) (h : liveWithID id r = true) : r.ID = id := by
  have : r.ID = id ∧ r.DeletedAt = none := by simpa [liveWithID] using h
  exact this.1

/-- Rows `todoRepository.Create` leaves. -/
theorem deletedIn_Create (env : Env) (id : UUID) (db : DB) (todo : Todo)
    (h : deletedIn id db.rows) : deletedIn id (todoRepository.Create env db todo).1.rows := by
  rcases hc : todoRepository.Create env db todo with ⟨db1, err | out⟩
  · unfold todoRepository.Create at hc
    cases hf : env.fault db.stmts with
    | some msg =>
      simp only [hf, Prod.mk.injEq] at hc
      rw [← hc.1]; exact h
    | none =>
      simp only [hf] at hc
      split_ifs at hc
      all_goals first
        | (simp only [Prod.mk.injEq] at hc; rw [← hc.1]; exact h)
        | simp at hc
  · obtain ⟨_, hfresh, hdb, _⟩ := todoRepository_Create_ok env db db1 todo out hc
    rw [hdb]
    exact deletedIn_append id db.rows out h hfresh

/-- Rows `todoRepository.GetByID` leaves. -/
theorem rows_GetByID (env : Env) (db : DB) (id : UUID) :
    (todoRepository.GetByID env db id).1.rows = db.rows := by
  cases hf : env.fault db.stmts with
  | some msg => simp only [todoRepository.GetByID, hf]
  | none =>
    cases hfind : db.rows.find? (liveWithID id) <;>
      simp only [todoRepository.GetByID, hf, hfind]

/-- Rows `todoRepository.GetAll` leaves. -/
theorem rows_GetAll (env : Env) (db : DB) (page perPage : Int) :
    (todoRepository.GetAll env db page perPage).1.rows = db.rows := by
  cases hf : env.fault db.stmts with
  | some msg => simp only [todoRepository.GetAll, hf]
  | none =>
    cases hf1 : env.fault (db.stmts + 1) <;> simp only [todoRepository.GetAll, hf, hf1]

/-- Rows `todoRepository.Update` leaves when the record's identifier has a live row. -/
theorem deletedIn_Update (env : Env) (id : UUID) (db : DB) (todo : Todo)
    (hlive : (db.rows.filter (liveWithID todo.ID)).length ≠ 0)
    (h : deletedIn id db.rows) : deletedIn id (todoRepository.Update env db todo).1.rows := by
  rw [todoRepository_Update_live env db todo hlive]
  cases hf : env.fault db.stmts with
  | some msg => exact h
  | none =>
    exact deletedIn_map id (liveWithID todo.ID) (fun _ => { todo with UpdatedAt := env.now db.stmts })
      (fun r hr => live_of_liveWithID _ r hr) (fun r hr => (id_of_liveWithID _ r hr).symm)
      db.rows h

/-- Rows `todoRepository.Delete` leaves. -/
theorem deletedIn_Delete (env : Env) (id : UUID) (db : DB) (target : UUID)
    (h : deletedIn id db.rows) : deletedIn id (todoRepository.Delete env db target).1.rows := by
  cases hf : env.fault db.stmts with
  | some msg => simpa only [todoRepository.Delete, hf] using h
  | none =>
    simp only [todoRepository.Delete, hf]
    split_ifs
    · exact h
    · exact deletedIn_map id (liveWithID target) (fun r => { r with DeletedAt := some (env.now db.stmts) })
        (fun r hr => live_of_liveWithID _ r hr) (fun r _ => rfl) db.rows h

/-- Rows `todoRepository.Toggle` leaves. -/
theorem deletedIn_Toggle (env : Env) (id : UUID) (db : DB) (target : UUID)
    (h : deletedIn id db.rows) : deletedIn id (todoRepository.Toggle env db target).1.rows := by
  cases hf : env.fault db.stmts with
  | some msg => simpa only [todoRepository.Toggle, hf] using h
  | none =>
    simp only [todoRepository.Toggle, hf]
    split_ifs
    · exact h
    · exact deletedIn_map id (liveWithID target)
        (fun r => { r with Completed := !r.Completed, UpdatedAt := env.now db.stmts })
        (fun r hr => live_of_liveWithID _ r hr) (fun r _ => rfl) db.rows h

/-- Transport of the deleted state along the outcome of a repository call. -/
theorem deletedIn_fst {α : Type} (id : UUID) (x : DB × α) (s1 : DB) (a : α)
    (hx : x = (s1, a)) (h : deletedIn id x.1.rows) : deletedIn id s1.rows := by
  subst hx
  exact h

/-- Transport of the table along the outcome of a read-only repository call. -/
theorem deletedIn_fst_rows {α : Type} (id : UUID) (x : DB × α) (s1 : DB) (a : α) (db : DB)
    (hx : x = (s1, a)) (hrows : x.1.rows = db.rows) (h : deletedIn id db.rows) :
    deletedIn id s1.rows := by
  subst hx
  simp only at hrows
  rw [hrows]
  exact h

/-- Every service call keeps an identifier in the deleted state. -/
theorem deletedIn_run (env : Env) (id : UUID) (db : DB) (op : Op)
    (h : deletedIn id db.rows) :
    deletedIn id (Op.run (NewTodoService (NewTodoRepository env)) db op).rows := by
  cases op with
  | create req =>
    simp only [Op.run, NewTodoService, todoService.Create, NewTodoRepository]
    split <;>
      (rename_i hc; exact deletedIn_fst id _ _ _ hc (deletedIn_Create env id db _ h))
  | getByID target =>
    simp only [Op.run, NewTodoService, todoService.GetByID, NewTodoRepository]
    split <;>
      (rename_i hc; exact deletedIn_fst_rows id _ _ _ db hc (rows_GetByID env db target) h)
  | getAll page perPage =>
    simp only [Op.run, NewTodoService, todoService.GetAll, NewTodoRepository]
    split
    · rename_i hc
      exact deletedIn_fst_rows id _ _ _ db hc (rows_GetAll env db _ _) h
    · rename_i hc
      exact deletedIn_fst_rows id _ _ _ db hc (rows_GetAll env db _ _) h
  | update target req =>
    simp only [Op.run, NewTodoService, NewTodoRepository]
    rw [todoService_Update_eq]
    simp only [NewTodoRepository]
    split
    · rename_i hc
      exact deletedIn_fst_rows id _ _ _ db hc (rows_GetByID env db target) h
    · rename_i s1 old hc
      have h1 : deletedIn id s1.rows :=
        deletedIn_fst_rows id _ _ _ db hc (rows_GetByID env db target) h
      obtain ⟨_, hfind, hs1⟩ := todoRepository_GetByID_ok env db s1 target old hc
      have hcount : (s1.rows.filter (liveWithID old.ID)).length ≠ 0 := by
        rw [hs1, (liveWithID_of_find? target db.rows old hfind).1]
        exact filter_length_ne_zero_of_find? _ _ _ hfind
      split <;>
        (rename_i hu
         exact deletedIn_fst id _ _ _ hu (deletedIn_Update env id s1 _ (by exact hcount) h1))
  | delete target =>
    simp only [Op.run, NewTodoService, todoService.Delete, NewTodoRepository]
    split <;>
      (rename_i hc; exact deletedIn_fst id _ _ _ hc (deletedIn_Delete env id db target h))
  | toggle target =>
    simp only [Op.run, NewTodoService, todoService.Toggle, NewTodoRepository]
    split
    · rename_i hc
      exact deletedIn_fst id _ _ _ hc (deletedIn_Toggle env id db target h)
    · rename_i s1 hc
      have h1 : deletedIn id s1.rows :=
        deletedIn_fst id _ _ _ hc (deletedIn_Toggle env id db target h)
      split <;>
        (rename_i hg; exact deletedIn_fst_rows id _ _ _ s1 hg (rows_GetByID env s1 target) h1)

/-- Every sequence of service calls keeps an identifier in the deleted state. -/
theorem deletedIn_runOps (env : Env) (id : UUID) (ops : List Op) :
    ∀ db : DB, deletedIn id db.rows →
      deletedIn id (runOps (NewTodoService (NewTodoRepository env)) db ops).rows := by
  induction ops with
  | nil => intro db h; exact h
  | cons op ops ih =>
    intro db h
    simp only [runOps, List.foldl_cons]
    exact ih _ (deletedIn_run env id db op h)

/-- A successful `todoService.Delete` puts the identifier in the deleted state. -/
theorem deletedIn_of_Delete_ok (env : Env) (db db1 : DB) (id : UUID)
    (h : todoService.Delete (NewTodoRepository env) db id = (db1, none)) :
    deletedIn id db1.rows := by
  simp only [todoService.Delete, NewTodoRepository] at h
  split at h
  · simp at h
  · rename_i s1 hc
    simp only [Prod.mk.injEq, and_true] at h
    subst h
    cases hf : env.fault db.stmts with
    | some msg => simp [todoRepository.Delete, hf] at hc
    | none =>
      simp only [todoRepository.Delete, hf] at hc
      by_cases h0 : (db.rows.filter (liveWithID id)).length = 0
      · rw [if_pos h0] at hc
        simp at hc
      · rw [if_neg h0] at hc
        simp only [Prod.mk.injEq, and_true] at hc
        rw [← hc]
        simp only
        obtain ⟨r0, hr0⟩ := List.exists_mem_of_length_pos (Nat.pos_of_ne_zero h0)
        rw [List.mem_filter] at hr0
        constructor
        · refine ⟨{ r0 with DeletedAt := some (env.now db.stmts) }, ?_,
            id_of_liveWithID id r0 hr0.2⟩
          rw [List.mem_map]
          exact ⟨r0, hr0.1, by rw [if_pos hr0.2]⟩
        · intro r hr hid
          rw [List.mem_map] at hr
          obtain ⟨r1, hr1, rfl⟩ := hr
          by_cases hl : liveWithID id r1 = true
          · rw [if_pos hl]; simp
          · rw [if_neg hl] at hid ⊢
            intro hnone
            apply hl
            simp [liveWithID, hid, hnone]

/-- Rows of a page come from the live rows of the table. -/
theorem mem_page (perPage offset : Int) (rows : List Todo) (t : Todo)
    (h : t ∈ applyLimit perPage (applyOffset offset (orderByCreatedAtDesc (rows.filter live)))) :
    t ∈ rows ∧ t.DeletedAt = none := by
  have h1 : t ∈ applyOffset offset (orderByCreatedAtDesc (rows.filter live)) := by
    unfold applyLimit at h
    split_ifs at h
    · exact List.mem_of_mem_take h
    · exact h
  have h2 : t ∈ orderByCreatedAtDesc (rows.filter live) := by
    unfold applyOffset at h1
    split_ifs at h1
    · exact List.mem_of_mem_drop h1
    · exact h1
  have h3 : t ∈ rows.filter live :=
    (List.perm_insertionSort _ _).subset h2
  rw [List.mem_filter] at h3
  refine ⟨h3.1, ?_⟩
  have := h3.2
  simpa [live] using this

/-- In the deleted state the live rows are the live rows with another identifier. -/
theorem live_count_of_deletedIn (id : UUID) (rows : List Todo) (h : deletedIn id rows) :
    (rows.filter live).length = ((rows.filter (fun r => r.ID != id)).filter live).length := by
  rw [List.filter_filter]
  congr 1
  apply List.filter_congr
  intro r hr
  by_cases hid : r.ID = id
  · have hd := h.2 r hr hid
    cases hdel : r.DeletedAt with
    | none => exact absurd hdel hd
    | some d => simp [live, hdel]
  · simp [hid]

/-- Through the service, soft delete is terminal: once `todoService.Delete` has succeeded
on an identifier, then after every sequence of further service calls: `GetByID`, `Update`,
`Toggle` and `Delete` on that identifier fail and leave the table as it is, with the
repository's not-found error whenever the store answers the statement; and a successful
`GetAll` neither lists a record with that identifier nor counts one in its total. The
service never hands `todoRepository.Update` a record of a deleted identifier, because
`todoService.Update` fetches the record with `GetByID` first. -/
theorem deleted_is_terminal_through_the_service (env : Env) (db db1 : DB) (id : UUID) (ops : List Op)
    (hdel : todoService.Delete (NewTodoRepository env) db id = (db1, none)) :
    ∀ db2 : DB, db2 = runOps (NewTodoService (NewTodoRepository env)) db1 ops →
      (∃ err, todoService.GetByID (NewTodoRepository env) db2 id
            = ({ db2 with stmts := db2.stmts + 1 }, .error err)
          ∧ (env.fault db2.stmts = none →
              err = .wrap "failed to get todo" (.wrap "todo not found" .ErrRecordNotFound)))
      ∧ (∀ req, ∃ err, todoService.Update (NewTodoRepository env) db2 id req
            = ({ db2 with stmts := db2.stmts + 1 }, .error err)
          ∧ (env.fault db2.stmts = none →
              err = .wrap "failed to get todo" (.wrap "todo not found" .ErrRecordNotFound)))
      ∧ (∃ err, todoService.Toggle (NewTodoRepository env) db2 id
            = ({ db2 with stmts := db2.stmts + 1 }, .error err)
          ∧ (env.fault db2.stmts = none →
              err = .wrap "failed to toggle todo" (.new "todo not found")))
      ∧ (∃ err, todoService.Delete (NewTodoRepository env) db2 id
            = ({ db2 with stmts := db2.stmts + 1 }, some err)
          ∧ (env.fault db2.stmts = none →
              err = .wrap "failed to delete todo" (.new "todo not found")))
      ∧ (∀ page perPage db3 resp,
          todoService.GetAll (NewTodoRepository env) db2 page perPage = (db3, .ok resp) →
            (∀ r ∈ resp.Data, r.ID ≠ id)
            ∧ resp.Meta.Total
                = (((db2.rows.filter (fun r => r.ID != id)).filter live).length : Int)
            ∧ db3.rows = db2.rows) := by
  intro db2 hdb2
  have hD : deletedIn id db2.rows := by
    rw [hdb2]
    exact deletedIn_runOps env id ops db1 (deletedIn_of_Delete_ok env db db1 id hdel)
  have hfind := find?_none_of_deletedIn id db2.rows hD
  have hfilter := filter_nil_of_deletedIn id db2.rows hD
  refine ⟨?_, ?_, ?_, ?_, ?_⟩
  · cases hf : env.fault db2.stmts with
    | some msg =>
      exact ⟨.wrap "failed to get todo" (.wrap "failed to get todo" (.driver msg)),
        by simp only [todoService.GetByID, NewTodoRepository, todoRepository.GetByID, hf],
        fun h => by simp at h⟩
    | none =>
      exact ⟨.wrap "failed to get todo" (.wrap "todo not found" .ErrRecordNotFound),
        by simp only [todoService.GetByID, NewTodoRepository, todoRepository.GetByID, hf, hfind],
        fun _ => rfl⟩
  · intro req
    rw [todoService_Update_eq]
    cases hf : env.fault db2.stmts with
    | some msg =>
      exact ⟨.wrap "failed to get todo" (.wrap "failed to get todo" (.driver msg)),
        by simp only [NewTodoRepository, todoRepository.GetByID, hf],
        fun h => by simp at h⟩
    | none =>
      exact ⟨.wrap "failed to get todo" (.wrap "todo not found" .ErrRecordNotFound),
        by simp only [NewTodoRepository, todoRepository.GetByID, hf, hfind], fun _ => rfl⟩
  · cases hf : env.fault db2.stmts with
    | some msg =>
      exact ⟨.wrap "failed to toggle todo" (.wrap "failed to toggle todo" (.driver msg)),
        by simp only [todoService.Toggle, NewTodoRepository, todoRepository.Toggle, hf],
        fun h => by simp at h⟩
    | none =>
      exact ⟨.wrap "failed to toggle todo" (.new "todo not found"),
        by simp only [todoService.Toggle, NewTodoRepository, todoRepository.Toggle, hf,
          hfilter, List.length_nil, if_true], fun _ => rfl⟩
  · cases hf : env.fault db2.stmts with
    | some msg =>
      exact ⟨.wrap "failed to delete todo" (.wrap "failed to delete todo" (.driver msg)),
        by simp only [todoService.Delete, NewTodoRepository, todoRepository.Delete, hf],
        fun h => by simp at h⟩
    | none =>
      exact ⟨.wrap "failed to delete todo" (.new "todo not found"),
        by simp only [todoService.Delete, NewTodoRepository, todoRepository.Delete, hf,
          hfilter, List.length_nil, if_true], fun _ => rfl⟩
  · intro page perPage db3 resp h
    simp only [todoService.GetAll, NewTodoRepository] at h
    split at h
    · simp at h
    · rename_i s1 todos total hc
      simp only [Prod.mk.injEq, Except.ok.injEq] at h
      obtain ⟨hs, hresp⟩ := h
      have hrows := rows_GetAll env db2 (if page < 1 then 1 else page)
        (if perPage < 1 ∨ perPage > 100 then 20 else perPage)
      rw [hc] at hrows
      simp only at hrows
      cases hf : env.fault db2.stmts with
      | some msg => simp [todoRepository.GetAll, hf] at hc
      | none =>
        cases hf1 : env.fault (db2.stmts + 1) with
        | some msg => simp [todoRepository.GetAll, hf, hf1] at hc
        | none =>
          simp only [todoRepository.GetAll, hf, hf1, Prod.mk.injEq, Except.ok.injEq] at hc
          obtain ⟨_, htodos, htotal⟩ := hc
          refine ⟨?_, ?_, ?_⟩
          · intro r hr
            rw [← hresp] at hr
            simp only [List.mem_map] at hr
            obtain ⟨t, ht, rfl⟩ := hr
            rw [← htodos] at ht
            obtain ⟨hmem, hlive⟩ := mem_page _ _ _ _ ht
            intro hid
            exact hD.2 t hmem hid hlive
          · rw [← hresp]
            simp only
            rw [← htotal, live_count_of_deletedIn id db2.rows hD]
          · rw [← hs, hrows]

/-- The same on the sample store: todo 7 is deleted through the service, then toggled, a
todo is created, todo 7 is updated and the list is read; afterwards `GetByID` and a second
`Delete` on 7 fail with the repository's not-found error. -/
theorem deleted_is_terminal_through_the_service_on_sample :
    todoService.Delete (NewTodoRepository sampleEnv) sampleDB 7
      = ({ rows := [{ sampleTodo with DeletedAt := some 1000 }, otherTodo, deletedTodo],
           stmts := 1 }, none)
    ∧ (todoService.GetByID (NewTodoRepository sampleEnv)
        (runOps (NewTodoService (NewTodoRepository sampleEnv))
          { rows := [{ sampleTodo with DeletedAt := some 1000 }, otherTodo, deletedTodo],
            stmts := 1 }
          [.toggle 7,
           .create { Title := "Pay rent", Description := "", Priority := "", DueDate := none },
           .update 7 { Title := some "x", Description := none, Completed := none,
                       Priority := none, DueDate := none },
           .getAll 1 20]) 7).2
      = .error (.wrap "failed to get todo" (.wrap "todo not found" .ErrRecordNotFound))
    ∧ (todoService.Delete (NewTodoRepository sampleEnv)
        (runOps (NewTodoService (NewTodoRepository sampleEnv))
          { rows := [{ sampleTodo with DeletedAt := some 1000 }, otherTodo, deletedTodo],
            stmts := 1 }
          [.toggle 7,
           .create { Title := "Pay rent", Description := "", Priority := "", DueDate := none },
           .update 7 { Title := some "x", Description := none, Completed := none,
                       Priority := none, DueDate := none },
           .getAll 1 20]) 7).2
      = some (.wrap "failed to delete todo" (.new "todo not found")) := by
  obtain ⟨⟨e1, h1, h1'⟩, _, _, ⟨e4, h4, h4'⟩, _⟩ :=
    deleted_is_terminal_through_the_service sampleEnv sampleDB
      { rows := [{ sampleTodo with DeletedAt := some 1000 }, otherTodo, deletedTodo],
        stmts := 1 } 7
      [.toggle 7,
       .create { Title := "Pay rent", Description := "", Priority := "", DueDate := none },
       .update 7 { Title := some "x", Description := none, Completed := none,
                   Priority := none, DueDate := none },
       .getAll 1 20] rfl _ rfl
  refine ⟨rfl, ?_, ?_⟩
  · rw [h1, h1' rfl]
  · rw [h4, h4' rfl]

/-! ## Update of a deleted record at the repository -/

/-- When `Save` reports no error it reports at least one affected row. -/
theorem Save_rowsAffected (env : Env) (db : DB) (todo : Todo)
    (h : (gorm.Save env db todo).2.Error = none) :
    (gorm.Save env db todo).2.RowsAffected ≠ 0 := by
  cases hf : env.fault db.stmts with
  | some msg => simp [gorm.Save, hf] at h
  | none =>
    by_cases h0 : (db.rows.filter (liveWithID todo.ID)).length = 0
    · cases hf1 : env.fault (db.stmts + 1) with
      | some msg => simp [gorm.Save, hf, hf1, h0] at h
      | none =>
        simp only [gorm.Save, hf, hf1, if_pos h0]
        split_ifs <;> simp
    · simp only [gorm.Save, hf, if_neg h0]
      exact h0

/-- The `RowsAffected == 0` branch of `todoRepository.Update` is never taken: whatever the
store holds, `Update` does not return the plain error "todo not found". -/
theorem todoRepository_Update_never_not_found (env : Env) (db : DB) (todo : Todo) :
    (todoRepository.Update env db todo).2 ≠ .error (.new "todo not found") := by
  simp only [todoRepository.Update]
  cases he : (gorm.Save env db todo).2.Error with
  | some err => simp
  | none =>
    simp only [if_neg (Save_rowsAffected env db todo he)]
    simp

/-- On a store that answers, `todoRepository.Update` of a record whose identifier (not the
nil one) is in the deleted state succeeds, and the rows with that identifier take the
`DeletedAt` of the record: with a record that is not marked deleted, the identifier is live
again. -/
theorem todoRepository_Update_of_deleted (env : Env) (db : DB) (todo : Todo)
    (_hid : todo.ID ≠ UUID.Nil) (hdel : deletedIn todo.ID db.rows)
    (hf : env.fault db.stmts = none) (hf1 : env.fault (db.stmts + 1) = none) :
    ∃ out, (todoRepository.Update env db todo).2 = .ok out
      ∧ out.ID = todo.ID
      ∧ (∃ r ∈ (todoRepository.Update env db todo).1.rows, r.ID = todo.ID)
      ∧ ∀ r ∈ (todoRepository.Update env db todo).1.rows, r.ID = todo.ID →
          r.DeletedAt = todo.DeletedAt := by
  have h0 : (db.rows.filter (liveWithID todo.ID)).length = 0 := by
    rw [filter_nil_of_deletedIn todo.ID db.rows hdel]
    rfl
  obtain ⟨⟨r0, hr0, hid0⟩, _⟩ := hdel
  have hany : (db.rows.any (fun r => r.ID == todo.ID)) = true := by
    rw [List.any_eq_true]
    exact ⟨r0, hr0, by simp [hid0]⟩
  simp only [todoRepository.Update, gorm.Save, hf, hf1, if_pos h0, if_pos hany, one_ne_zero,
    if_false]
  refine ⟨_, rfl, rfl, ?_, ?_⟩
  · refine ⟨_, List.mem_map.mpr ⟨r0, hr0, rfl⟩, ?_⟩
    simp [hid0]
  · intro r hr hid
    rw [List.mem_map] at hr
    obtain ⟨r1, hr1, rfl⟩ := hr
    by_cases h1 : (r1.ID == todo.ID) = true
    · rw [if_pos h1]
    · rw [if_neg h1] at hid
      simp [hid] at h1

/-- C9, at the repository: `todoRepository.Update` on a deleted identifier does not fail.
On the sample store todo 7 is read and then soft-deleted. `GetByID`, `Toggle` and a second
`Delete` on 7 now fail with the not-found error, as the claim says. `Update` of the record
that was read, with a new title, succeeds: the `UPDATE` of `Save` matches no live row, its
`INSERT ... ON CONFLICT` rewrites the soft-deleted row with `deleted_at` cleared; afterwards
`GetByID` finds todo 7 again and `GetAll` lists it and counts it. -/
theorem C9_update_revives_a_deleted_todo :
    todoRepository.GetByID sampleEnv sampleDB 7
      = ({ rows := [sampleTodo, otherTodo, deletedTodo], stmts := 1 }, .ok sampleTodo)
    ∧ todoRepository.Delete sampleEnv
        { rows := [sampleTodo, otherTodo, deletedTodo], stmts := 1 } 7
      = ({ rows := [{ sampleTodo with DeletedAt := some 1001 }, otherTodo, deletedTodo],
           stmts := 2 }, none)
    ∧ (todoRepository.GetByID sampleEnv
        { rows := [{ sampleTodo with DeletedAt := some 1001 }, otherTodo, deletedTodo],
          stmts := 2 } 7).2
      = .error (.wrap "todo not found" .ErrRecordNotFound)
    ∧ (todoRepository.Toggle sampleEnv
        { rows := [{ sampleTodo with DeletedAt := some 1001 }, otherTodo, deletedTodo],
          stmts := 2 } 7).2
      = some (.new "todo not found")
    ∧ (todoRepository.Delete sampleEnv
        { rows := [{ sampleTodo with DeletedAt := some 1001 }, otherTodo, deletedTodo],
          stmts := 2 } 7).2
      = some (.new "todo not found")
    ∧ todoRepository.Update sampleEnv
        { rows := [{ sampleTodo with DeletedAt := some 1001 }, otherTodo, deletedTodo],
          stmts := 2 }
        { sampleTodo with Title := "Buy oat milk" }
      = ({ rows := [{ sampleTodo with Title := "Buy oat milk", UpdatedAt := 1003 }, otherTodo,
                    deletedTodo],
           stmts := 4 }, .ok { sampleTodo with Title := "Buy oat milk", UpdatedAt := 1002 })
    ∧ (todoRepository.GetByID sampleEnv
        { rows := [{ sampleTodo with Title := "Buy oat milk", UpdatedAt := 1003 }, otherTodo,
                   deletedTodo],
          stmts := 4 } 7).2
      = .ok { sampleTodo with Title := "Buy oat milk", UpdatedAt := 1003 }
    ∧ (todoRepository.GetAll sampleEnv
        { rows := [{ sampleTodo with Title := "Buy oat milk", UpdatedAt := 1003 }, otherTodo,
                   deletedTodo],
          stmts := 4 } 1 20).2
      = .ok ([otherTodo, { sampleTodo with Title := "Buy oat milk", UpdatedAt := 1003 }], 2) := by
  refine ⟨rfl, rfl, rfl, rfl, rfl, rfl, rfl, rfl⟩

/-! ## Status codes of the handlers -/

/-- With a well-formed identifier (and, for `Update`, a body that decodes and validates),
the handlers `GetByID`, `Update`, `Delete` and `Toggle` answer every error of the service
with `response.NotFound`, whatever the error is. -/
theorem handlers_answer_every_service_error_with_NotFound {σ : Type} (dec : Decoders)
    (service : TodoService σ) (s s1 : σ) (idStr body : String) (id : UUID)
    (req : UpdateTodoRequest) (err : GoError)
    (hid : dec.uuidParse idStr = .ok id)
    (hbind : dec.bindUpdate body = .ok req) (hvalid : dec.validateUpdate req = none) :
    (service.GetByID s id = (s1, .error err) →
        TodoHandler.GetByID dec service s idStr = (s1, response.NotFound "Todo not found" err))
    ∧ (service.Update s id req = (s1, .error err) →
        TodoHandler.Update dec service s idStr body
          = (s1, response.NotFound "Todo not found" err))
    ∧ (service.Delete s id = (s1, some err) →
        TodoHandler.Delete dec service s idStr = (s1, response.NotFound "Todo not found" err))
    ∧ (service.Toggle s id = (s1, .error err) →
        TodoHandler.Toggle dec service s idStr
          = (s1, response.NotFound "Todo not found" err)) := by
  refine ⟨?_, ?_, ?_, ?_⟩
  · intro h; simp only [TodoHandler.GetByID, hid, h]
  · intro h; simp only [TodoHandler.Update, hid, hbind, hvalid, h]
  · intro h; simp only [TodoHandler.Delete, hid, h]
  · intro h; simp only [TodoHandler.Toggle, hid, h]

/-- C10 at a failing store: with the store unreachable, the service fails with a wrapped
driver error that is not a not-found error, and each of the handlers `GetByID`, `Update`,
`Delete` and `Toggle` answers with status 404, not 500. -/
theorem C10_store_failure_is_answered_with_404 :
    todoService.GetByID (NewTodoRepository downEnv) sampleDB 7
      = ({ rows := sampleDB.rows, stmts := 1 },
          .error (.wrap "failed to get todo"
            (.wrap "failed to get todo" (.driver "dial tcp: connection refused"))))
    ∧ GoError.Is (.wrap "failed to get todo"
          (.wrap "failed to get todo" (.driver "dial tcp: connection refused")))
        .ErrRecordNotFound = false
    ∧ (TodoHandler.GetByID sampleDecoders (NewTodoService (NewTodoRepository downEnv))
        sampleDB "7").2.status = 404
    ∧ (TodoHandler.Update sampleDecoders (NewTodoService (NewTodoRepository downEnv))
        sampleDB "7" "Buy oat milk").2.status = 404
    ∧ (TodoHandler.Delete sampleDecoders (NewTodoService (NewTodoRepository downEnv))
        sampleDB "7").2.status = 404
    ∧ (TodoHandler.Toggle sampleDecoders (NewTodoService (NewTodoRepository downEnv))
        sampleDB "7").2.status = 404
    ∧ http.StatusInternalServerError = 500 := by
  refine ⟨rfl, by decide, by decide, by decide, by decide, by decide, rfl⟩

/-! ## Query parameters that do not parse -/

/-- An error of the digit loop is a syntax error with value 0 or a range error with value
`maxUint64`. -/
theorem parseUintLoop_error (cs : List Char) : ∀ (n v : Nat) (e : GoError),
    parseUintLoop cs n = (v, some e) →
      (e = strconv.ErrSyntax ∧ v = 0) ∨ (e = strconv.ErrRange ∧ v = maxUint64) := by
  induction cs with
  | nil => intro n v e h; simp [parseUintLoop] at h
  | cons c cs ih =>
    intro n v e h
    unfold parseUintLoop at h
    split_ifs at h with h1 h2 h3
    · simp only [Prod.mk.injEq, Option.some.injEq] at h
      exact Or.inr ⟨h.2.symm, h.1.symm⟩
    · simp only [Prod.mk.injEq, Option.some.injEq] at h
      exact Or.inr ⟨h.2.symm, h.1.symm⟩
    · exact ih _ v e h
    · simp only [Prod.mk.injEq, Option.some.injEq] at h
      exact Or.inl ⟨h.2.symm, h.1.symm⟩

/-- An error of `strconv.ParseUint` is a syntax error with value 0 or a range error with
value `maxUint64`. -/
theorem ParseUint_error (s : List Char) (v : Nat) (e : GoError)
    (h : strconv.ParseUint s = (v, some e)) :
    (e = strconv.ErrSyntax ∧ v = 0) ∨ (e = strconv.ErrRange ∧ v = maxUint64) := by
  unfold strconv.ParseUint at h
  split at h
  · simp only [Prod.mk.injEq, Option.some.injEq] at h
    exact Or.inl ⟨h.2.symm, h.1.symm⟩
  · exact parseUintLoop_error _ _ _ _ h

/-- The two sentinels of `strconv` differ. -/
theorem ErrSyntax_ne_ErrRange : strconv.ErrSyntax ≠ strconv.ErrRange := by decide

/-- When `strconv.ParseInt` fails, the value it returns is 0 (syntax error), the largest
`int64` or the smallest `int64` (range error). -/
theorem ParseInt_error (s : String) (err : GoError) (h : (strconv.ParseInt s).2 = some err) :
    (strconv.ParseInt s = (0, some (.wrap "strconv.ParseInt: parsing" strconv.ErrSyntax)))
      ∨ (strconv.ParseInt s
          = (2 ^ 63 - 1, some (.wrap "strconv.ParseInt: parsing" strconv.ErrRange)))
      ∨ (strconv.ParseInt s
          = (-(2 ^ 63), some (.wrap "strconv.ParseInt: parsing" strconv.ErrRange))) := by
  unfold strconv.ParseInt at h ⊢
  split
  · exact Or.inl rfl
  · rename_i c cs hs
    simp only [hs] at h
    simp only
    split_ifs at h ⊢ with h1 h2 h3 <;> first
      | exact Or.inl rfl
      | exact Or.inr (Or.inl rfl)
      | exact Or.inr (Or.inr rfl)

/-- When `strconv.Atoi` fails, the value it returns is 0 (syntax error), the largest
`int64` or the smallest `int64` (range error). -/
theorem Atoi_error (s : String) (err : GoError) (h : (strconv.Atoi s).2 = some err) :
    (strconv.Atoi s = (0, some (.wrap "strconv.Atoi: parsing" strconv.ErrSyntax)))
      ∨ (strconv.Atoi s = (2 ^ 63 - 1, some (.wrap "strconv.Atoi: parsing" strconv.ErrRange)))
      ∨ (strconv.Atoi s
          = (-(2 ^ 63), some (.wrap "strconv.Atoi: parsing" strconv.ErrRange))) := by
  rcases hp : strconv.ParseInt s with ⟨i, e⟩
  cases e with
  | none =>
    simp [strconv.Atoi, hp] at h
  | some e =>
    have h2 := ParseInt_error s e (by rw [hp])
    rw [hp] at h2
    rcases h2 with h2 | h2 | h2 <;>
      (simp only [Prod.mk.injEq, Option.some.injEq] at h2
       obtain ⟨hi, he⟩ := h2
       subst hi he
       simp [strconv.Atoi, hp])

/-- A page size outside [1,100] is served as page size 20. -/
theorem todoService_GetAll_perPage_default {σ : Type} (repo : TodoRepository σ) (s : σ)
    (page perPage : Int) (h : perPage < 1 ∨ perPage > 100) :
    todoService.GetAll repo s page perPage = todoService.GetAll repo s page 20 := by
  simp [todoService.GetAll, h]

/-- A page below 1 is served as page 1. -/
theorem todoService_GetAll_page_default {σ : Type} (repo : TodoRepository σ) (s : σ)
    (page perPage : Int) (h : page < 1) :
    todoService.GetAll repo s page perPage = todoService.GetAll repo s 1 perPage := by
  simp [todoService.GetAll, h]

/-- The defaults of the two query parameters parse to 1 and 20. -/
theorem Atoi_defaults : strconv.Atoi "1" = (1, none) ∧ strconv.Atoi "20" = (20, none) := by
  decide

/-- Reading further digits never lowers the accumulator. -/
theorem le_decimalValue (cs : List Char) : ∀ n : Nat, n ≤ decimalValue cs n := by
  induction cs with
  | nil => intro n; exact le_refl n
  | cons c cs ih =>
    intro n
    have := ih (n * 10 + (c.toNat - '0'.toNat))
    simp only [decimalValue]
    omega

/-- The largest `uint64`, written out. -/
theorem maxUint64_eq : maxUint64 = 18446744073709551615 := by decide

/-- The digit loop in terms of the text. -/
theorem parseUintLoop_eq (cs : List Char) : ∀ n : Nat, n ≤ maxUint64 →
    parseUintLoop cs n
      = if maxUint64 < decimalValue (cs.takeWhile isDecimalDigit) n then
          (maxUint64, some strconv.ErrRange)
        else if cs.all isDecimalDigit then (decimalValue cs n, none)
        else (0, some strconv.ErrSyntax) := by
  induction cs with
  | nil =>
    intro n hn
    simp [parseUintLoop, decimalValue, Nat.not_lt.mpr hn]
  | cons c cs ih =>
    intro n hn
    by_cases hd : '0' ≤ c ∧ c ≤ '9'
    · have hdig : isDecimalDigit c = true := by simp [isDecimalDigit, hd]
      simp only [parseUintLoop, if_pos hd, List.takeWhile_cons, hdig, if_true, decimalValue,
        List.all_cons, Bool.true_and]
      have hle := le_decimalValue (cs.takeWhile isDecimalDigit) (n * 10 + (c.toNat - '0'.toNat))
      by_cases h1 : n ≥ maxUint64 / 10 + 1
      · rw [if_pos h1, if_pos]
        rw [maxUint64_eq] at h1 ⊢
        omega
      · rw [if_neg h1]
        by_cases h2 : n * 10 + (c.toNat - '0'.toNat) > maxUint64
        · rw [if_pos h2, if_pos]
          omega
        · rw [if_neg h2]
          exact ih _ (by omega)
    · have hdig : isDecimalDigit c = false := by simp [isDecimalDigit, hd]
      simp [parseUintLoop, hd, List.takeWhile_cons, hdig, decimalValue, Nat.not_lt.mpr hn]

/-- Function `strconv.ParseUint` in terms of the text. -/
theorem ParseUint_eq (ds : List Char) :
    strconv.ParseUint ds
      = if ds = [] then (0, some strconv.ErrSyntax)
        else if maxUint64 < decimalValue (ds.takeWhile isDecimalDigit) 0 then
          (maxUint64, some strconv.ErrRange)
        else if ds.all isDecimalDigit then (decimalValue ds 0, none)
        else (0, some strconv.ErrSyntax) := by
  cases ds with
  | nil => rfl
  | cons c cs =>
    rw [if_neg (by simp)]
    exact parseUintLoop_eq (c :: cs) 0 (Nat.zero_le _)

/-- The texts on which `strconv.ParseInt` reports a value above the range. -/
theorem ParseInt_above_iff (v : String) :
    strconv.ParseInt v = (2 ^ 63 - 1, some (.wrap "strconv.ParseInt: parsing" strconv.ErrRange))
      ↔ aboveIntRange v = true := by
  unfold strconv.ParseInt aboveIntRange
  cases hv : v.toList with
  | nil => simp
  | cons c cs =>
    simp only
    generalize (if c = '+' ∨ c = '-' then cs else c :: cs) = ds
    rw [ParseUint_eq]
    have hne := ErrSyntax_ne_ErrRange
    have hmax : 9223372036854775808 ≤ maxUint64 := by decide
    by_cases hneg : c = '-'
    · simp only [hneg, decide_True, Bool.not_true, Bool.false_and]
      split_ifs <;> simp_all
    · simp only [hneg, decide_False, Bool.not_false, Bool.true_and]
      by_cases h0 : ds = []
      · subst h0
        simp [decimalValue, maxUint64_eq, hne]
      · rw [if_neg h0]
        by_cases h1 : maxUint64 < decimalValue (ds.takeWhile isDecimalDigit) 0
        · simp [h1, hmax]
        · rw [if_neg h1]
          by_cases h2 : ds.all isDecimalDigit = true
          · rw [if_pos h2]
            simp only [h1, h2, decide_False, Bool.false_or, Bool.true_and, decide_eq_true_eq]
            by_cases h3 : 2 ^ 63 ≤ decimalValue ds 0
            · simp [h3]
            · simp [h3]
          · rw [if_neg h2]
            simp [h1, h2, hne]

/-- The texts on which `strconv.Atoi` reports a value above the range: it then returns the
largest `int64`. -/
theorem Atoi_above_iff (v : String) :
    strconv.Atoi v = (2 ^ 63 - 1, some (.wrap "strconv.Atoi: parsing" strconv.ErrRange))
      ↔ aboveIntRange v = true := by
  rw [← ParseInt_above_iff]
  constructor
  · intro h
    have hfail : (strconv.ParseInt v).2 ≠ none := by
      intro hn
      rcases hp : strconv.ParseInt v with ⟨i, e⟩
      rw [hp] at hn
      simp only at hn
      subst hn
      simp [strconv.Atoi, hp] at h
    obtain ⟨err, herr⟩ := Option.ne_none_iff_exists'.mp hfail
    rcases ParseInt_error v err herr with h1 | h1 | h1
    · simp [strconv.Atoi, h1] at h
    · exact h1
    · simp [strconv.Atoi, h1] at h
  · intro h
    simp [strconv.Atoi, h]

/-- When `strconv.Atoi` fails, the value it returns is the largest `int64` exactly on the
texts above the range. -/
theorem Atoi_max_iff (v : String) (hfail : (strconv.Atoi v).2 ≠ none) :
    (strconv.Atoi v).1 = 2 ^ 63 - 1 ↔ aboveIntRange v = true := by
  rw [← Atoi_above_iff]
  obtain ⟨err, herr⟩ := Option.ne_none_iff_exists'.mp hfail
  rcases Atoi_error v err herr with h | h | h
  · rw [h]; simp
  · rw [h]; simp
  · rw [h]; simp

/-- The largest `int64` parses to itself. -/
theorem Atoi_maxInt64 : strconv.Atoi "9223372036854775807" = (9223372036854775807, none) := by
  decide

/-- What `TodoHandler.GetAll` does when a query parameter does not parse, for every
repository. A `per_page` that fails to parse is served exactly as an absent `per_page`
(page size 20). A `page` that fails to parse is served exactly as an absent `page` (page 1)
unless `strconv.Atoi` returned the largest `int64`, and then exactly as
`page=9223372036854775807`. The status is never 400. -/
theorem GetAll_query_that_does_not_parse {σ : Type} (repo : TodoRepository σ) (s : σ)
    (v : String) (other : Option String) (hfail : (strconv.Atoi v).2 ≠ none) :
    TodoHandler.GetAll (NewTodoService repo) s other (some v)
        = TodoHandler.GetAll (NewTodoService repo) s other none
    ∧ ((strconv.Atoi v).1 ≠ 2 ^ 63 - 1 →
        TodoHandler.GetAll (NewTodoService repo) s (some v) other
          = TodoHandler.GetAll (NewTodoService repo) s none other)
    ∧ ((strconv.Atoi v).1 = 2 ^ 63 - 1 →
        TodoHandler.GetAll (NewTodoService repo) s (some v) other
          = TodoHandler.GetAll (NewTodoService repo) s (some "9223372036854775807") other)
    ∧ (TodoHandler.GetAll (NewTodoService repo) s (some v) other).2.status ≠ 400
    ∧ (TodoHandler.GetAll (NewTodoService repo) s other (some v)).2.status ≠ 400 := by
  obtain ⟨err, herr⟩ := Option.ne_none_iff_exists'.mp hfail
  have hcases := Atoi_error v err herr
  have hstatus : ∀ p q, (TodoHandler.GetAll (NewTodoService repo) s p q).2.status ≠ 400 := by
    intro p q
    simp only [TodoHandler.GetAll, NewTodoService]
    split <;>
      simp [response.InternalServerError, response.OK, http.StatusInternalServerError,
        http.StatusOK]
  refine ⟨?_, ?_, ?_, hstatus _ _, hstatus _ _⟩
  · have hpp : (strconv.Atoi v).1 < 1 ∨ (strconv.Atoi v).1 > 100 := by
      rcases hcases with h | h | h <;> rw [h] <;> simp
    simp only [TodoHandler.GetAll, NewTodoService, gin.DefaultQuery, Atoi_defaults.2]
    rw [todoService_GetAll_perPage_default repo s _ _ hpp]
  · intro hmax
    have hp : (strconv.Atoi v).1 < 1 := by
      rcases hcases with h | h | h
      · rw [h]; simp
      · rw [h] at hmax; simp at hmax
      · rw [h]; simp
    simp only [TodoHandler.GetAll, NewTodoService, gin.DefaultQuery, Atoi_defaults.1]
    rw [todoService_GetAll_page_default repo s _ _ hp]
  · intro hmax
    simp only [TodoHandler.GetAll, NewTodoService, gin.DefaultQuery, Atoi_maxInt64, hmax]
    rfl

/-- C11, with the values above the range told apart. Let `v` be a query value on which
`strconv.Atoi` fails. As `per_page`, `v` is served exactly as an absent `per_page`: the
repository is queried with page size 20. As `page`, `v` is served exactly as an absent
`page`, so the repository is queried with page 1, unless `v` is above the range of `int`
(`aboveIntRange`: no leading minus sign and, after an optional plus sign, decimal digits
only with a value above `2^63 - 1`, or leading decimal digits with a value above `2^64 - 1`
whatever follows); these are exactly the values for which `strconv.Atoi` returns the
largest `int64`, and the repository is then queried with page `2^63 - 1`. The status is
never 400. -/
theorem C11_unparsed_query_is_served_as_default {σ : Type} (repo : TodoRepository σ) (s : σ)
    (v : String) (other : Option String) (hfail : (strconv.Atoi v).2 ≠ none) :
    TodoHandler.GetAll (NewTodoService repo) s other (some v)
        = TodoHandler.GetAll (NewTodoService repo) s other none
    ∧ (aboveIntRange v = false →
        TodoHandler.GetAll (NewTodoService repo) s (some v) other
          = TodoHandler.GetAll (NewTodoService repo) s none other)
    ∧ (aboveIntRange v = true →
        TodoHandler.GetAll (NewTodoService repo) s (some v) other
          = TodoHandler.GetAll (NewTodoService repo) s (some "9223372036854775807") other)
    ∧ (TodoHandler.GetAll (NewTodoService repo) s (some v) other).2.status ≠ 400
    ∧ (TodoHandler.GetAll (NewTodoService repo) s other (some v)).2.status ≠ 400
    ∧ (∀ total, (TodoHandler.GetAll (NewTodoService (fixedTotalRepo total)) [] none
        (some v)).1 = [(1, 20)])
    ∧ (aboveIntRange v = false →
        ∀ total, (TodoHandler.GetAll (NewTodoService (fixedTotalRepo total)) [] (some v)
          none).1 = [(1, 20)])
    ∧ (aboveIntRange v = true →
        ∀ total, (TodoHandler.GetAll (NewTodoService (fixedTotalRepo total)) [] (some v)
          none).1 = [(9223372036854775807, 20)])
    ∧ (aboveIntRange v = true ↔ (strconv.Atoi v).1 = 2 ^ 63 - 1) := by
  obtain ⟨h1, h2, h3, h4, h5⟩ := GetAll_query_that_does_not_parse repo s v other hfail
  have hiff := Atoi_max_iff v hfail
  have hlow : aboveIntRange v = false → (strconv.Atoi v).1 ≠ 2 ^ 63 - 1 := by
    intro hb hmax
    rw [hiff.mp hmax] at hb
    exact Bool.noConfusion hb
  have hdefault : ∀ total,
      (TodoHandler.GetAll (NewTodoService (fixedTotalRepo total)) [] none none).1
        = [(1, 20)] := by
    intro total
    simp [TodoHandler.GetAll, NewTodoService, gin.DefaultQuery, Atoi_defaults.1,
      Atoi_defaults.2, todoService.GetAll, fixedTotalRepo]
  have hlast : ∀ total,
      (TodoHandler.GetAll (NewTodoService (fixedTotalRepo total)) []
        (some "9223372036854775807") none).1 = [(9223372036854775807, 20)] := by
    intro total
    simp [TodoHandler.GetAll, NewTodoService, gin.DefaultQuery, Atoi_maxInt64,
      Atoi_defaults.2, todoService.GetAll, fixedTotalRepo]
  refine ⟨h1, fun hb => h2 (hlow hb), fun hb => h3 (hiff.mpr hb), h4, h5, ?_, ?_, ?_,
    hiff.symm⟩
  · intro total
    rw [(GetAll_query_that_does_not_parse (fixedTotalRepo total) [] v none hfail).1]
    exact hdefault total
  · intro hb total
    rw [(GetAll_query_that_does_not_parse (fixedTotalRepo total) [] v none hfail).2.1
      (hlow hb)]
    exact hdefault total
  · intro hb total
    rw [(GetAll_query_that_does_not_parse (fixedTotalRepo total) [] v none hfail).2.2.1
      (hiff.mpr hb)]
    exact hlast total

/-- C11 at the value `abc`, which is not above the range, for `page` and for `per_page`:
both are served as absent, and the repository is queried with page 1 and page size 20; and
at the value `99999999999999999999x`, which is above the range: as `per_page` it is served
as absent, as `page` it is served as page `2^63 - 1`. -/
theorem C11_unparsed_query_is_served_as_default_witness :
    (((strconv.Atoi "abc").2 ≠ none ∧ aboveIntRange "abc" = false)
      ∧ TodoHandler.GetAll (NewTodoService (fixedTotalRepo 2)) [] none (some "abc")
          = TodoHandler.GetAll (NewTodoService (fixedTotalRepo 2)) [] none none
      ∧ TodoHandler.GetAll (NewTodoService (fixedTotalRepo 2)) [] (some "abc") none
          = TodoHandler.GetAll (NewTodoService (fixedTotalRepo 2)) [] none none
      ∧ (TodoHandler.GetAll (NewTodoService (fixedTotalRepo 2)) [] (some "abc")
          none).2.status ≠ 400
      ∧ (TodoHandler.GetAll (NewTodoService (fixedTotalRepo 2)) [] none
          (some "abc")).2.status ≠ 400
      ∧ (∀ total, (TodoHandler.GetAll (NewTodoService (fixedTotalRepo total)) [] none
          (some "abc")).1 = [(1, 20)])
      ∧ (∀ total, (TodoHandler.GetAll (NewTodoService (fixedTotalRepo total)) []
          (some "abc") none).1 = [(1, 20)]))
    ∧ (((strconv.Atoi "99999999999999999999x").2 ≠ none
          ∧ aboveIntRange "99999999999999999999x" = true)
      ∧ TodoHandler.GetAll (NewTodoService (fixedTotalRepo 2)) [] none
            (some "99999999999999999999x")
          = TodoHandler.GetAll (NewTodoService (fixedTotalRepo 2)) [] none none
      ∧ TodoHandler.GetAll (NewTodoService (fixedTotalRepo 2)) []
            (some "99999999999999999999x") none
          = TodoHandler.GetAll (NewTodoService (fixedTotalRepo 2)) []
            (some "9223372036854775807") none
      ∧ (∀ total, (TodoHandler.GetAll (NewTodoService (fixedTotalRepo total)) []
          (some "99999999999999999999x") none).1 = [(9223372036854775807, 20)])
      ∧ (strconv.Atoi "99999999999999999999x").1 = 2 ^ 63 - 1) :=
  have h := C11_unparsed_query_is_served_as_default (fixedTotalRepo 2) [] "abc" none
    (by decide)
  have g := C11_unparsed_query_is_served_as_default (fixedTotalRepo 2) []
    "99999999999999999999x" none (by decide)
  ⟨⟨⟨by decide, by decide⟩, h.1, h.2.1 (by decide), h.2.2.2.1, h.2.2.2.2.1, h.2.2.2.2.2.1,
      h.2.2.2.2.2.2.1 (by decide)⟩,
    ⟨⟨by decide, by decide⟩, g.1, g.2.2.1 (by decide), g.2.2.2.2.2.2.2.1 (by decide),
      g.2.2.2.2.2.2.2.2.mp (by decide)⟩⟩

/-- C11, values above the range. At `page=9223372036854775808`, digits beyond the range,
`strconv.Atoi` fails with a range error and returns the largest `int64`; the handler drops
the error, and the repository is queried with page 9223372036854775807, not page 1 (the
status is 200, and `per_page=abc` is served as 20). The same happens at
`page=99999999999999999999x`, which is not numeric: the digit loop leaves with the range
error before it reads the `x`. A text whose digits stay within `2^64 - 1`, such as
`9223372036854775808x`, is a syntax error and is served as page 1. -/
theorem C11_page_out_of_range_is_not_page_1 :
    strconv.Atoi "9223372036854775808"
      = (9223372036854775807, some (.wrap "strconv.Atoi: parsing" strconv.ErrRange))
    ∧ (TodoHandler.GetAll (NewTodoService (fixedTotalRepo 2)) []
        (some "9223372036854775808") (some "abc")).1 = [(9223372036854775807, 20)]
    ∧ (TodoHandler.GetAll (NewTodoService (fixedTotalRepo 2)) []
        (some "9223372036854775808") (some "abc")).2.status = 200
    ∧ strconv.Atoi "99999999999999999999x"
      = (9223372036854775807, some (.wrap "strconv.Atoi: parsing" strconv.ErrRange))
    ∧ (TodoHandler.GetAll (NewTodoService (fixedTotalRepo 2)) []
        (some "99999999999999999999x") none).1 = [(9223372036854775807, 20)]
    ∧ (TodoHandler.GetAll (NewTodoService (fixedTotalRepo 2)) []
        (some "99999999999999999999x") none).2.status = 200
    ∧ strconv.Atoi "9223372036854775808x"
      = (0, some (.wrap "strconv.Atoi: parsing" strconv.ErrSyntax))
    ∧ (TodoHandler.GetAll (NewTodoService (fixedTotalRepo 2)) []
        (some "9223372036854775808x") none).1 = [(1, 20)]
    ∧ (TodoHandler.GetAll (NewTodoService (fixedTotalRepo 2)) [] (some "abc") (some ""))
        = (TodoHandler.GetAll (NewTodoService (fixedTotalRepo 2)) [] none none)
    ∧ (TodoHandler.GetAll (NewTodoService (fixedTotalRepo 2)) [] none none).1 = [(1, 20)] := by
  refine ⟨by decide, by decide, by decide, by decide, by decide, by decide, by decide,
    by decide, rfl, by decide⟩

/-! ## A create request without a priority -/

/-- The empty priority fails the `oneof` tag. -/
theorem validateCreate_empty_priority (req : CreateTodoRequest) (h : req.Priority = "") :
    validateCreateTodoRequest req ≠ none := by
  unfold validateCreateTodoRequest validationErrors
  have hone : isOneOfPriority req.Priority = false := by rw [h]; decide
  rw [hone]
  simp

/-- A create request whose body decodes with an empty priority (the field was omitted) is
answered by `TodoHandler.Create` with 400 "Validation failed", whatever its title and
description, and the service is not called: the state is unchanged. -/
theorem Create_without_priority_is_rejected {σ : Type} (dec : Decoders)
    (service : TodoService σ) (s : σ) (body : String) (req : CreateTodoRequest)
    (hbind : dec.bindCreate body = .ok req) (hprio : req.Priority = "") :
    ∃ err, TodoHandler.Create (withValidator dec) service s body
      = (s, response.BadRequest "Validation failed" err) := by
  have hne := validateCreate_empty_priority req hprio
  obtain ⟨err, herr⟩ := Option.ne_none_iff_exists'.mp hne
  exact ⟨err, by simp only [TodoHandler.Create, withValidator, hbind, herr]⟩

/-- C12 at the body that decodes to title "Buy milk" with no priority: the title has 8
characters, the description is empty, and the handler answers 400 "Validation failed" on
the `oneof` tag of `Priority`; nothing is created. With a validation that lets the request
through, the service would create the todo with priority `medium` and the answer would
be 201. -/
theorem C12_create_without_priority_is_a_400 :
    sampleDecoders.bindCreate "Buy milk"
      = .ok { Title := "Buy milk", Description := "", Priority := "", DueDate := none }
    ∧ ("Buy milk" : String).length = 8
    ∧ TodoHandler.Create (withValidator sampleDecoders)
        (NewTodoService (NewTodoRepository sampleEnv)) sampleDB "Buy milk"
      = (sampleDB,
          { status := 400, success := false, message := "Validation failed", data := none,
            error := some (.new "Priority failed on the oneof tag") })
    ∧ (TodoHandler.Create sampleDecoders
        (NewTodoService (NewTodoRepository sampleEnv)) sampleDB "Buy milk").2
      = { status := 201, success := true, message := "Todo created successfully",
          data := some (.todo { ID := 1, Title := "Buy milk", Description := "",
                                Completed := false, Priority := "medium", DueDate := none,
                                CreatedAt := 1000, UpdatedAt := 1000 }),
          error := none } := by
  refine ⟨rfl, by decide, rfl, rfl⟩

/-! ## The page query of the repository -/

/-- A successful `todoRepository.GetAll` counted the live rows and took the page from the
live rows in descending `created_at` order, with limit `perPage` and the offset
`(page - 1) * perPage` of 64-bit arithmetic. -/
theorem todoRepository_GetAll_ok (env : Env) (db db1 : DB) (page perPage total : Int)
    (todos : List Todo)
    (h : todoRepository.GetAll env db page perPage = (db1, .ok (todos, total))) :
    todos = applyLimit perPage (applyOffset (wrapInt64 ((page - 1) * perPage))
        (orderByCreatedAtDesc (db.rows.filter live)))
      ∧ total = ((db.rows.filter live).length : Int)
      ∧ db1 = { db with stmts := db.stmts + 2 } := by
  cases hf : env.fault db.stmts with
  | some msg => simp [todoRepository.GetAll, hf] at h
  | none =>
    cases hf1 : env.fault (db.stmts + 1) with
    | some msg => simp [todoRepository.GetAll, hf, hf1] at h
    | none =>
      simp only [todoRepository.GetAll, hf, hf1, Prod.mk.injEq, Except.ok.injEq] at h
      exact ⟨h.2.1.symm, h.2.2.symm, h.1.symm⟩

/-- A value in the non-negative `int64` range is not changed by the 64-bit reduction. -/
theorem wrapInt64_of_range (x : Int) (h0 : 0 ≤ x) (h1 : x < 2 ^ 63) : wrapInt64 x = x := by
  unfold wrapInt64
  rw [Int.emod_eq_of_lt (by omega) (by omega)]
  omega

/-- A priority that passes the `oneof` tag is one of the four constants. -/
theorem isOneOfPriority_iff (p : Priority) :
    isOneOfPriority p = true ↔
      (p = PriorityLow ∨ p = PriorityMedium ∨ p = PriorityHigh ∨ p = PriorityUrgent) := by
  simp [isOneOfPriority, or_assoc]

/-- No validation error means no failed field. -/
theorem validationErrors_eq_none (failures : List String) :
    validationErrors failures = none ↔ failures = [] := by
  unfold validationErrors
  split_ifs with h <;> simp [h]

/-- A string of length at least 1 is not empty. -/
theorem ne_empty_of_length (t : String) (h : ¬ t.length < 1) : t ≠ "" := by
  intro he
  subst he
  exact h (by decide)

/-- A create request that passes validation has a title and one of the four priorities. -/
theorem validateCreate_none (req : CreateTodoRequest)
    (h : validateCreateTodoRequest req = none) :
    req.Title ≠ "" ∧ isOneOfPriority req.Priority = true := by
  unfold validateCreateTodoRequest at h
  rw [validationErrors_eq_none] at h
  simp only [List.append_eq_nil] at h
  obtain ⟨⟨h1, _⟩, h3⟩ := h
  constructor
  · intro he
    rw [if_pos he] at h1
    simp at h1
  · by_contra hne
    rw [if_neg hne] at h3
    simp at h3

/-- An update request that passes validation supplies no empty title and no priority
outside the four. -/
theorem validateUpdate_none (req : UpdateTodoRequest)
    (h : validateUpdateTodoRequest req = none) :
    (∀ t, req.Title = some t → t ≠ "")
      ∧ (∀ p, req.Priority = some p → isOneOfPriority p = true) := by
  unfold validateUpdateTodoRequest at h
  rw [validationErrors_eq_none] at h
  simp only [List.append_eq_nil] at h
  obtain ⟨⟨h1, _⟩, h3⟩ := h
  constructor
  · intro t ht
    rw [ht] at h1
    simp only at h1
    by_cases hl : t.length < 1
    · rw [if_pos hl] at h1
      simp at h1
    · exact ne_empty_of_length t hl
  · intro p hp
    rw [hp] at h3
    simp only at h3
    by_contra hne
    rw [if_neg hne] at h3
    simp at h3

/-- Rewriting rows by a function that keeps validity keeps every row valid. -/
theorem allValid_map (f : Todo → Todo) (rows : List Todo)
    (hf : ∀ r ∈ rows, validTodo r → validTodo (f r)) (h : ∀ r ∈ rows, validTodo r) :
    ∀ r ∈ rows.map f, validTodo r := by
  intro r hr
  rw [List.mem_map] at hr
  obtain ⟨r0, hr0, rfl⟩ := hr
  exact hf r0 hr0 (h r0 hr0)

/-- A failed `todoRepository.Create` leaves the table as it is. -/
theorem rows_Create_error (env : Env) (db db1 : DB) (todo : Todo) (err : GoError)
    (h : todoRepository.Create env db todo = (db1, .error err)) : db1.rows = db.rows := by
  cases hf : env.fault db.stmts with
  | some msg =>
    simp only [todoRepository.Create, hf, Prod.mk.injEq] at h
    rw [← h.1]
  | none =>
    simp only [todoRepository.Create, hf] at h
    by_cases hany : (db.rows.any fun r => r.ID == (todo.BeforeCreate (env.newID db.stmts)).ID)
        = true
    · rw [if_pos hany] at h
      simp only [Prod.mk.injEq] at h
      rw [← h.1]
    · rw [if_neg hany] at h
      simp at h

/-- The store `todoRepository.Update` leaves is the one `Save` leaves. -/
theorem todoRepository_Update_state (env : Env) (db : DB) (todo : Todo) :
    (todoRepository.Update env db todo).1 = (gorm.Save env db todo).1 := by
  simp only [todoRepository.Update]
  split
  · rfl
  · split <;> rfl

/-- Validity survives `Save` of a valid record, whichever statements it sends. -/
theorem allValid_Save (env : Env) (db : DB) (todo : Todo) (htodo : validTodo todo)
    (h : ∀ r ∈ db.rows, validTodo r) :
    ∀ r ∈ (gorm.Save env db todo).1.rows, validTodo r := by
  have hins : ∀ (c u : Time), validTodo
      { todo with
        CreatedAt := c
        UpdatedAt := u
        Priority := if todo.Priority = "" then "medium" else todo.Priority } := by
    intro c u
    refine ⟨htodo.1, ?_⟩
    have hp := htodo.2
    by_cases he : todo.Priority = ""
    · simp only [he, if_true]
      exact Or.inr (Or.inl rfl)
    · simp only [he, if_false]
      exact hp
  cases hf : env.fault db.stmts with
  | some msg => simpa only [gorm.Save, hf] using h
  | none =>
    by_cases h0 : (db.rows.filter (liveWithID todo.ID)).length = 0
    · cases hf1 : env.fault (db.stmts + 1) with
      | some msg => simpa only [gorm.Save, hf, hf1, if_pos h0] using h
      | none =>
        by_cases hany : (db.rows.any (fun r => r.ID == todo.ID)) = true
        · simp only [gorm.Save, hf, hf1, if_pos h0, if_pos hany]
          apply allValid_map _ _ _ h
          intro r _ hr
          by_cases hid : (r.ID == todo.ID) = true
          · rw [if_pos hid]
            exact hins _ _
          · rw [if_neg hid]
            exact hr
        · simp only [gorm.Save, hf, hf1, if_pos h0, if_neg hany]
          intro r hr
          rw [List.mem_append, List.mem_singleton] at hr
          rcases hr with hr | rfl
          · exact h r hr
          · exact hins _ _
    · simp only [gorm.Save, hf, if_neg h0]
      apply allValid_map _ _ _ h
      intro r _ hr
      split_ifs
      · exact htodo
      · exact hr

/-- Validity survives `todoRepository.Update` of a valid record. -/
theorem allValid_Update (env : Env) (db : DB) (todo : Todo) (htodo : validTodo todo)
    (h : ∀ r ∈ db.rows, validTodo r) :
    ∀ r ∈ (todoRepository.Update env db todo).1.rows, validTodo r := by
  rw [todoRepository_Update_state]
  exact allValid_Save env db todo htodo h

/-- Validity survives `todoRepository.Delete`. -/
theorem allValid_Delete (env : Env) (db : DB) (id : UUID) (h : ∀ r ∈ db.rows, validTodo r) :
    ∀ r ∈ (todoRepository.Delete env db id).1.rows, validTodo r := by
  cases hf : env.fault db.stmts with
  | some msg => simpa only [todoRepository.Delete, hf] using h
  | none =>
    simp only [todoRepository.Delete, hf]
    split_ifs
    · exact h
    · apply allValid_map _ _ _ h
      intro r _ hr
      split_ifs
      · exact hr
      · exact hr

/-- Validity survives `todoRepository.Toggle`. -/
theorem allValid_Toggle (env : Env) (db : DB) (id : UUID) (h : ∀ r ∈ db.rows, validTodo r) :
    ∀ r ∈ (todoRepository.Toggle env db id).1.rows, validTodo r := by
  cases hf : env.fault db.stmts with
  | some msg => simpa only [todoRepository.Toggle, hf] using h
  | none =>
    simp only [todoRepository.Toggle, hf]
    split_ifs
    · exact h
    · apply allValid_map _ _ _ h
      intro r _ hr
      split_ifs
      · exact hr
      · exact hr

/-- Validity survives `todoService.Create` of a request that passed validation. -/
theorem allValid_service_Create (env : Env) (db : DB) (req : CreateTodoRequest)
    (hval : validateCreateTodoRequest req = none) (h : ∀ r ∈ db.rows, validTodo r) :
    ∀ r ∈ (todoService.Create (NewTodoRepository env) db req).1.rows, validTodo r := by
  obtain ⟨htitle, hprio⟩ := validateCreate_none req hval
  rcases hc : todoService.Create (NewTodoRepository env) db req with ⟨db1, err | resp⟩
  · simp only [todoService.Create, NewTodoRepository] at hc
    split at hc
    · rename_i s1 e hrepo
      simp only [Prod.mk.injEq] at hc
      rw [← hc.1, rows_Create_error env db s1 _ e hrepo]
      exact h
    · simp at hc
  · obtain ⟨todo, hdb, _, _, _, _, ht, _, _, hp⟩ := create_ok env db db1 req resp hc
    simp only [hdb]
    intro r hr
    rw [List.mem_append, List.mem_singleton] at hr
    rcases hr with hr | rfl
    · exact h r hr
    · refine ⟨by rw [ht]; exact htitle, ?_⟩
      rw [hp]
      split_ifs
      · exact Or.inr (Or.inl rfl)
      · exact (isOneOfPriority_iff _).mp hprio

/-- Validity survives `todoService.Update` with a request that passed validation. -/
theorem allValid_service_Update (env : Env) (db : DB) (id : UUID) (req : UpdateTodoRequest)
    (hval : validateUpdateTodoRequest req = none) (h : ∀ r ∈ db.rows, validTodo r) :
    ∀ r ∈ (todoService.Update (NewTodoRepository env) db id req).1.rows, validTodo r := by
  obtain ⟨htitle, hprio⟩ := validateUpdate_none req hval
  rw [todoService_Update_eq]
  simp only [NewTodoRepository]
  split
  · rename_i s1 err hget
    have hrows := rows_GetByID env db id
    rw [hget] at hrows
    simp only at hrows ⊢
    rw [hrows]
    exact h
  · rename_i s1 old hget
    obtain ⟨_, hfind, hs1⟩ := todoRepository_GetByID_ok env db s1 id old hget
    have hold : validTodo old := h old (List.mem_of_find?_eq_some hfind)
    have hs1rows : ∀ r ∈ s1.rows, validTodo r := by rw [hs1]; exact h
    have hnew : validTodo
        { old with
          Title := req.Title.getD old.Title
          Description := req.Description.getD old.Description
          Completed := req.Completed.getD old.Completed
          Priority := req.Priority.getD old.Priority
          DueDate := req.DueDate.or old.DueDate } := by
      constructor
      · cases ht : req.Title with
        | none => exact hold.1
        | some t => exact htitle t ht
      · cases hp : req.Priority with
        | none => exact hold.2
        | some p => exact (isOneOfPriority_iff p).mp (hprio p hp)
    have hupd := allValid_Update env s1 _ hnew hs1rows
    split
    · rename_i s2 err hu
      rw [hu] at hupd
      exact hupd
    · rename_i s2 out hu
      rw [hu] at hupd
      exact hupd

/-- State `TodoHandler.Create` leaves: the state it was given, or the state the service
left for a request that passed validation. -/
theorem TodoHandler_Create_state {σ : Type} (dec : Decoders) (service : TodoService σ) (s : σ)
    (body : String) :
    (TodoHandler.Create dec service s body).1 = s
      ∨ ∃ req, dec.validateCreate req = none
          ∧ (TodoHandler.Create dec service s body).1 = (service.Create s req).1 := by
  simp only [TodoHandler.Create]
  split
  · exact Or.inl rfl
  · rename_i req _
    split
    · exact Or.inl rfl
    · rename_i hval
      refine Or.inr ⟨req, hval, ?_⟩
      split <;> (rename_i hs; rw [hs])

/-- State `TodoHandler.Update` leaves: the state it was given, or the state the service
left for a request that passed validation. -/
theorem TodoHandler_Update_state {σ : Type} (dec : Decoders) (service : TodoService σ) (s : σ)
    (idStr body : String) :
    (TodoHandler.Update dec service s idStr body).1 = s
      ∨ ∃ id req, dec.validateUpdate req = none
          ∧ (TodoHandler.Update dec service s idStr body).1 = (service.Update s id req).1 := by
  simp only [TodoHandler.Update]
  split
  · exact Or.inl rfl
  · rename_i id _
    split
    · exact Or.inl rfl
    · rename_i req _
      split
      · exact Or.inl rfl
      · rename_i hval
        refine Or.inr ⟨id, req, hval, ?_⟩
        split <;> (rename_i hs; rw [hs])

/-- State the handlers `GetByID`, `Delete` and `Toggle` leave: the state they were given, or
the state the service left. -/
theorem TodoHandler_by_id_state {σ : Type} (dec : Decoders) (service : TodoService σ) (s : σ)
    (idStr : String) :
    ((TodoHandler.GetByID dec service s idStr).1 = s
        ∨ ∃ id, (TodoHandler.GetByID dec service s idStr).1 = (service.GetByID s id).1)
      ∧ ((TodoHandler.Delete dec service s idStr).1 = s
        ∨ ∃ id, (TodoHandler.Delete dec service s idStr).1 = (service.Delete s id).1)
      ∧ ((TodoHandler.Toggle dec service s idStr).1 = s
        ∨ ∃ id, (TodoHandler.Toggle dec service s idStr).1 = (service.Toggle s id).1) := by
  refine ⟨?_, ?_, ?_⟩
  · simp only [TodoHandler.GetByID]
    split
    · exact Or.inl rfl
    · rename_i id _
      refine Or.inr ⟨id, ?_⟩
      split <;> (rename_i hs; rw [hs])
  · simp only [TodoHandler.Delete]
    split
    · exact Or.inl rfl
    · rename_i id _
      refine Or.inr ⟨id, ?_⟩
      split <;> (rename_i hs; rw [hs])
  · simp only [TodoHandler.Toggle]
    split
    · exact Or.inl rfl
    · rename_i id _
      refine Or.inr ⟨id, ?_⟩
      split <;> (rename_i hs; rw [hs])

/-- State `TodoHandler.GetAll` leaves: the state the service left. -/
theorem TodoHandler_GetAll_state {σ : Type} (service : TodoService σ) (s : σ)
    (pageQuery perPageQuery : Option String) :
    ∃ page perPage, (TodoHandler.GetAll service s pageQuery perPageQuery).1
      = (service.GetAll s page perPage).1 := by
  refine ⟨(strconv.Atoi (gin.DefaultQuery pageQuery "1")).1,
    (strconv.Atoi (gin.DefaultQuery perPageQuery "20")).1, ?_⟩
  simp only [TodoHandler.GetAll]
  split <;> (rename_i hs; rw [hs])

/-- Rows the service's read operations leave. -/
theorem rows_service_reads (env : Env) (db : DB) :
    (∀ id, (todoService.GetByID (NewTodoRepository env) db id).1.rows = db.rows)
      ∧ (∀ page perPage,
          (todoService.GetAll (NewTodoRepository env) db page perPage).1.rows = db.rows) := by
  constructor
  · intro id
    simp only [todoService.GetByID, NewTodoRepository]
    have hr := rows_GetByID env db id
    split <;> (rename_i hg; rw [hg] at hr; exact hr)
  · intro page perPage
    simp only [todoService.GetAll, NewTodoRepository]
    have hr := rows_GetAll env db (if page < 1 then 1 else page)
      (if perPage < 1 ∨ perPage > 100 then 20 else perPage)
    split <;> (rename_i hg; rw [hg] at hr; exact hr)

/-- Validity survives `todoService.Delete` and `todoService.Toggle`. -/
theorem allValid_service_Delete_Toggle (env : Env) (db : DB) (id : UUID)
    (h : ∀ r ∈ db.rows, validTodo r) :
    (∀ r ∈ (todoService.Delete (NewTodoRepository env) db id).1.rows, validTodo r)
      ∧ (∀ r ∈ (todoService.Toggle (NewTodoRepository env) db id).1.rows, validTodo r) := by
  constructor
  · simp only [todoService.Delete, NewTodoRepository]
    have hd := allValid_Delete env db id h
    split <;> (rename_i hg; rw [hg] at hd; exact hd)
  · simp only [todoService.Toggle, NewTodoRepository]
    have ht := allValid_Toggle env db id h
    split
    · rename_i hg
      rw [hg] at ht
      exact ht
    · rename_i s1 hg
      rw [hg] at ht
      simp only at ht
      have hr := rows_GetByID env s1 id
      split <;> (rename_i hg2; rw [hg2] at hr; simp only at hr ⊢; rw [hr]; exact ht)

/-- Validity survives every request handled with the validation of the `validate` tags. -/
theorem allValid_handle (dec : Decoders) (env : Env) (db : DB) (request : Request)
    (h : ∀ r ∈ db.rows, validTodo r) :
    ∀ r ∈ (Request.handle (withValidator dec) (NewTodoService (NewTodoRepository env)) db
        request).1.rows, validTodo r := by
  cases request with
  | create body =>
    rcases TodoHandler_Create_state (withValidator dec)
      (NewTodoService (NewTodoRepository env)) db body with hs | ⟨req, hval, hs⟩
    · simp only [Request.handle, hs]; exact h
    · simp only [Request.handle, hs]
      exact allValid_service_Create env db req hval h
  | getByID idStr =>
    rcases (TodoHandler_by_id_state (withValidator dec)
      (NewTodoService (NewTodoRepository env)) db idStr).1 with hs | ⟨id, hs⟩
    · simp only [Request.handle, hs]; exact h
    · simp only [Request.handle]
      rw [hs]
      show ∀ r ∈ (todoService.GetByID (NewTodoRepository env) db id).1.rows, validTodo r
      rw [(rows_service_reads env db).1 id]
      exact h
  | getAll pageQuery perPageQuery =>
    obtain ⟨page, perPage, hs⟩ := TodoHandler_GetAll_state
      (NewTodoService (NewTodoRepository env)) db pageQuery perPageQuery
    simp only [Request.handle]
    rw [hs]
    show ∀ r ∈ (todoService.GetAll (NewTodoRepository env) db page perPage).1.rows, validTodo r
    rw [(rows_service_reads env db).2 page perPage]
    exact h
  | update idStr body =>
    rcases TodoHandler_Update_state (withValidator dec)
      (NewTodoService (NewTodoRepository env)) db idStr body with hs | ⟨id, req, hval, hs⟩
    · simp only [Request.handle, hs]; exact h
    · simp only [Request.handle, hs]
      exact allValid_service_Update env db id req hval h
  | delete idStr =>
    rcases (TodoHandler_by_id_state (withValidator dec)
      (NewTodoService (NewTodoRepository env)) db idStr).2.1 with hs | ⟨id, hs⟩
    · simp only [Request.handle, hs]; exact h
    · simp only [Request.handle, hs]
      exact (allValid_service_Delete_Toggle env db id h).1
  | toggle idStr =>
    rcases (TodoHandler_by_id_state (withValidator dec)
      (NewTodoService (NewTodoRepository env)) db idStr).2.2 with hs | ⟨id, hs⟩
    · simp only [Request.handle, hs]; exact h
    · simp only [Request.handle, hs]
      exact (allValid_service_Delete_Toggle env db id h).2

/-- C14: in every store state reached from the empty store by a sequence of requests to the
handlers, with the validation the `validate` tags describe and any decoding of identifiers
and bodies, every stored todo has a non-empty title and a priority that is one of `low`,
`medium`, `high`, `urgent`. -/
theorem C14_stored_title_and_priority (dec : Decoders) (env : Env) (requests : List Request) :
    ∀ r ∈ (runRequests (withValidator dec) (NewTodoService (NewTodoRepository env)) emptyDB
        requests).rows,
      r.Title ≠ "" ∧ (r.Priority = PriorityLow ∨ r.Priority = PriorityMedium
        ∨ r.Priority = PriorityHigh ∨ r.Priority = PriorityUrgent) := by
  have hgen : ∀ (requests : List Request) (db : DB), (∀ r ∈ db.rows, validTodo r) →
      ∀ r ∈ (runRequests (withValidator dec) (NewTodoService (NewTodoRepository env)) db
        requests).rows, validTodo r := by
    intro requests
    induction requests with
    | nil => intro db h; exact h
    | cons request rest ih =>
      intro db h
      simp only [runRequests, List.foldl_cons]
      exact ih _ (allValid_handle dec env db request h)
  exact hgen requests emptyDB (by intro r hr; simp [emptyDB] at hr)

/-- C14 on a run from the empty store: a todo is created with priority `high`, its
priority is updated to `urgent`, an update to the priority `someday` is rejected, and the
todo is toggled; the one stored row has its title and the priority `urgent`. -/
theorem C14_stored_title_and_priority_witness :
    runRequests (withValidator priorityDecoders) (NewTodoService (NewTodoRepository sampleEnv))
        emptyDB [.create "Buy milk", .update "1" "urgent", .update "1" "someday", .toggle "1"]
      = { rows := [{ ID := 1, Title := "Buy milk", Description := "", Completed := true,
                     Priority := "urgent", DueDate := none, CreatedAt := 1000,
                     UpdatedAt := 1003, DeletedAt := none }],
          stmts := 5 }
    ∧ ∀ r ∈ [({ ID := 1, Title := "Buy milk", Description := "", Completed := true,
                Priority := "urgent", DueDate := none, CreatedAt := 1000,
                UpdatedAt := 1003, DeletedAt := none } : Todo)],
        r.Title ≠ "" ∧ (r.Priority = PriorityLow ∨ r.Priority = PriorityMedium
          ∨ r.Priority = PriorityHigh ∨ r.Priority = PriorityUrgent) :=
  ⟨rfl, C14_stored_title_and_priority priorityDecoders sampleEnv
    [.create "Buy milk", .update "1" "urgent", .update "1" "someday", .toggle "1"]⟩

/-! ## The kind of a not-found error -/

/-- An error chain built without the sentinel does not contain it. -/
theorem plain_not_found_is_not_ErrRecordNotFound (context : String) :
    GoError.Is (.wrap context (.new "todo not found")) .ErrRecordNotFound = false := by
  simp [GoError.Is]

/-- The four service operations on an identifier without a live row, on a store that
answers. `GetByID` and `Update` fail with an error whose chain holds
`gorm.ErrRecordNotFound`; `Delete` and `Toggle` fail with an error whose chain ends in
`fmt.Errorf("todo not found")` and does not hold the sentinel. -/
theorem not_found_errors (env : Env) (db : DB) (id : UUID)
    (hnone : db.rows.find? (liveWithID id) = none) (hanswer : env.fault db.stmts = none) :
    (todoService.GetByID (NewTodoRepository env) db id).2
        = .error (.wrap "failed to get todo" (.wrap "todo not found" .ErrRecordNotFound))
    ∧ (∀ req, (todoService.Update (NewTodoRepository env) db id req).2
        = .error (.wrap "failed to get todo" (.wrap "todo not found" .ErrRecordNotFound)))
    ∧ (todoService.Delete (NewTodoRepository env) db id).2
        = some (.wrap "failed to delete todo" (.new "todo not found"))
    ∧ (todoService.Toggle (NewTodoRepository env) db id).2
        = .error (.wrap "failed to toggle todo" (.new "todo not found"))
    ∧ GoError.Is (.wrap "failed to get todo" (.wrap "todo not found" .ErrRecordNotFound))
        .ErrRecordNotFound = true
    ∧ GoError.Is (.wrap "failed to delete todo" (.new "todo not found"))
        .ErrRecordNotFound = false
    ∧ GoError.Is (.wrap "failed to toggle todo" (.new "todo not found"))
        .ErrRecordNotFound = false := by
  have hfilter : db.rows.filter (liveWithID id) = [] := by
    rw [List.filter_eq_nil_iff]
    intro r hr
    have := List.find?_eq_none.mp hnone r hr
    simpa using this
  refine ⟨?_, ?_, ?_, ?_, by decide, plain_not_found_is_not_ErrRecordNotFound _,
    plain_not_found_is_not_ErrRecordNotFound _⟩
  · simp only [todoService.GetByID, NewTodoRepository, todoRepository.GetByID, hanswer, hnone]
  · intro req
    rw [todoService_Update_eq]
    simp only [NewTodoRepository, todoRepository.GetByID, hanswer, hnone]
  · simp only [todoService.Delete, NewTodoRepository, todoRepository.Delete, hanswer, hfilter,
      List.length_nil, if_true]
  · simp only [todoService.Toggle, NewTodoRepository, todoRepository.Toggle, hanswer, hfilter,
      List.length_nil, if_true]

/-- C15 at the soft-deleted identifier 9 of the sample store: `Delete` and `Toggle` fail
with an error that `errors.Is` does not relate to `gorm.ErrRecordNotFound`, while the error
of `GetByID` on the same identifier is related to it; and the store failure of `Delete` is
not related to it either, so the sentinel does not tell the two failures of `Delete`
apart. -/
theorem C15_delete_and_toggle_lose_the_not_found_kind :
    todoService.Delete (NewTodoRepository sampleEnv) sampleDB 9
      = ({ rows := sampleDB.rows, stmts := 1 },
          some (.wrap "failed to delete todo" (.new "todo not found")))
    ∧ GoError.Is (.wrap "failed to delete todo" (.new "todo not found"))
        .ErrRecordNotFound = false
    ∧ todoService.Toggle (NewTodoRepository sampleEnv) sampleDB 9
      = ({ rows := sampleDB.rows, stmts := 1 },
          .error (.wrap "failed to toggle todo" (.new "todo not found")))
    ∧ GoError.Is (.wrap "failed to toggle todo" (.new "todo not found"))
        .ErrRecordNotFound = false
    ∧ todoService.GetByID (NewTodoRepository sampleEnv) sampleDB 9
      = ({ rows := sampleDB.rows, stmts := 1 },
          .error (.wrap "failed to get todo" (.wrap "todo not found" .ErrRecordNotFound)))
    ∧ GoError.Is (.wrap "failed to get todo" (.wrap "todo not found" .ErrRecordNotFound))
        .ErrRecordNotFound = true
    ∧ todoService.Delete (NewTodoRepository downEnv) sampleDB 9
      = ({ rows := sampleDB.rows, stmts := 1 },
          some (.wrap "failed to delete todo"
            (.wrap "failed to delete todo" (.driver "dial tcp: connection refused"))))
    ∧ GoError.Is (.wrap "failed to delete todo"
          (.wrap "failed to delete todo" (.driver "dial tcp: connection refused")))
        .ErrRecordNotFound = false := by
  refine ⟨rfl, by decide, rfl, by decide, rfl, by decide, rfl, by decide⟩

/-! ## Limit and offset of the page query -/

/-- C16, with the offset in range: for every `page` and `perPage` passed to
`todoService.GetAll`, the repository is called with the normalized pair, the limit (the
normalized page size) is between 1 and 100, and the data of a successful call is the page
cut with that limit and with the offset of 64-bit arithmetic; and whenever the product
`(page - 1) * perPage` on the normalized values does not exceed `2^63 - 1`, that offset is
the product and is non-negative. Only the statements about the offset depend on the
bound. -/
theorem C16_limit_and_offset_without_overflow (env : Env) (db : DB) (page perPage : Int) :
    (∀ total, (todoService.GetAll (fixedTotalRepo total) [] page perPage).1
        = [(if 1 ≤ page then page else 1,
            if 1 ≤ perPage ∧ perPage ≤ 100 then perPage else 20)])
    ∧ 1 ≤ (if 1 ≤ perPage ∧ perPage ≤ 100 then perPage else 20)
    ∧ (if 1 ≤ perPage ∧ perPage ≤ 100 then perPage else 20) ≤ 100
    ∧ (∀ db1 resp, todoService.GetAll (NewTodoRepository env) db page perPage = (db1, .ok resp) →
        resp.Data
          = (applyLimit (if 1 ≤ perPage ∧ perPage ≤ 100 then perPage else 20)
              (applyOffset
                (wrapInt64 (((if 1 ≤ page then page else 1) - 1)
                  * (if 1 ≤ perPage ∧ perPage ≤ 100 then perPage else 20)))
                (orderByCreatedAtDesc (db.rows.filter live)))).map Todo.ToResponse)
    ∧ (((if 1 ≤ page then page else 1) - 1)
          * (if 1 ≤ perPage ∧ perPage ≤ 100 then perPage else 20) ≤ 2 ^ 63 - 1 →
        wrapInt64 (((if 1 ≤ page then page else 1) - 1)
            * (if 1 ≤ perPage ∧ perPage ≤ 100 then perPage else 20))
          = ((if 1 ≤ page then page else 1) - 1)
            * (if 1 ≤ perPage ∧ perPage ≤ 100 then perPage else 20)
        ∧ 0 ≤ wrapInt64 (((if 1 ≤ page then page else 1) - 1)
            * (if 1 ≤ perPage ∧ perPage ≤ 100 then perPage else 20))) := by
  have hpp1 : 1 ≤ (if 1 ≤ perPage ∧ perPage ≤ 100 then perPage else 20) := by
    split_ifs <;> omega
  have hpp2 : (if 1 ≤ perPage ∧ perPage ≤ 100 then perPage else 20) ≤ 100 := by
    split_ifs <;> omega
  have hp1 : 1 ≤ (if 1 ≤ page then page else 1) := by split_ifs <;> omega
  have hnn : 0 ≤ ((if 1 ≤ page then page else 1) - 1)
      * (if 1 ≤ perPage ∧ perPage ≤ 100 then perPage else 20) :=
    Int.mul_nonneg (by omega) (by omega)
  refine ⟨?_, hpp1, hpp2, ?_, ?_⟩
  · intro total
    simp only [todoService.GetAll, getAll_page_eq, getAll_perPage_eq, fixedTotalRepo,
      List.nil_append]
  · intro db1 resp h
    simp only [todoService.GetAll, getAll_page_eq, getAll_perPage_eq, NewTodoRepository] at h
    split at h
    · simp at h
    · rename_i s1 todos total hc
      obtain ⟨htodos, _, _⟩ := todoRepository_GetAll_ok env db s1 _ _ total todos hc
      simp only [Prod.mk.injEq, Except.ok.injEq] at h
      rw [← h.2, htodos]
  · intro hrange
    have hw := wrapInt64_of_range _ hnn (by omega)
    exact ⟨hw, by rw [hw]; exact hnn⟩

/-- C16 on the sample store at page 2 with page size 1: the product 1 is in range, the
limit is 1 and the offset is 1. -/
theorem C16_limit_and_offset_without_overflow_witness :
    (((if (1 : Int) ≤ 2 then 2 else 1) - 1)
        * (if (1 : Int) ≤ 1 ∧ (1 : Int) ≤ 100 then 1 else 20) ≤ (2 ^ 63 - 1 : Int))
    ∧ (∀ total, (todoService.GetAll (fixedTotalRepo total) [] 2 1).1 = [(2, 1)])
    ∧ (1 : Int) ≤ 1
    ∧ (1 : Int) ≤ 100
    ∧ (∀ db1 resp,
        todoService.GetAll (NewTodoRepository sampleEnv) sampleDB 2 1 = (db1, .ok resp) →
          resp.Data
            = (applyLimit 1 (applyOffset (wrapInt64 ((2 - 1) * 1))
                (orderByCreatedAtDesc (sampleDB.rows.filter live)))).map Todo.ToResponse)
    ∧ wrapInt64 ((2 - 1) * 1) = (2 - 1) * 1
    ∧ 0 ≤ wrapInt64 ((2 - 1) * 1) :=
  have h := C16_limit_and_offset_without_overflow sampleEnv sampleDB 2 1
  ⟨by decide, h.1, h.2.1, h.2.2.1, h.2.2.2.1, h.2.2.2.2 (by decide)⟩

/-- C16, a product out of range: for page `2^62` and page size 4 the repository is called
with that pair, the product `(page - 1) * perPage` is `2^64 - 4`, and the offset of 64-bit
arithmetic is -4, which is negative. -/
theorem C16_offset_is_negative_at_page_2_62 :
    (todoService.GetAll (fixedTotalRepo 2) [] 4611686018427387904 4).1
      = [(4611686018427387904, 4)]
    ∧ ((4611686018427387904 : Int) - 1) * 4 = 2 ^ 64 - 4
    ∧ wrapInt64 ((4611686018427387904 - 1) * 4) = -4
    ∧ ¬ (0 ≤ wrapInt64 ((4611686018427387904 - 1) * 4)) := by
  refine ⟨rfl, by decide, by decide, by decide⟩

/-! ## The due date cannot be cleared -/

/-- C17: for every live todo with a due date and every update request, the todo after a
successful `todoService.Update` still has a due date: the request's one when the request's
`DueDate` pointer is set, the previous one when the pointer is nil, which is what both an
absent and a null `due_date` decode to. The record returned and the stored row agree. -/
theorem C17_update_never_clears_due_date (env : Env) (db db2 : DB) (id : UUID)
    (req : UpdateTodoRequest) (resp : TodoResponse) (old : Todo) (due : Time)
    (hlive : db.rows.find? (liveWithID id) = some old) (hdue : old.DueDate = some due)
    (h : todoService.Update (NewTodoRepository env) db id req = (db2, .ok resp)) :
    resp.DueDate ≠ none
      ∧ (req.DueDate = none → resp.DueDate = some due)
      ∧ (∀ d, req.DueDate = some d → resp.DueDate = some d)
      ∧ ∃ new : Todo, db2.rows.find? (liveWithID id) = some new
          ∧ new.DueDate = resp.DueDate := by
  rw [todoService_Update_eq] at h
  simp only [NewTodoRepository] at h
  split at h
  · simp at h
  · rename_i s1 fetched hget
    obtain ⟨_, hfind, hs1⟩ := todoRepository_GetByID_ok env db s1 id fetched hget
    have hsame : fetched = old := by
      rw [hlive] at hfind
      exact (Option.some.inj hfind).symm
    subst hsame
    obtain ⟨hid, hlv⟩ := liveWithID_of_find? id db.rows fetched hlive
    split at h
    · simp at h
    · rename_i s2 out hupd
      simp only [Prod.mk.injEq, Except.ok.injEq] at h
      obtain ⟨hs2, hresp⟩ := h
      have hcount : (s1.rows.filter (liveWithID fetched.ID)).length ≠ 0 := by
        rw [hs1, hid]
        exact filter_length_ne_zero_of_find? _ _ _ hlive
      obtain ⟨_, hout, hdb⟩ := todoRepository_Update_ok env s1 s2 _ out (by exact hcount) hupd
      have hrd : resp.DueDate = req.DueDate.or fetched.DueDate := by
        rw [← hresp, hout]; rfl
      have houtID : out.ID = id := by rw [hout]; exact hid
      have houtLive : out.DeletedAt = none := by rw [hout]; exact hlv
      refine ⟨?_, ?_, ?_, out, ?_, ?_⟩
      · rw [hrd, hdue]
        cases req.DueDate <;> simp
      · intro hn
        rw [hrd, hn, hdue]
        rfl
      · intro d hd
        rw [hrd, hd]
        rfl
      · rw [← hs2, hdb, hs1]
        simp only [hid]
        rw [find?_map_update (liveWithID id) (fun _ => out) _ db.rows, hlive]
        · rfl
        · intro r _
          simp [liveWithID, houtID, houtLive]
      · rw [← hresp]
        rfl

/-- C17 on the sample store: todo 7 has due date 5000; an update whose `DueDate` pointer is
nil and which sets the title keeps the due date. -/
theorem C17_update_never_clears_due_date_witness :
    sampleDB.rows.find? (liveWithID 7) = some sampleTodo
    ∧ sampleTodo.DueDate = some 5000
    ∧ todoService.Update (NewTodoRepository sampleEnv) sampleDB 7
        { Title := some "Buy oat milk", Description := none, Completed := none,
          Priority := none, DueDate := none }
      = ({ rows := [{ ID := 7, Title := "Buy oat milk", Description := "", Completed := false,
                      Priority := "high", DueDate := some 5000, CreatedAt := 100,
                      UpdatedAt := 1001, DeletedAt := none },
                    otherTodo, deletedTodo],
           stmts := 2 },
          .ok { ID := 7, Title := "Buy oat milk", Description := "", Completed := false,
                Priority := "high", DueDate := some 5000, CreatedAt := 100,
                UpdatedAt := 1001 })
    ∧ ((some 5000 : Option Time) ≠ none
      ∧ ((none : Option Time) = none → (some 5000 : Option Time) = some 5000)
      ∧ (∀ d, (none : Option Time) = some d → (some 5000 : Option Time) = some d)
      ∧ ∃ new : Todo,
          List.find? (liveWithID 7)
            [{ ID := 7, Title := "Buy oat milk", Description := "", Completed := false,
               Priority := "high", DueDate := some 5000, CreatedAt := 100,
               UpdatedAt := 1001, DeletedAt := none },
             otherTodo, deletedTodo] = some new
          ∧ new.DueDate = some 5000) :=
  ⟨rfl, rfl, rfl,
    C17_update_never_clears_due_date sampleEnv sampleDB _ 7
      { Title := some "Buy oat milk", Description := none, Completed := none,
        Priority := none, DueDate := none }
      { ID := 7, Title := "Buy oat milk", Description := "", Completed := false,
        Priority := "high", DueDate := some 5000, CreatedAt := 100, UpdatedAt := 1001 }
      sampleTodo 5000 rfl rfl rfl⟩
